import Mathlib

/-!
# Poly/mono basic-channel partition of FluidSynth (`src/synth/fluid_synth_polymono.c`)

A shallow embedding of the basic-channel API: the channel array of a synth is a list of
channel records, `int` values are integers (naturals once the API has validated them),
C loops are structural recursions or folds over the index range they run through, and
`fluid_synth_all_notes_off_LOCAL` is recorded in a log carried by the synth state.

The channel count is an `int`, so the indices and the sums and differences of indices are
exact. The sums with the caller's `val` are not bounded by the channel count: they are
32-bit `int` sums, which wrap around (`int_wrap`).
-/

namespace FluidSynth

/-! ## Constants -/

/-- Return code `FLUID_OK`. -/
abbrev FLUID_OK : Int := 0

/-- Return code `FLUID_FAILED`. -/
abbrev FLUID_FAILED : Int := -1

/-- The greatest value of a C `int` (32 bits). -/
abbrev INT_MAX : Int := 2147483647

/-- The value of a C `int` expression whose exact value is `x`: the 32-bit two's-complement
representation wraps around. -/
def int_wrap (x : Int) : Int := (x + 2147483648) % 4294967296 - 2147483648

/-- Modelled from the spec: the header constant `FLUID_CHANNEL_MODE_MASK` (omni-off and
poly-off bits) is not part of the source file; the four MIDI modes are the values 0..3. -/
abbrev FLUID_CHANNEL_MODE_MASK : Nat := 3

/-- MIDI mode 0 (the source comments name the modes 0, 1, 2, 3). -/
abbrev FLUID_CHANNEL_MODE_OMNION_POLY : Nat := 0

/-- MIDI mode 1. -/
abbrev FLUID_CHANNEL_MODE_OMNION_MONO : Nat := 1

/-- MIDI mode 2. -/
abbrev FLUID_CHANNEL_MODE_OMNIOFF_POLY : Nat := 2

/-- MIDI mode 3. -/
abbrev FLUID_CHANNEL_MODE_OMNIOFF_MONO : Nat := 3

/-- First value after the four modes. -/
abbrev FLUID_CHANNEL_MODE_LAST : Nat := 4

/-- Modelled from the spec: the header flag `FLUID_CHANNEL_BASIC` (spec: `isBasic`) is not
part of the source file; it is the bit above the two mode bits. -/
abbrev FLUID_CHANNEL_BASIC : Nat := 4

/-- Modelled from the spec: the header flag `FLUID_CHANNEL_ENABLED` (spec: `enabled`) is not
part of the source file; it is the bit above `FLUID_CHANNEL_BASIC`. -/
abbrev FLUID_CHANNEL_ENABLED : Nat := 8

/-- Modelled from the spec: the header mask of the basic-channel information held in
`mode` (mode bits, basic flag, enabled flag). -/
abbrev MASK_BASICCHANINFOS : Nat :=
  FLUID_CHANNEL_MODE_MASK ||| FLUID_CHANNEL_BASIC ||| FLUID_CHANNEL_ENABLED

/-! ## Data model -/

/-- The fields of `fluid_channel_t` this file reads and writes. `mode` is the flag word
(mode bits, basic, enabled and the breath bits above them), `mode_val` the number of
channels of a basic channel. -/
structure fluid_channel_t where
  mode : Nat
  mode_val : Nat
  legatomode : Int
  portamentomode : Int
deriving DecidableEq, Repr, Inhabited

/-- The struct `fluid_basic_channel_infos_t` of the API (three `int` fields). -/
structure fluid_basic_channel_infos_t where
  basicchan : Int
  mode : Int
  val : Int
deriving DecidableEq, Repr, Inhabited

/-- The synth instance: its channel array (`midi_channels` is the length of the array) and
the log of the `fluid_synth_all_notes_off_LOCAL` calls made so far, oldest first: each
entry is the channel notified and the record of that channel at the moment of the call. -/
structure fluid_synth_t where
  channel : List fluid_channel_t
  notes_off : List (Nat × fluid_channel_t)
deriving DecidableEq, Repr, Inhabited

/-- The field `synth->midi_channels`. -/
def fluid_synth_t.midi_channels (synth : fluid_synth_t) : Nat := synth.channel.length

/-- The read `synth->channel[i]`. -/
def fluid_synth_t.chan (synth : fluid_synth_t) (i : Nat) : fluid_channel_t :=
  synth.channel.getD i default

/-- The write `*synth->channel[i] = c`. -/
def fluid_synth_t.set_chan (synth : fluid_synth_t) (i : Nat) (c : fluid_channel_t) :
    fluid_synth_t :=
  { synth with channel := synth.channel.set i c }

/-- C truth value of `chan->mode & FLUID_CHANNEL_BASIC`. -/
def is_basic (c : fluid_channel_t) : Bool := (c.mode &&& FLUID_CHANNEL_BASIC) != 0

/-- C truth value of `chan->mode & FLUID_CHANNEL_ENABLED`. -/
def is_enabled (c : fluid_channel_t) : Bool := (c.mode &&& FLUID_CHANNEL_ENABLED) != 0

/-- The value `chan->mode & FLUID_CHANNEL_MODE_MASK`. -/
def mode_bits (c : fluid_channel_t) : Nat := c.mode &&& FLUID_CHANNEL_MODE_MASK

/-- Modelled from the spec: the macro `fluid_channel_set_basic_channel_info(chan, Infos)` is
not part of the source file. It replaces the mode bits, the basic flag and the enabled flag
of `mode` by those of `Infos` and keeps the other bits:
`(mode & ~MASK_BASICCHANINFOS) | (Infos & MASK_BASICCHANINFOS)`, where `m & ~k` is written
`m ^^^ (m &&& k)` on naturals. -/
def fluid_channel_set_basic_channel_info (c : fluid_channel_t) (infos : Nat) :
    fluid_channel_t :=
  { c with mode := (c.mode ^^^ (c.mode &&& MASK_BASICCHANINFOS)) |||
                     (infos &&& MASK_BASICCHANINFOS) }

/-- Modelled from the spec: the macro `fluid_channel_reset_basic_channel_info(chan)` is not
part of the source file. It clears the mode bits, the basic flag and the enabled flag:
`mode &= ~MASK_BASICCHANINFOS`. -/
def fluid_channel_reset_basic_channel_info (c : fluid_channel_t) : fluid_channel_t :=
  { c with mode := c.mode ^^^ (c.mode &&& MASK_BASICCHANINFOS) }

/-- Modelled from the spec: `fluid_synth_all_notes_off_LOCAL` is not part of the source
file. It touches no channel mode state; the call is recorded in the log, with the record
the notified channel has at that moment. -/
def fluid_synth_all_notes_off_LOCAL (synth : fluid_synth_t) (chan : Nat) : fluid_synth_t :=
  { synth with notes_off := synth.notes_off ++ [(chan, synth.chan chan)] }

/-! ## `fluid_synth_set_basic_channel_LOCAL` -/

/-- The loop `for (i = basicchan - 1; i >= 0; i--)` that searches the previous basic
channel: called with `basicchan`, it returns the greatest basic index below it, or `-1`
(the initial value of `prev_basic_chan`). -/
def search_prev_basic_chan (synth : fluid_synth_t) : Nat → Int
  | 0 => -1
  | i + 1 =>
    if is_basic (synth.chan i) then (i : Int) else search_prev_basic_chan synth i

/-- The loop `for (last_end_range = basicchan + 1; last_end_range < n_chan; last_end_range++)`
that stops at the next basic channel; the first argument is the number of iterations left,
`n_chan - last_end_range`. -/
def scan_last_end_range (synth : fluid_synth_t) : Nat → Nat → Nat
  | 0, last_end_range => last_end_range
  | left + 1, last_end_range =>
    if is_basic (synth.chan last_end_range) then last_end_range
    else scan_last_end_range synth left (last_end_range + 1)

/-- The `switch (mode)` that sets `last_begin_range`; `mode` is already masked, so the
last arm is not reached. The sum `basicchan + val` is an `int` sum: it wraps around, to a
negative value when `basicchan + val` exceeds `INT_MAX`. -/
def compute_last_begin_range (basicchan mode val last_end_range : Nat) : Int :=
  match mode with
  | 0 => last_end_range
  | 1 => last_end_range
  | 2 => basicchan + 1
  | 3 => if val ≠ 0 then int_wrap ((basicchan : Int) + (val : Int)) else last_end_range
  | _ => last_end_range

/-- The assignment `val = last_begin_range - basicchan`. When `last_begin_range` is not
negative it is a difference of two values of `[0, n_chan]`, which is exact; when the sum
of the `switch` has wrapped to a negative `last_begin_range`, the difference wraps
around again, back to the `val` of the call. The difference is never negative
(`limited_val_int`), and it is stored in `mode_val`, a natural here. -/
def limited_val (basicchan : Nat) (last_begin_range : Int) : Nat :=
  if last_begin_range < 0 then (int_wrap (last_begin_range - (basicchan : Int))).toNat
  else (last_begin_range - (basicchan : Int)).toNat

/-- One iteration of the loop `for (i = basicchan; i < last_end_range; i++)`: the state is
the synth and the local variable `val`. -/
def set_basic_channel_step (basicchan mode last_begin_range : Nat)
    (st : fluid_synth_t × Nat) (i : Nat) : fluid_synth_t × Nat :=
  let synth := fluid_synth_all_notes_off_LOCAL st.1 i
  let new_mode := if i = basicchan then mode ||| FLUID_CHANNEL_BASIC else mode
  let val := if i = basicchan then st.2 else 0
  let new_mode := if i < last_begin_range then new_mode ||| FLUID_CHANNEL_ENABLED else 0
  let c := fluid_channel_set_basic_channel_info (synth.chan i) new_mode
  (synth.set_chan i { c with mode_val := val }, val)

/-- The function `fluid_synth_set_basic_channel_LOCAL`. Its callers pass validated,
non-negative arguments, so they are naturals here. Returns the result code and the synth
after the call. The local variable `last_begin_range` is an `int` that the wrapped sum can
make negative; the index `i` of the write loop is never negative, so its test
`i < last_begin_range` is the test against the natural `last_begin_range.toNat` (0 for a
negative `last_begin_range`). -/
def fluid_synth_set_basic_channel_LOCAL (synth : fluid_synth_t)
    (basicchan mode val : Nat) : Int × fluid_synth_t :=
  let n_chan := synth.midi_channels
  if basicchan < n_chan then
    let prev_basic_chan : Int :=
      if !is_basic (synth.chan basicchan) then
        if is_enabled (synth.chan basicchan) then search_prev_basic_chan synth basicchan
        else -1
      else -1
    let last_end_range :=
      scan_last_end_range synth (n_chan - (basicchan + 1)) (basicchan + 1)
    let mode := mode &&& FLUID_CHANNEL_MODE_MASK
    let last_begin_range : Int :=
      compute_last_begin_range basicchan mode val last_end_range
    if last_begin_range > (last_end_range : Int) then (FLUID_FAILED, synth)
    else
      let synth :=
        if prev_basic_chan ≥ 0 then
          synth.set_chan prev_basic_chan.toNat
            { synth.chan prev_basic_chan.toNat with
              mode_val := ((basicchan : Int) - prev_basic_chan).toNat }
        else synth
      let val := limited_val basicchan last_begin_range
      let st := (List.range' basicchan (last_end_range - basicchan)).foldl
        (set_basic_channel_step basicchan mode last_begin_range.toNat) (synth, val)
      (FLUID_OK, st.1)
  else (FLUID_FAILED, synth)

/-! ## `fluid_synth_set_basic_channel` -/

/-- The function `fluid_synth_set_basic_channel`; `none` is a NULL `basic_channel_infos`.
The macro `FLUID_API_ENTRY_CHAN` (not part of the source file) rejects a channel outside
`[0, midi_channels)`. The test `chan + val > synth->midi_channels` is made on the `int`
sum, which wraps around. -/
def fluid_synth_set_basic_channel (synth : fluid_synth_t)
    (basic_channel_infos : Option fluid_basic_channel_infos_t) : Int × fluid_synth_t :=
  match basic_channel_infos with
  | none => (FLUID_FAILED, synth)
  | some infos =>
    let chan := infos.basicchan
    let mode := infos.mode
    let val := infos.val
    if ¬ (mode ≥ 0) then (FLUID_FAILED, synth)
    else if ¬ (mode < FLUID_CHANNEL_MODE_LAST) then (FLUID_FAILED, synth)
    else if ¬ (val ≥ 0) then (FLUID_FAILED, synth)
    else if ¬ (chan ≥ 0) then (FLUID_FAILED, synth)
    else if chan ≥ synth.midi_channels then (FLUID_FAILED, synth)
    else if int_wrap (chan + val) > synth.midi_channels then (FLUID_FAILED, synth)
    else fluid_synth_set_basic_channel_LOCAL synth chan.toNat mode.toNat val.toNat

/-! ## `fluid_synth_reset_basic_channels` -/

/-- The test of the validation loop of `fluid_synth_reset_basic_channels` on one entry; the
sum `basicchan + val` is an `int` sum, which wraps around. -/
def entry_invalid (n_chan : Nat) (e : fluid_basic_channel_infos_t) : Bool :=
  decide (e.basicchan < 0) || decide (e.basicchan ≥ n_chan) ||
  decide (e.mode < 0) || decide (e.mode ≥ FLUID_CHANNEL_MODE_LAST) ||
  decide (e.val < 0) || decide (int_wrap (e.basicchan + e.val) > n_chan)

/-- The loop that clears the previous list of basic channels. -/
def clear_basic_channels (synth : fluid_synth_t) : fluid_synth_t :=
  { synth with channel := synth.channel.map fun c =>
      { fluid_channel_reset_basic_channel_info c with mode_val := 0 } }

/-- One iteration of the loop that marks the basic channels of the new list (the branch
that finds the channel already marked only logs a notice). -/
def mark_basic_channel (synth : fluid_synth_t) (e : fluid_basic_channel_infos_t) :
    fluid_synth_t :=
  let basic_chan := e.basicchan.toNat
  if is_basic (synth.chan basic_chan) then synth
  else synth.set_chan basic_chan
    { synth.chan basic_chan with mode := (synth.chan basic_chan).mode ||| FLUID_CHANNEL_BASIC }

/-- One iteration of the loop that applies the entries; the state is `result` and the
synth. -/
def apply_basic_channel (st : Int × fluid_synth_t) (e : fluid_basic_channel_infos_t) :
    Int × fluid_synth_t :=
  let r := fluid_synth_set_basic_channel_LOCAL st.2 e.basicchan.toNat e.mode.toNat e.val.toNat
  (if st.1 = FLUID_OK then r.1 else st.1, r.2)

/-- The function `fluid_synth_reset_basic_channels`; `none` is a NULL `basic_channel_infos`,
and the entries read are the first `n` of the array. -/
def fluid_synth_reset_basic_channels (synth : fluid_synth_t) (n : Int)
    (basic_channel_infos : Option (List fluid_basic_channel_infos_t)) :
    Int × fluid_synth_t :=
  if ¬ (n ≥ 0) then (FLUID_FAILED, synth)
  else
    let n_chan := synth.midi_channels
    if n > n_chan then (FLUID_FAILED, synth)
    else
      match (if n ≠ 0 then basic_channel_infos else none) with
      | some infos =>
        let entries := infos.take n.toNat
        if entries.any (entry_invalid n_chan) then (FLUID_FAILED, synth)
        else
          let synth := clear_basic_channels synth
          let synth := entries.foldl mark_basic_channel synth
          entries.foldl apply_basic_channel (FLUID_OK, synth)
      | none =>
        let synth := clear_basic_channels synth
        fluid_synth_set_basic_channel_LOCAL synth 0 FLUID_CHANNEL_MODE_OMNION_POLY 0

/-! ## `fluid_synth_get_basic_channels` -/

/-- The function `fluid_synth_get_basic_channels`. `want_infos` says whether
`basic_channel_infos` is non-NULL and `alloc_ok` whether `FLUID_ARRAY` succeeds when it is
called; the result is the returned count and the table, if one is produced. -/
def fluid_synth_get_basic_channels (synth : fluid_synth_t) (want_infos alloc_ok : Bool) :
    Int × Option (List fluid_basic_channel_infos_t) :=
  let n_chan := synth.midi_channels
  let n_basic_chan : Nat := (List.range n_chan).foldl
    (fun n i => if is_basic (synth.chan i) then n + 1 else n) 0
  if want_infos && (n_basic_chan != 0) then
    if alloc_ok then
      (n_basic_chan, some ((List.range n_chan).filterMap fun i =>
        if is_basic (synth.chan i) then
          some { basicchan := i, mode := mode_bits (synth.chan i),
                 val := (synth.chan i).mode_val }
        else none))
    else (FLUID_FAILED, none)
  else (n_basic_chan, none)

/-! ## Specification-side notions -/

/-- Index of the first basic channel after `b`, or the channel count when there is none
(the `groupEnd` of the spec). -/
def group_end (synth : fluid_synth_t) (b : Nat) : Nat :=
  ((List.range' (b + 1) (synth.midi_channels - (b + 1))).find?
    fun j => is_basic (synth.chan j)).getD synth.midi_channels

/-- The `enabledEnd` of the spec for a request `(b, mode, val)` in a group that ends at
`groupEnd`. -/
def enabled_end (b mode val groupEnd : Nat) : Nat :=
  if mode = FLUID_CHANNEL_MODE_OMNIOFF_POLY then b + 1
  else if mode = FLUID_CHANNEL_MODE_OMNIOFF_MONO ∧ val > 0 then b + val
  else groupEnd

/-- The local variable `last_begin_range` of `fluid_synth_set_basic_channel_LOCAL` as its
write loop compares it with the indices, for a request `(b, mode, val)` in a group that
ends at `groupEnd`: it is `enabled_end` unless the `int` sum `b + val` wraps around. -/
def begin_range (b mode val groupEnd : Nat) : Nat :=
  (compute_last_begin_range b mode val groupEnd).toNat

/-- The local variable `val` of `fluid_synth_set_basic_channel_LOCAL` when its write loop
starts, which the loop stores in `mode_val` at `b`. -/
def begin_val (b mode val groupEnd : Nat) : Nat :=
  limited_val b (compute_last_begin_range b mode val groupEnd)

/-- A channel with the given flag word and width (test data). -/
def mk_chan (mode mode_val : Nat) : fluid_channel_t :=
  { mode := mode, mode_val := mode_val, legatomode := 0, portamentomode := 0 }

/-- The default partition of a synth with `n` channels: channel 0 basic, every channel
enabled in Omni-On/Poly (test data). -/
def default_synth (n : Nat) : fluid_synth_t :=
  { channel := (List.range n).map fun i =>
      if i = 0 then mk_chan (FLUID_CHANNEL_BASIC ||| FLUID_CHANNEL_ENABLED) n
      else mk_chan FLUID_CHANNEL_ENABLED 0,
    notes_off := [] }

/-! ## Auxiliary definitions for the proofs -/

/-- The flag word after `fluid_channel_set_basic_channel_info`. -/
def set_info_word (m x : Nat) : Nat := (m ^^^ (m &&& 15)) ||| (x &&& 15)

/-- The flag word `new_mode` the write loop computes for index `i`. -/
def new_mode_at (b m lbr i : Nat) : Nat :=
  if i < lbr then (if i = b then m ||| FLUID_CHANNEL_BASIC else m) ||| FLUID_CHANNEL_ENABLED
  else 0

/-- The record the write loop stores at index `i`, from the record `c` found there. -/
def written_chan (b m lbr v : Nat) (c : fluid_channel_t) (i : Nat) : fluid_channel_t :=
  { fluid_channel_set_basic_channel_info c (new_mode_at b m lbr i) with
    mode_val := if i = b then v else 0 }

/-- A basic channel at `g`, or the end of the array: `g` is the first such index after
`b`. -/
def is_group_end (s : fluid_synth_t) (b g : Nat) : Prop :=
  b < g ∧ g ≤ s.midi_channels ∧ (∀ j, b < j → j < g → is_basic (s.chan j) = false) ∧
    (g < s.midi_channels → is_basic (s.chan g) = true)

/-- The value of the local variable `prev_basic_chan` after the backward search. -/
def prev_basic_chan_of (s : fluid_synth_t) (b : Nat) : Int :=
  if !is_basic (s.chan b) then
    if is_enabled (s.chan b) then search_prev_basic_chan s b else -1
  else -1

/-- The record found at `j` after the narrowing of the previous basic channel. -/
def narrowed_chan (s : fluid_synth_t) (b j : Nat) : fluid_channel_t :=
  if prev_basic_chan_of s b = (j : Int) then { s.chan j with mode_val := b - j } else s.chan j

/-- The state with basic channels 0 and 4 on eight channels (test data). -/
def synth_leaders_0_4 : fluid_synth_t :=
  (fluid_synth_set_basic_channel (default_synth 8) (some ⟨4, 0, 0⟩)).2

/-- The partition invariant: the enabled range `[L, L + mode_val L)` of a basic channel `L`
stops before the next basic channel and before the end of the array, and a channel is
enabled exactly when it lies in the enabled range of the nearest basic channel at or below
it. -/
structure partition_inv (s : fluid_synth_t) : Prop where
  range_le : ∀ L L', L < L' → L' < s.midi_channels → is_basic (s.chan L) = true →
    is_basic (s.chan L') = true → L + (s.chan L).mode_val ≤ L'
  range_le_end : ∀ L, L < s.midi_channels → is_basic (s.chan L) = true →
    L + (s.chan L).mode_val ≤ s.midi_channels
  enabled_iff : ∀ L i, L ≤ i → i < s.midi_channels → is_basic (s.chan L) = true →
    (∀ j, L < j → j ≤ i → is_basic (s.chan j) = false) →
    (is_enabled (s.chan i) = true ↔ i < L + (s.chan L).mode_val)
  orphan : ∀ i, i < s.midi_channels → (∀ j, j ≤ i → is_basic (s.chan j) = false) →
    is_enabled (s.chan i) = false

/-- The width `mode_val` is 0 on the channels that are not basic. -/
def nonbasic_val_zero (s : fluid_synth_t) : Prop :=
  ∀ i, i < s.midi_channels → is_basic (s.chan i) = false → (s.chan i).mode_val = 0

/-- The states of the basic-channel partition: the default state (what
`fluid_synth_reset_basic_channels` produces with no entries) and every state reached from
it by calls of `fluid_synth_set_basic_channel` and `fluid_synth_reset_basic_channels`,
whatever they return. -/
inductive Reachable : fluid_synth_t → Prop
  | default (s0 : fluid_synth_t) : Reachable (fluid_synth_reset_basic_channels s0 0 none).2
  | set_basic_channel (s : fluid_synth_t) (infos : Option fluid_basic_channel_infos_t) :
      Reachable s → Reachable (fluid_synth_set_basic_channel s infos).2
  | reset_basic_channels (s : fluid_synth_t) (n : Int)
      (infos : Option (List fluid_basic_channel_infos_t)) :
      Reachable s → Reachable (fluid_synth_reset_basic_channels s n infos).2

/-- The state after the insertion of basic channel 3 in Omni-Off/Poly on the default
partition of eight channels (test data). -/
def synth_insert_3 : fluid_synth_t :=
  (fluid_synth_set_basic_channel
    (fluid_synth_reset_basic_channels (default_synth 8) 0 none).2 (some ⟨3, 2, 0⟩)).2

/-- The state after the request `(1, Omni-Off/Mono, INT_MAX)` on the default partition of
eight channels, whose sum `1 + INT_MAX` wraps around (test data). -/
def synth_wrapped_1 : fluid_synth_t :=
  (fluid_synth_set_basic_channel
    (fluid_synth_reset_basic_channels (default_synth 8) 0 none).2
    (some ⟨1, 3, 2147483647⟩)).2

/-- No channel is enabled and every `mode_val` is 0 (the state after the clearing loop and
during the marking loop). -/
def all_disabled (s : fluid_synth_t) : Prop :=
  ∀ j, is_enabled (s.chan j) = false ∧ (s.chan j).mode_val = 0

/-- The state in which `fluid_synth_reset_basic_channels` starts to apply the entries:
cleared, with the basic channels of the entries marked. -/
def prepared (s : fluid_synth_t) (entries : List fluid_basic_channel_infos_t) :
    fluid_synth_t :=
  entries.foldl mark_basic_channel (clear_basic_channels s)

/-- The states reached from the default state by calls of `fluid_synth_set_basic_channel`
and `fluid_synth_reset_basic_channels` that each return `FLUID_OK` and in which no sum
`basicchan + val` exceeds `INT_MAX` (no `int` sum wraps around). As the C function
requires, the array passed to `fluid_synth_reset_basic_channels` holds at least `n`
entries. -/
inductive ReachableOK : fluid_synth_t → Prop
  | default (s0 : fluid_synth_t) : ReachableOK (fluid_synth_reset_basic_channels s0 0 none).2
  | set_basic_channel (s : fluid_synth_t) (infos : Option fluid_basic_channel_infos_t) :
      ReachableOK s → (∀ e, infos = some e → e.basicchan + e.val ≤ INT_MAX) →
      (fluid_synth_set_basic_channel s infos).1 = FLUID_OK →
      ReachableOK (fluid_synth_set_basic_channel s infos).2
  | reset_basic_channels (s : fluid_synth_t) (n : Int)
      (infos : Option (List fluid_basic_channel_infos_t)) :
      ReachableOK s → (∀ a, infos = some a → n ≤ a.length) →
      (∀ a, infos = some a → ∀ e ∈ a.take n.toNat, e.basicchan + e.val ≤ INT_MAX) →
      (fluid_synth_reset_basic_channels s n infos).1 = FLUID_OK →
      ReachableOK (fluid_synth_reset_basic_channels s n infos).2

/-- The width of the basic channel `L` is the one its mode determines: at least 1, the
whole group in the Omni-On modes, and 1 in Omni-Off/Poly. -/
def width_by_mode (s : fluid_synth_t) (L : Nat) : Prop :=
  1 ≤ (s.chan L).mode_val ∧
  (mode_bits (s.chan L) = FLUID_CHANNEL_MODE_OMNION_POLY ∨
    mode_bits (s.chan L) = FLUID_CHANNEL_MODE_OMNION_MONO →
      L + (s.chan L).mode_val = group_end s L) ∧
  (mode_bits (s.chan L) = FLUID_CHANNEL_MODE_OMNIOFF_POLY → (s.chan L).mode_val = 1)

/-- The synth after the application of one entry of a list. -/
def apply_entry (s : fluid_synth_t) (e : fluid_basic_channel_infos_t) : fluid_synth_t :=
  (fluid_synth_set_basic_channel_LOCAL s e.basicchan.toNat e.mode.toNat e.val.toNat).2

/-- The entries of the loop that applies them, each with the result of its application:
an entry is applied to the synth its predecessor left. -/
def apply_trace : fluid_synth_t → List fluid_basic_channel_infos_t →
    List (fluid_basic_channel_infos_t × Int)
  | _, [] => []
  | s, e :: l =>
    (e, (fluid_synth_set_basic_channel_LOCAL s e.basicchan.toNat e.mode.toNat e.val.toNat).1) ::
      apply_trace (apply_entry s e) l

/-- The sum `basicchan + val` of the entry does not exceed `INT_MAX`, on the naturals that
`fluid_synth_set_basic_channel_LOCAL` receives: the `int` sum does not wrap around. -/
def no_wrap (e : fluid_basic_channel_infos_t) : Prop :=
  ((e.basicchan.toNat : Nat) : Int) + ((e.val.toNat : Nat) : Int) ≤ INT_MAX

/-- The synth `s` has the channel count and the basic flags of `ref`. -/
def same_basic (ref s : fluid_synth_t) : Prop :=
  s.midi_channels = ref.midi_channels ∧ ∀ j, is_basic (s.chan j) = is_basic (ref.chan j)

/-- The record an entry stores at index `j` of its group, from the record `c` found there;
the group is read in `ref`. -/
def entry_record (ref : fluid_synth_t) (e : fluid_basic_channel_infos_t)
    (c : fluid_channel_t) (j : Nat) : fluid_channel_t :=
  written_chan e.basicchan.toNat (e.mode.toNat &&& 3)
    (begin_range e.basicchan.toNat (e.mode.toNat &&& 3) e.val.toNat
      (group_end ref e.basicchan.toNat))
    (begin_val e.basicchan.toNat (e.mode.toNat &&& 3) e.val.toNat
      (group_end ref e.basicchan.toNat)) c j

/-- The effect of the application of an entry on the record at index `j`. -/
def entry_step (ref : fluid_synth_t) (j : Nat) (c : fluid_channel_t)
    (e : fluid_basic_channel_infos_t) : fluid_channel_t :=
  if e.basicchan.toNat ≤ j ∧ j < group_end ref e.basicchan.toNat then entry_record ref e c j
  else c

/-- The effect of the application of a list of entries on the record at index `j`. -/
def chan_fold (ref : fluid_synth_t) (j : Nat) (l : List fluid_basic_channel_infos_t)
    (c : fluid_channel_t) : fluid_channel_t :=
  l.foldl (entry_step ref j) c

/-- The entry list without the entries that a later entry with the same basic channel
supersedes. -/
def remove_superseded : List fluid_basic_channel_infos_t → List fluid_basic_channel_infos_t
  | [] => []
  | e :: l =>
    if l.any (fun x => decide (x.basicchan = e.basicchan)) then remove_superseded l
    else e :: remove_superseded l

/-- The table `fluid_synth_get_basic_channels` fills. -/
def basic_channel_table (s : fluid_synth_t) : List fluid_basic_channel_infos_t :=
  (List.range s.midi_channels).filterMap fun i =>
    if is_basic (s.chan i) then
      some { basicchan := i, mode := mode_bits (s.chan i), val := (s.chan i).mode_val }
    else none

/-- The state after a bulk replace that fails on its first entry and applies its second
(test data). -/
def synth_failed_replace : fluid_synth_t :=
  (fluid_synth_reset_basic_channels
    (fluid_synth_reset_basic_channels (default_synth 8) 0 none).2 2
    (some [⟨0, 3, 6⟩, ⟨4, 0, 0⟩])).2

/-- The function `fluid_synth_get_channel_mode`; `mode_infos` says whether the output
struct is non-NULL, and the macro `FLUID_API_ENTRY_CHAN` (not part of the source file)
rejects a channel outside `[0, midi_channels)`. The loop `for (i = chan; i >= 0; i--)` is
the backward search started at `chan`. The function only reads the synth: the result is the
code and the struct it fills, if it fills it. -/
def fluid_synth_get_channel_mode (synth : fluid_synth_t) (chan : Int) (mode_infos : Bool) :
    Int × Option fluid_basic_channel_infos_t :=
  if !mode_infos then (FLUID_FAILED, none)
  else if ¬ (chan ≥ 0) then (FLUID_FAILED, none)
  else if chan ≥ synth.midi_channels then (FLUID_FAILED, none)
  else
    let basicchan : Int :=
      if is_enabled (synth.chan chan.toNat) then
        search_prev_basic_chan synth (chan.toNat + 1)
      else -1
    (FLUID_OK, some { basicchan := basicchan,
                      mode := (synth.chan chan.toNat).mode,
                      val := (synth.chan chan.toNat).mode_val })

/-- The synth of `fluid_synth_set_basic_channel_LOCAL` after the narrowing of the previous
basic channel, before the write loop. -/
def narrowed_synth (s : fluid_synth_t) (b : Nat) : fluid_synth_t :=
  if prev_basic_chan_of s b ≥ 0 then
    s.set_chan (prev_basic_chan_of s b).toNat
      { s.chan (prev_basic_chan_of s b).toNat with
        mode_val := ((b : Int) - prev_basic_chan_of s b).toNat }
  else s

/-- The synth and the local variable `val` of a successful
`fluid_synth_set_basic_channel_LOCAL` when its write loop reaches index `i`: after the
narrowing and the iterations `basicchan, ..., i - 1`. -/
def state_at_iteration (s : fluid_synth_t) (basicchan mode val i : Nat) :
    fluid_synth_t × Nat :=
  (List.range' basicchan (i - basicchan)).foldl
    (set_basic_channel_step basicchan (mode &&& 3)
      (begin_range basicchan (mode &&& 3) val (group_end s basicchan)))
    (narrowed_synth s basicchan,
      begin_val basicchan (mode &&& 3) val (group_end s basicchan))

/-- The function `fluid_synth_set_legato_mode`. The header constant
`FLUID_CHANNEL_LEGATO_MODE_LAST` is not part of the source file and is a parameter; the
macro `FLUID_API_ENTRY_CHAN` rejects a channel outside `[0, midi_channels)`. -/
def fluid_synth_set_legato_mode (FLUID_CHANNEL_LEGATO_MODE_LAST : Int)
    (synth : fluid_synth_t) (chan legatomode : Int) : Int × fluid_synth_t :=
  if ¬ (legatomode ≥ 0) then (FLUID_FAILED, synth)
  else if ¬ (legatomode < FLUID_CHANNEL_LEGATO_MODE_LAST) then (FLUID_FAILED, synth)
  else if ¬ (chan ≥ 0) then (FLUID_FAILED, synth)
  else if chan ≥ synth.midi_channels then (FLUID_FAILED, synth)
  else (FLUID_OK,
    synth.set_chan chan.toNat { synth.chan chan.toNat with legatomode := legatomode })

/-- The function `fluid_synth_get_legato_mode`; `legatomode` says whether the output
pointer is non-NULL. The function only reads the synth. -/
def fluid_synth_get_legato_mode (synth : fluid_synth_t) (chan : Int) (legatomode : Bool) :
    Int × Option Int :=
  if !legatomode then (FLUID_FAILED, none)
  else if ¬ (chan ≥ 0) then (FLUID_FAILED, none)
  else if chan ≥ synth.midi_channels then (FLUID_FAILED, none)
  else (FLUID_OK, some (synth.chan chan.toNat).legatomode)

/-- The function `fluid_synth_set_portamento_mode`. The header constant
`FLUID_CHANNEL_PORTAMENTO_MODE_LAST` is not part of the source file and is a parameter. -/
def fluid_synth_set_portamento_mode (FLUID_CHANNEL_PORTAMENTO_MODE_LAST : Int)
    (synth : fluid_synth_t) (chan portamentomode : Int) : Int × fluid_synth_t :=
  if ¬ (portamentomode ≥ 0) then (FLUID_FAILED, synth)
  else if ¬ (portamentomode < FLUID_CHANNEL_PORTAMENTO_MODE_LAST) then (FLUID_FAILED, synth)
  else if ¬ (chan ≥ 0) then (FLUID_FAILED, synth)
  else if chan ≥ synth.midi_channels then (FLUID_FAILED, synth)
  else (FLUID_OK,
    synth.set_chan chan.toNat { synth.chan chan.toNat with portamentomode := portamentomode })

/-- The function `fluid_synth_get_portamento_mode`; `portamentomode` says whether the
output pointer is non-NULL. The function only reads the synth. -/
def fluid_synth_get_portamento_mode (synth : fluid_synth_t) (chan : Int)
    (portamentomode : Bool) : Int × Option Int :=
  if !portamentomode then (FLUID_FAILED, none)
  else if ¬ (chan ≥ 0) then (FLUID_FAILED, none)
  else if chan ≥ synth.midi_channels then (FLUID_FAILED, none)
  else (FLUID_OK, some (synth.chan chan.toNat).portamentomode)

/-- Modelled from the spec: the header mask `FLUID_CHANNEL_BREATH_MASK` is not part of the
source file; the breath mode of a channel is held in three flags of `mode` above the
enabled flag. -/
abbrev FLUID_CHANNEL_BREATH_MASK : Nat := 112

/-- Modelled from the spec: the macro `fluid_channel_set_breath_info(chan, BreathInfos)` is
not part of the source file. It replaces the breath flags of `mode` by those of
`BreathInfos`: `(mode & ~FLUID_CHANNEL_BREATH_MASK) | (BreathInfos & FLUID_CHANNEL_BREATH_MASK)`;
the bits of the `int` under the mask are those of `BreathInfos % 128`. -/
def fluid_channel_set_breath_info (c : fluid_channel_t) (BreathInfos : Int) :
    fluid_channel_t :=
  { c with mode := (c.mode ^^^ (c.mode &&& FLUID_CHANNEL_BREATH_MASK)) |||
                     ((BreathInfos % 128).toNat &&& FLUID_CHANNEL_BREATH_MASK) }

/-- Modelled from the spec: the macro `fluid_channel_get_breath_info(chan)` is not part of
the source file. It reads the breath flags: `mode & FLUID_CHANNEL_BREATH_MASK`. -/
def fluid_channel_get_breath_info (c : fluid_channel_t) : Nat :=
  c.mode &&& FLUID_CHANNEL_BREATH_MASK

/-- Modelled from the spec: the closed value set of the breath mode, the combinations of
the three breath flags. -/
def breath_value_valid (v : Int) : Prop :=
  0 ≤ v ∧ v.toNat &&& FLUID_CHANNEL_BREATH_MASK = v.toNat

/-- The function `fluid_synth_set_breath_mode`: the only check is the one of the macro
`FLUID_API_ENTRY_CHAN` on the channel. -/
def fluid_synth_set_breath_mode (synth : fluid_synth_t) (chan breathmode : Int) :
    Int × fluid_synth_t :=
  if ¬ (chan ≥ 0) then (FLUID_FAILED, synth)
  else if chan ≥ synth.midi_channels then (FLUID_FAILED, synth)
  else (FLUID_OK,
    synth.set_chan chan.toNat (fluid_channel_set_breath_info (synth.chan chan.toNat) breathmode))

/-- The function `fluid_synth_get_breath_mode`; `breathmode` says whether the output
pointer is non-NULL. The function only reads the synth. -/
def fluid_synth_get_breath_mode (synth : fluid_synth_t) (chan : Int) (breathmode : Bool) :
    Int × Option Int :=
  if !breathmode then (FLUID_FAILED, none)
  else if ¬ (chan ≥ 0) then (FLUID_FAILED, none)
  else if chan ≥ synth.midi_channels then (FLUID_FAILED, none)
  else (FLUID_OK, some (fluid_channel_get_breath_info (synth.chan chan.toNat) : Nat))

/-- The smallest basic channel that the entries name above `b`, or the channel count when
they name none. -/
def next_named (n_chan : Nat) (entries : List fluid_basic_channel_infos_t) (b : Int) : Int :=
  ((entries.map fun e => e.basicchan).filter fun x => decide (b < x)).foldl min (n_chan : Int)

/-- The static check of an entry of a bulk replace: in Omni-Off/Mono with `val > 0`, the
requested range must end at or before the next named basic channel. -/
def entry_fits (n_chan : Nat) (entries : List fluid_basic_channel_infos_t)
    (e : fluid_basic_channel_infos_t) : Prop :=
  e.mode = 3 → 0 < e.val → e.basicchan + e.val ≤ next_named n_chan entries e.basicchan

/-! ## The functions with bounds-checked indexing of the channel array -/

/-- The read `synth->channel[i]` with a bounds check: `none` when `i` lies outside
`[0, midi_channels)`. -/
def fluid_synth_t.chan_checked (synth : fluid_synth_t) (i : Int) : Option fluid_channel_t :=
  if 0 ≤ i then synth.channel[i.toNat]? else none

/-- The write `*synth->channel[i] = c` with a bounds check: `none` when `i` lies outside
`[0, midi_channels)`. -/
def fluid_synth_t.set_chan_checked (synth : fluid_synth_t) (i : Int) (c : fluid_channel_t) :
    Option fluid_synth_t :=
  if 0 ≤ i ∧ i < synth.midi_channels then some (synth.set_chan i.toNat c) else none

/-- The backward search `for (i = basicchan - 1; i >= 0; i--)` with checked reads; the
argument is `i + 1`. -/
def search_prev_basic_chan_checked (synth : fluid_synth_t) : Nat → Option Int
  | 0 => some (-1)
  | i + 1 =>
    match synth.chan_checked (i : Int) with
    | none => none
    | some c => if is_basic c then some (i : Int) else search_prev_basic_chan_checked synth i

/-- The forward scan
`for (last_end_range = basicchan + 1; last_end_range < n_chan; last_end_range++)` with
checked reads; the first argument is the number of iterations left,
`n_chan - last_end_range`. -/
def scan_last_end_range_checked (synth : fluid_synth_t) : Nat → Nat → Option Nat
  | 0, last_end_range => some last_end_range
  | left + 1, last_end_range =>
    match synth.chan_checked (last_end_range : Int) with
    | none => none
    | some c =>
      if is_basic c then some last_end_range
      else scan_last_end_range_checked synth left (last_end_range + 1)

/-- One iteration of the loop `for (i = basicchan; i < last_end_range; i++)` with checked
accesses of `synth->channel[i]`. -/
def set_basic_channel_step_checked (basicchan mode last_begin_range : Nat)
    (st : fluid_synth_t × Nat) (i : Nat) : Option (fluid_synth_t × Nat) :=
  let synth := fluid_synth_all_notes_off_LOCAL st.1 i
  let new_mode := if i = basicchan then mode ||| FLUID_CHANNEL_BASIC else mode
  let val := if i = basicchan then st.2 else 0
  let new_mode := if i < last_begin_range then new_mode ||| FLUID_CHANNEL_ENABLED else 0
  match synth.chan_checked (i : Int) with
  | none => none
  | some c =>
    match synth.set_chan_checked (i : Int)
        { fluid_channel_set_basic_channel_info c new_mode with mode_val := val } with
    | none => none
    | some synth => some (synth, val)

/-- The function `fluid_synth_set_basic_channel_LOCAL` with checked accesses of the channel
array; `none` is an access outside the array. The argument `basicchan` is the `int` of the
C function: the function itself only tests `basicchan < n_chan`. Once the read of
`synth->channel[basicchan]` has succeeded, `basicchan` is not negative and the loops count
from the natural `basicchan.toNat`. -/
def fluid_synth_set_basic_channel_LOCAL_checked (synth : fluid_synth_t)
    (basicchan : Int) (mode val : Nat) : Option (Int × fluid_synth_t) :=
  let n_chan := synth.midi_channels
  if basicchan < n_chan then
    match synth.chan_checked basicchan with
    | none => none
    | some c =>
      let b := basicchan.toNat
      match (if !is_basic c then
          if is_enabled c then search_prev_basic_chan_checked synth b else some (-1)
        else some (-1)) with
      | none => none
      | some prev_basic_chan =>
        match scan_last_end_range_checked synth (n_chan - (b + 1)) (b + 1) with
        | none => none
        | some last_end_range =>
          let mode := mode &&& FLUID_CHANNEL_MODE_MASK
          let last_begin_range : Int := compute_last_begin_range b mode val last_end_range
          if last_begin_range > (last_end_range : Int) then some (FLUID_FAILED, synth)
          else
            match (if prev_basic_chan ≥ 0 then
                match synth.chan_checked prev_basic_chan with
                | none => none
                | some p =>
                  synth.set_chan_checked prev_basic_chan
                    { p with mode_val := ((b : Int) - prev_basic_chan).toNat }
              else some synth) with
            | none => none
            | some synth =>
              let val := limited_val b last_begin_range
              match (List.range' b (last_end_range - b)).foldlM
                  (set_basic_channel_step_checked b mode last_begin_range.toNat)
                  (synth, val) with
              | none => none
              | some st => some (FLUID_OK, st.1)
  else some (FLUID_FAILED, synth)

/-- The function `fluid_synth_set_basic_channel` with checked accesses of the channel
array. -/
def fluid_synth_set_basic_channel_checked (synth : fluid_synth_t)
    (basic_channel_infos : Option fluid_basic_channel_infos_t) :
    Option (Int × fluid_synth_t) :=
  match basic_channel_infos with
  | none => some (FLUID_FAILED, synth)
  | some infos =>
    let chan := infos.basicchan
    let mode := infos.mode
    let val := infos.val
    if ¬ (mode ≥ 0) then some (FLUID_FAILED, synth)
    else if ¬ (mode < FLUID_CHANNEL_MODE_LAST) then some (FLUID_FAILED, synth)
    else if ¬ (val ≥ 0) then some (FLUID_FAILED, synth)
    else if ¬ (chan ≥ 0) then some (FLUID_FAILED, synth)
    else if chan ≥ synth.midi_channels then some (FLUID_FAILED, synth)
    else if int_wrap (chan + val) > synth.midi_channels then some (FLUID_FAILED, synth)
    else fluid_synth_set_basic_channel_LOCAL_checked synth chan mode.toNat val.toNat

/-- One iteration of the loop that clears the previous list of basic channels, with
checked accesses of `synth->channel[i]`. -/
def clear_basic_channel_checked (synth : fluid_synth_t) (i : Nat) : Option fluid_synth_t :=
  match synth.chan_checked (i : Int) with
  | none => none
  | some c =>
    synth.set_chan_checked (i : Int)
      { fluid_channel_reset_basic_channel_info c with mode_val := 0 }

/-- The loop `for (i = 0; i < n_chan; i++)` that clears the previous list of basic
channels, with checked accesses. -/
def clear_basic_channels_checked (synth : fluid_synth_t) : Option fluid_synth_t :=
  (List.range synth.midi_channels).foldlM clear_basic_channel_checked synth

/-- One iteration of the loop that marks the basic channels of the new list, with checked
accesses of `synth->channel[basic_chan]`. -/
def mark_basic_channel_checked (synth : fluid_synth_t) (e : fluid_basic_channel_infos_t) :
    Option fluid_synth_t :=
  let basic_chan := e.basicchan
  match synth.chan_checked basic_chan with
  | none => none
  | some c =>
    if is_basic c then some synth
    else synth.set_chan_checked basic_chan { c with mode := c.mode ||| FLUID_CHANNEL_BASIC }

/-- One iteration of the loop that applies the entries, with checked accesses. -/
def apply_basic_channel_checked (st : Int × fluid_synth_t)
    (e : fluid_basic_channel_infos_t) : Option (Int × fluid_synth_t) :=
  match fluid_synth_set_basic_channel_LOCAL_checked st.2 e.basicchan e.mode.toNat
      e.val.toNat with
  | none => none
  | some r => some (if st.1 = FLUID_OK then r.1 else st.1, r.2)

/-- The function `fluid_synth_reset_basic_channels` with checked accesses of the channel
array. -/
def fluid_synth_reset_basic_channels_checked (synth : fluid_synth_t) (n : Int)
    (basic_channel_infos : Option (List fluid_basic_channel_infos_t)) :
    Option (Int × fluid_synth_t) :=
  if ¬ (n ≥ 0) then some (FLUID_FAILED, synth)
  else
    let n_chan := synth.midi_channels
    if n > n_chan then some (FLUID_FAILED, synth)
    else
      match (if n ≠ 0 then basic_channel_infos else none) with
      | some infos =>
        let entries := infos.take n.toNat
        if entries.any (entry_invalid n_chan) then some (FLUID_FAILED, synth)
        else
          match clear_basic_channels_checked synth with
          | none => none
          | some synth =>
            match entries.foldlM mark_basic_channel_checked synth with
            | none => none
            | some synth => entries.foldlM apply_basic_channel_checked (FLUID_OK, synth)
      | none =>
        match clear_basic_channels_checked synth with
        | none => none
        | some synth =>
          fluid_synth_set_basic_channel_LOCAL_checked synth 0 FLUID_CHANNEL_MODE_OMNION_POLY 0

/-- One iteration of the loop of `fluid_synth_get_basic_channels` that counts the basic
channels, with a checked read of `synth->channel[i]`. -/
def count_basic_channel_checked (synth : fluid_synth_t) (n i : Nat) : Option Nat :=
  match synth.chan_checked (i : Int) with
  | none => none
  | some c => some (if is_basic c then n + 1 else n)

/-- One iteration of the loop of `fluid_synth_get_basic_channels` that fills the table,
with a checked read of `synth->channel[i]`; the state is the part of the table filled so
far. -/
def fill_basic_channel_checked (synth : fluid_synth_t)
    (bci : List fluid_basic_channel_infos_t) (i : Nat) :
    Option (List fluid_basic_channel_infos_t) :=
  match synth.chan_checked (i : Int) with
  | none => none
  | some chan =>
    some (if is_basic chan then
        bci ++ [{ basicchan := i, mode := mode_bits chan, val := chan.mode_val }]
      else bci)

/-- The function `fluid_synth_get_basic_channels` with checked reads of the channel
array. -/
def fluid_synth_get_basic_channels_checked (synth : fluid_synth_t)
    (want_infos alloc_ok : Bool) :
    Option (Int × Option (List fluid_basic_channel_infos_t)) :=
  let n_chan := synth.midi_channels
  match (List.range n_chan).foldlM (count_basic_channel_checked synth) 0 with
  | none => none
  | some n_basic_chan =>
    if want_infos && (n_basic_chan != 0) then
      if alloc_ok then
        match (List.range n_chan).foldlM (fill_basic_channel_checked synth) [] with
        | none => none
        | some bci => some (n_basic_chan, some bci)
      else some (FLUID_FAILED, none)
    else some (n_basic_chan, none)

/-- The function `fluid_synth_get_channel_mode` with checked reads of the channel array. -/
def fluid_synth_get_channel_mode_checked (synth : fluid_synth_t) (chan : Int)
    (mode_infos : Bool) : Option (Int × Option fluid_basic_channel_infos_t) :=
  if !mode_infos then some (FLUID_FAILED, none)
  else if ¬ (chan ≥ 0) then some (FLUID_FAILED, none)
  else if chan ≥ synth.midi_channels then some (FLUID_FAILED, none)
  else
    match synth.chan_checked chan with
    | none => none
    | some c =>
      match (if is_enabled c then search_prev_basic_chan_checked synth (chan.toNat + 1)
          else some (-1)) with
      | none => none
      | some basicchan =>
        some (FLUID_OK, some { basicchan := basicchan, mode := c.mode, val := c.mode_val })

/-! ## Bit-level facts about the flag word -/

theorem testBit_three (i : Nat) : Nat.testBit 3 i = decide (i < 2) := by
  have h : (3 : Nat) = 2 ^ 2 - 1 := by norm_num
  rw [h, Nat.testBit_two_pow_sub_one]

theorem testBit_four (i : Nat) : Nat.testBit 4 i = decide (i = 2) := by
  have h : (4 : Nat) = 2 ^ 2 := by norm_num
  rw [h, Nat.testBit_two_pow]
  simp [eq_comm]

theorem testBit_eight (i : Nat) : Nat.testBit 8 i = decide (i = 3) := by
  have h : (8 : Nat) = 2 ^ 3 := by norm_num
  rw [h, Nat.testBit_two_pow]
  simp [eq_comm]

theorem testBit_fifteen (i : Nat) : Nat.testBit 15 i = decide (i < 4) := by
  have h : (15 : Nat) = 2 ^ 4 - 1 := by norm_num
  rw [h, Nat.testBit_two_pow_sub_one]

theorem mask_eq : MASK_BASICCHANINFOS = 15 := by decide

theorem set_info_word_and_four (m x : Nat) : set_info_word m x &&& 4 = x &&& 4 := by
  unfold set_info_word
  apply Nat.eq_of_testBit_eq; intro i
  simp only [Nat.testBit_and, Nat.testBit_or, Nat.testBit_xor, testBit_fifteen, testBit_four]
  by_cases h : i = 2
  · subst h; simp
  · simp [h]

theorem set_info_word_and_eight (m x : Nat) : set_info_word m x &&& 8 = x &&& 8 := by
  unfold set_info_word
  apply Nat.eq_of_testBit_eq; intro i
  simp only [Nat.testBit_and, Nat.testBit_or, Nat.testBit_xor, testBit_fifteen, testBit_eight]
  by_cases h : i = 3
  · subst h; simp
  · simp [h]

theorem set_info_word_and_three (m x : Nat) : set_info_word m x &&& 3 = x &&& 3 := by
  unfold set_info_word
  apply Nat.eq_of_testBit_eq; intro i
  simp only [Nat.testBit_and, Nat.testBit_or, Nat.testBit_xor, testBit_fifteen, testBit_three]
  by_cases h : i < 2
  · have h4 : i < 4 := by omega
    simp [h, h4]
  · simp [h]

theorem set_info_word_twice (m x y : Nat) :
    set_info_word (set_info_word m x) y = set_info_word m y := by
  unfold set_info_word
  apply Nat.eq_of_testBit_eq; intro i
  simp only [Nat.testBit_and, Nat.testBit_or, Nat.testBit_xor, testBit_fifteen]
  by_cases h : i < 4 <;> simp [h]

theorem or_four_and_four (m : Nat) : (m ||| 4) &&& 4 = 4 := by
  apply Nat.eq_of_testBit_eq; intro i
  simp only [Nat.testBit_and, Nat.testBit_or, testBit_four]
  by_cases h : i = 2 <;> simp [h]

theorem or_four_and_eight (m : Nat) : (m ||| 4) &&& 8 = m &&& 8 := by
  apply Nat.eq_of_testBit_eq; intro i
  simp only [Nat.testBit_and, Nat.testBit_or, testBit_four, testBit_eight]
  by_cases h : i = 3
  · subst h; simp
  · simp [h]

theorem or_four_and_three (m : Nat) : (m ||| 4) &&& 3 = m &&& 3 := by
  apply Nat.eq_of_testBit_eq; intro i
  simp only [Nat.testBit_and, Nat.testBit_or, testBit_four, testBit_three]
  by_cases h : i < 2
  · have h2 : i ≠ 2 := by omega
    simp [h, h2]
  · simp [h]

theorem set_info_word_or_four (m x : Nat) : set_info_word (m ||| 4) x = set_info_word m x := by
  unfold set_info_word
  apply Nat.eq_of_testBit_eq; intro i
  simp only [Nat.testBit_and, Nat.testBit_or, Nat.testBit_xor, testBit_fifteen, testBit_four]
  by_cases h : i < 4
  · simp [h]
  · have h2 : i ≠ 2 := by omega
    simp [h, h2]

theorem and_three_lt (m : Nat) : m &&& 3 < 4 :=
  Nat.lt_succ_of_le Nat.and_le_right

/-! ## Reading and writing channels -/

theorem midi_channels_set_chan (s : fluid_synth_t) (i : Nat) (c : fluid_channel_t) :
    (s.set_chan i c).midi_channels = s.midi_channels := by
  simp [fluid_synth_t.set_chan, fluid_synth_t.midi_channels]

theorem chan_set_chan_eq (s : fluid_synth_t) (i : Nat) (c : fluid_channel_t)
    (h : i < s.midi_channels) : (s.set_chan i c).chan i = c := by
  unfold fluid_synth_t.midi_channels at h
  simp [fluid_synth_t.set_chan, fluid_synth_t.chan, List.getD_eq_getElem?_getD, h]

theorem chan_set_chan_ne (s : fluid_synth_t) (i j : Nat) (c : fluid_channel_t)
    (h : i ≠ j) : (s.set_chan i c).chan j = s.chan j := by
  simp [fluid_synth_t.set_chan, fluid_synth_t.chan, List.getD_eq_getElem?_getD,
    List.getElem?_set_ne h]

theorem notes_off_set_chan (s : fluid_synth_t) (i : Nat) (c : fluid_channel_t) :
    (s.set_chan i c).notes_off = s.notes_off := rfl

/-- Two synths with the same log and the same channels at every index are equal. -/
theorem synth_ext (s t : fluid_synth_t) (hn : s.midi_channels = t.midi_channels)
    (hc : ∀ i, i < s.midi_channels → s.chan i = t.chan i)
    (hl : s.notes_off = t.notes_off) : s = t := by
  cases s with
  | mk sc sl =>
    cases t with
    | mk tc tl =>
      simp only [fluid_synth_t.midi_channels, fluid_synth_t.chan] at hn hc hl
      simp only [fluid_synth_t.mk.injEq]
      refine ⟨?_, hl⟩
      apply List.ext_getElem hn
      intro i h1 h2
      have := hc i h1
      simpa [List.getD_eq_getElem?_getD, List.getElem?_eq_getElem h1,
        List.getElem?_eq_getElem h2] using this

/-! ## The loops of `fluid_synth_set_basic_channel_LOCAL` -/

theorem step_eq (b m lbr : Nat) (st : fluid_synth_t × Nat) (i : Nat) :
    set_basic_channel_step b m lbr st i =
      ((fluid_synth_all_notes_off_LOCAL st.1 i).set_chan i
          (written_chan b m lbr st.2 (st.1.chan i) i),
        if i = b then st.2 else 0) := by
  unfold set_basic_channel_step written_chan new_mode_at fluid_synth_all_notes_off_LOCAL
  rfl

theorem write_loop_spec (b m lbr : Nat) :
    ∀ (n start : Nat) (s : fluid_synth_t) (w : Nat), b ≤ start →
      start + n ≤ s.midi_channels →
      let st := (List.range' start n).foldl (set_basic_channel_step b m lbr) (s, w)
      st.1.midi_channels = s.midi_channels ∧
      st.1.notes_off = s.notes_off ++ (List.range' start n).map (fun i => (i, s.chan i)) ∧
      ∀ j, st.1.chan j =
        if start ≤ j ∧ j < start + n then written_chan b m lbr w (s.chan j) j else s.chan j := by
  intro n
  induction n with
  | zero =>
    intro start s w _ _
    refine ⟨rfl, by simp, ?_⟩
    intro j
    have hj : ¬ (start ≤ j ∧ j < start + 0) := by omega
    simp only [List.range'_zero, List.foldl_nil, hj, if_false]
  | succ n ih =>
    intro start s w hb hn
    simp only [List.range'_succ, List.foldl_cons]
    rw [step_eq]
    set s1 := (fluid_synth_all_notes_off_LOCAL s start).set_chan start
      (written_chan b m lbr w (s.chan start) start) with hs1
    have hlen : s1.midi_channels = s.midi_channels := by
      rw [hs1, midi_channels_set_chan]; rfl
    have ih1 := ih (start + 1) s1 (if start = b then w else 0) (by omega) (by omega)
    obtain ⟨h1, h2, h3⟩ := ih1
    refine ⟨by rw [h1, hlen], ?_, ?_⟩
    · rw [h2, hs1, notes_off_set_chan]
      have hmap : (List.range' (start + 1) n).map (fun i => (i, s1.chan i)) =
          (List.range' (start + 1) n).map (fun i => (i, s.chan i)) := by
        apply List.map_congr_left
        intro i hi
        rw [List.mem_range'_1] at hi
        have hne : start ≠ i := by omega
        rw [hs1, chan_set_chan_ne _ _ _ _ hne]
        rfl
      rw [← hs1, hmap]
      simp [fluid_synth_all_notes_off_LOCAL]
    · intro j
      rw [h3]
      by_cases hj : j = start
      · subst hj
        have hlt : j < (fluid_synth_all_notes_off_LOCAL s j).midi_channels := by
          show j < s.midi_channels
          omega
        have : s1.chan j = written_chan b m lbr w (s.chan j) j := by
          rw [hs1, chan_set_chan_eq _ _ _ hlt]
        simp [this]
      · have hne : s1.chan j = s.chan j := by
          rw [hs1, chan_set_chan_ne _ _ _ _ (Ne.symm hj)]; rfl
        rw [hne]
        by_cases hr : start + 1 ≤ j ∧ j < start + 1 + n
        · have hr2 : start ≤ j ∧ j < start + (n + 1) := by omega
          have hjb : j ≠ b := by omega
          simp only [hr, hr2, and_self, if_true]
          simp [written_chan, hjb]
        · have hr2 : ¬ (start ≤ j ∧ j < start + (n + 1)) := by omega
          simp only [hr, hr2, if_false]

theorem is_group_end_unique (s : fluid_synth_t) (b g g' : Nat)
    (h : is_group_end s b g) (h' : is_group_end s b g') : g = g' := by
  obtain ⟨h1, h2, h3, h4⟩ := h
  obtain ⟨h1', h2', h3', h4'⟩ := h'
  rcases Nat.lt_trichotomy g g' with hlt | heq | hgt
  · have := h3' g h1 hlt
    have := h4 (by omega)
    simp_all
  · exact heq
  · have := h3 g' h1' hgt
    have := h4' (by omega)
    simp_all

theorem scan_eq_find (s : fluid_synth_t) : ∀ (left l : Nat),
    scan_last_end_range s left l =
      ((List.range' l left).find? fun j => is_basic (s.chan j)).getD (l + left) := by
  intro left
  induction left with
  | zero => intro l; simp [scan_last_end_range]
  | succ n ih =>
    intro l
    simp only [scan_last_end_range, List.range'_succ, List.find?_cons]
    by_cases h : is_basic (s.chan l) = true
    · simp [h]
    · simp only [h, Bool.false_eq_true, if_false]
      rw [ih]
      have : l + 1 + n = l + (n + 1) := by omega
      simp [this]

theorem scan_spec (s : fluid_synth_t) : ∀ (left l : Nat),
    let g := scan_last_end_range s left l
    l ≤ g ∧ g ≤ l + left ∧ (∀ j, l ≤ j → j < g → is_basic (s.chan j) = false) ∧
      (g < l + left → is_basic (s.chan g) = true) := by
  intro left
  induction left with
  | zero =>
    intro l
    simp only [scan_last_end_range]
    refine ⟨le_refl _, le_refl _, ?_, ?_⟩
    · intro j h1 h2; omega
    · intro h; omega
  | succ n ih =>
    intro l
    simp only [scan_last_end_range]
    by_cases h : is_basic (s.chan l) = true
    · rw [if_pos h]
      refine ⟨le_refl _, by omega, ?_, fun _ => h⟩
      intro j h1 h2; omega
    · simp only [h, Bool.false_eq_true, if_false]
      obtain ⟨h1, h2, h3, h4⟩ := ih (l + 1)
      refine ⟨by omega, by omega, ?_, ?_⟩
      · intro j hj1 hj2
        by_cases hjl : j = l
        · subst hjl; simpa using h
        · exact h3 j (by omega) hj2
      · intro hg
        exact h4 (by omega)

theorem scan_eq_group_end (s : fluid_synth_t) (b : Nat) (hb : b < s.midi_channels) :
    scan_last_end_range s (s.midi_channels - (b + 1)) (b + 1) = group_end s b := by
  rw [scan_eq_find, group_end]
  have : b + 1 + (s.midi_channels - (b + 1)) = s.midi_channels := by omega
  rw [this]

theorem group_end_spec (s : fluid_synth_t) (b : Nat) (hb : b < s.midi_channels) :
    is_group_end s b (group_end s b) := by
  rw [← scan_eq_group_end s b hb]
  obtain ⟨h1, h2, h3, h4⟩ := scan_spec s (s.midi_channels - (b + 1)) (b + 1)
  refine ⟨by omega, by omega, ?_, ?_⟩
  · intro j hj1 hj2; exact h3 j (by omega) hj2
  · intro hg; exact h4 (by omega)

/-- The result of the backward search: `-1` when no channel below `i` is basic, and
otherwise the greatest basic index below `i`. -/
theorem search_prev_spec (s : fluid_synth_t) : ∀ i : Nat,
    (search_prev_basic_chan s i = -1 ∧ ∀ j, j < i → is_basic (s.chan j) = false) ∨
    (∃ p : Nat, search_prev_basic_chan s i = (p : Int) ∧ p < i ∧
      is_basic (s.chan p) = true ∧ ∀ j, p < j → j < i → is_basic (s.chan j) = false) := by
  intro i
  induction i with
  | zero => left; simp [search_prev_basic_chan]
  | succ n ih =>
    simp only [search_prev_basic_chan]
    by_cases h : is_basic (s.chan n) = true
    · right
      refine ⟨n, by simp [h], by omega, h, ?_⟩
      intro j h1 h2; omega
    · simp only [h, Bool.false_eq_true, if_false]
      rcases ih with ⟨h1, h2⟩ | ⟨p, h1, h2, h3, h4⟩
      · left
        refine ⟨h1, ?_⟩
        intro j hj
        by_cases hjn : j = n
        · subst hjn; simpa using h
        · exact h2 j (by omega)
      · right
        refine ⟨p, h1, by omega, h3, ?_⟩
        intro j hj1 hj2
        by_cases hjn : j = n
        · subst hjn; simpa using h
        · exact h4 j hj1 (by omega)

/-! ## What `fluid_synth_set_basic_channel_LOCAL` computes -/

theorem int_wrap_eq (x : Int) (h0 : -2147483648 ≤ x) (h1 : x ≤ 2147483647) :
    int_wrap x = x := by
  unfold int_wrap
  omega

theorem int_wrap_range (x : Int) : -2147483648 ≤ int_wrap x ∧ int_wrap x ≤ 2147483647 := by
  unfold int_wrap
  omega

/-- When the sum `b + val` does not exceed `INT_MAX`, `last_begin_range` is the
`enabledEnd` of the spec. -/
theorem compute_last_begin_range_eq (b m val g : Nat) (hm : m < 4)
    (hno : (b : Int) + (val : Int) ≤ INT_MAX) :
    compute_last_begin_range b m val g = (enabled_end b m val g : Int) := by
  have hw : int_wrap ((b : Int) + (val : Int)) = (b : Int) + (val : Int) :=
    int_wrap_eq _ (by omega) hno
  interval_cases m <;>
    simp [compute_last_begin_range, enabled_end, Nat.pos_iff_ne_zero, hw]

theorem begin_range_eq (b m val g : Nat) (hm : m < 4)
    (hno : (b : Int) + (val : Int) ≤ INT_MAX) :
    begin_range b m val g = enabled_end b m val g := by
  unfold begin_range
  rw [compute_last_begin_range_eq b m val g hm hno]
  exact Int.toNat_ofNat _

theorem begin_val_eq (b m val g : Nat) (hm : m < 4)
    (hno : (b : Int) + (val : Int) ≤ INT_MAX) :
    begin_val b m val g = enabled_end b m val g - b := by
  unfold begin_val limited_val
  rw [compute_last_begin_range_eq b m val g hm hno]
  rw [if_neg (by omega)]
  omega

theorem begin_range_gt_iff (b m val g : Nat) :
    compute_last_begin_range b m val g > (g : Int) ↔ begin_range b m val g > g := by
  unfold begin_range
  omega

/-- When the basic channel lies in its own enabled range, the width stored is the length
of that range. -/
theorem begin_val_of_lt (b m val g : Nat) (h : b < begin_range b m val g) :
    begin_val b m val g = begin_range b m val g - b := by
  unfold begin_val limited_val
  unfold begin_range at h ⊢
  rw [if_neg (by omega)]
  omega

/-- On values of the type `int` the natural `limited_val` is the `int` difference
`last_begin_range - basicchan` of the code, wrapped around: the difference is never
negative, and when the sum of the `switch` has wrapped around it is the `val` of the call
again. -/
theorem limited_val_int (b m val g : Nat) (hm : m < 4) (hbg : b < g)
    (hg : (g : Int) ≤ INT_MAX) (hv : (val : Int) ≤ INT_MAX) :
    ((limited_val b (compute_last_begin_range b m val g) : Nat) : Int) =
      int_wrap (compute_last_begin_range b m val g - (b : Int)) ∧
    (INT_MAX < (b : Int) + (val : Int) → m = 3 →
      limited_val b (compute_last_begin_range b m val g) = val) := by
  have hg2 : (g : Int) ≤ 2147483647 := hg
  have hv2 : (val : Int) ≤ 2147483647 := hv
  unfold limited_val
  interval_cases m
  · simp only [compute_last_begin_range]
    refine ⟨?_, fun _ h => absurd h (by decide)⟩
    rw [if_neg (by omega), int_wrap_eq _ (by omega) (by omega)]
    omega
  · simp only [compute_last_begin_range]
    refine ⟨?_, fun _ h => absurd h (by decide)⟩
    rw [if_neg (by omega), int_wrap_eq _ (by omega) (by omega)]
    omega
  · simp only [compute_last_begin_range]
    refine ⟨?_, fun _ h => absurd h (by decide)⟩
    rw [if_neg (by omega), int_wrap_eq _ (by omega) (by omega)]
    omega
  · simp only [compute_last_begin_range]
    by_cases h0 : val = 0
    · subst h0
      simp only [ne_eq, not_true_eq_false, if_false]
      refine ⟨?_, fun h _ => ?_⟩
      · rw [if_neg (by omega), int_wrap_eq _ (by omega) (by omega)]
        omega
      · have h' : (2147483647 : Int) < (b : Int) + ((0 : Nat) : Int) := h
        omega
    · simp only [ne_eq, h0, not_false_eq_true, if_true]
      unfold int_wrap
      constructor
      · split_ifs <;> omega
      · intro h _
        have h' : (2147483647 : Int) < (b : Int) + (val : Int) := h
        split_ifs <;> omega

/-- The test `i < last_begin_range` of the write loop, on a natural `i`. -/
theorem lt_last_begin_range_iff (b m val g i : Nat) :
    (i : Int) < compute_last_begin_range b m val g ↔ i < begin_range b m val g := by
  unfold begin_range
  omega

theorem enabled_end_gt (b m val g : Nat) (hg : b < g) : b < enabled_end b m val g := by
  unfold enabled_end
  split_ifs <;> omega

theorem set_info_mode (c : fluid_channel_t) (x : Nat) :
    (fluid_channel_set_basic_channel_info c x).mode = set_info_word c.mode x := rfl

theorem new_mode_bits (m : Nat) (hm : m < 4) :
    ((m ||| 4) ||| 8) &&& 4 = 4 ∧ ((m ||| 4) ||| 8) &&& 8 = 8 ∧ ((m ||| 4) ||| 8) &&& 3 = m ∧
    (m ||| 8) &&& 4 = 0 ∧ (m ||| 8) &&& 8 = 8 ∧ (m ||| 8) &&& 3 = m := by
  interval_cases m <;> decide

theorem is_basic_written_iff (b m lbr v : Nat) (c : fluid_channel_t) (i : Nat) (hm : m < 4) :
    is_basic (written_chan b m lbr v c i) = decide (i = b ∧ i < lbr) := by
  obtain ⟨h1, -, -, h4, -, -⟩ := new_mode_bits m hm
  simp only [is_basic, written_chan, set_info_mode, set_info_word_and_four, new_mode_at]
  by_cases hi : i < lbr <;> by_cases hb : i = b
  · subst hb; simp [hi, h1]
  · simp [hi, hb, h4]
  · subst hb; simp [hi]
  · simp [hi, hb]

theorem is_basic_written (b m lbr v : Nat) (c : fluid_channel_t) (i : Nat) (hm : m < 4)
    (hl : b < lbr) : is_basic (written_chan b m lbr v c i) = decide (i = b) := by
  obtain ⟨h1, -, -, h4, -, -⟩ := new_mode_bits m hm
  simp only [is_basic, written_chan, set_info_mode, set_info_word_and_four, new_mode_at]
  by_cases hi : i < lbr <;> by_cases hb : i = b
  · subst hb; simp [hi, h1]
  · simp [hi, hb, h4]
  · omega
  · simp [hi, hb]

theorem is_enabled_written (b m lbr v : Nat) (c : fluid_channel_t) (i : Nat) (hm : m < 4) :
    is_enabled (written_chan b m lbr v c i) = decide (i < lbr) := by
  obtain ⟨-, h2, -, -, h5, -⟩ := new_mode_bits m hm
  simp only [is_enabled, written_chan, set_info_mode, set_info_word_and_eight, new_mode_at]
  by_cases hi : i < lbr <;> by_cases hb : i = b
  · subst hb; simp [hi, h2]
  · simp [hi, hb, h5]
  · subst hb; simp [hi]
  · simp [hi, hb]

theorem mode_bits_written (b m lbr v : Nat) (c : fluid_channel_t) (i : Nat) (hm : m < 4) :
    mode_bits (written_chan b m lbr v c i) = if i < lbr then m else 0 := by
  obtain ⟨-, -, h3, -, -, h6⟩ := new_mode_bits m hm
  simp only [mode_bits, written_chan, set_info_mode, set_info_word_and_three, new_mode_at]
  by_cases hi : i < lbr <;> by_cases hb : i = b
  · subst hb; simp [hi, h3]
  · simp [hi, hb, h6]
  · subst hb; simp [hi]
  · simp [hi, hb]

theorem mode_val_written (b m lbr v : Nat) (c : fluid_channel_t) (i : Nat) :
    (written_chan b m lbr v c i).mode_val = if i = b then v else 0 := rfl

theorem LOCAL_unfold (s : fluid_synth_t) (b mode val : Nat) (hb : b < s.midi_channels) :
    fluid_synth_set_basic_channel_LOCAL s b mode val =
      let g := group_end s b
      let m := mode &&& 3
      let lbr := begin_range b m val g
      if lbr > g then (FLUID_FAILED, s)
      else
        let s1 := if prev_basic_chan_of s b ≥ 0 then
            s.set_chan (prev_basic_chan_of s b).toNat
              { s.chan (prev_basic_chan_of s b).toNat with
                mode_val := ((b : Int) - prev_basic_chan_of s b).toNat }
          else s
        (FLUID_OK, ((List.range' b (g - b)).foldl
          (set_basic_channel_step b m lbr) (s1, begin_val b m val g)).1) := by
  unfold fluid_synth_set_basic_channel_LOCAL
  simp only [hb, if_true]
  rw [scan_eq_group_end s b hb]
  by_cases h : compute_last_begin_range b (mode &&& 3) val (group_end s b) >
      (group_end s b : Int)
  · have h2 := (begin_range_gt_iff b (mode &&& 3) val (group_end s b)).mp h
    simp only [h, h2, if_true]
  · have h2 : ¬ begin_range b (mode &&& 3) val (group_end s b) > group_end s b :=
      fun hc => h ((begin_range_gt_iff b (mode &&& 3) val (group_end s b)).mpr hc)
    simp only [h, h2, if_false]
    rfl

/-- The call fails exactly when the channel is out of range or the requested range reaches
past the end of the group. -/
theorem LOCAL_fails_iff (s : fluid_synth_t) (b mode val : Nat) :
    (fluid_synth_set_basic_channel_LOCAL s b mode val).1 = FLUID_FAILED ↔
      ¬ b < s.midi_channels ∨
        begin_range b (mode &&& 3) val (group_end s b) > group_end s b := by
  by_cases hb : b < s.midi_channels
  · rw [LOCAL_unfold s b mode val hb]
    simp only [hb, not_true, false_or]
    by_cases h : begin_range b (mode &&& 3) val (group_end s b) > group_end s b
    · simp [h]
    · simp [h]
  · simp [fluid_synth_set_basic_channel_LOCAL, hb]

theorem LOCAL_result (s : fluid_synth_t) (b mode val : Nat) :
    (fluid_synth_set_basic_channel_LOCAL s b mode val).1 = FLUID_OK ∨
    (fluid_synth_set_basic_channel_LOCAL s b mode val).1 = FLUID_FAILED := by
  by_cases hb : b < s.midi_channels
  · rw [LOCAL_unfold s b mode val hb]
    by_cases h : begin_range b (mode &&& 3) val (group_end s b) > group_end s b
    · simp [h]
    · simp [h]
  · simp [fluid_synth_set_basic_channel_LOCAL, hb]

/-- A failed call returns the synth it was given. -/
theorem LOCAL_failed_state (s : fluid_synth_t) (b mode val : Nat)
    (h : (fluid_synth_set_basic_channel_LOCAL s b mode val).1 = FLUID_FAILED) :
    (fluid_synth_set_basic_channel_LOCAL s b mode val).2 = s := by
  by_cases hb : b < s.midi_channels
  · rw [LOCAL_unfold s b mode val hb] at h ⊢
    by_cases h' : begin_range b (mode &&& 3) val (group_end s b) > group_end s b
    · simp [h']
    · simp [h'] at h
  · simp [fluid_synth_set_basic_channel_LOCAL, hb]

theorem prev_basic_chan_of_spec (s : fluid_synth_t) (b : Nat) :
    prev_basic_chan_of s b = -1 ∨
    ∃ p : Nat, prev_basic_chan_of s b = (p : Int) ∧ p < b ∧ is_basic (s.chan b) = false ∧
      is_enabled (s.chan b) = true ∧ is_basic (s.chan p) = true ∧
      ∀ j, p < j → j < b → is_basic (s.chan j) = false := by
  unfold prev_basic_chan_of
  by_cases h1 : is_basic (s.chan b) = true
  · simp [h1]
  · by_cases h2 : is_enabled (s.chan b) = true
    · simp only [h1, h2, Bool.not_false, if_true]
      rcases search_prev_spec s b with ⟨h, _⟩ | ⟨p, hp1, hp2, hp3, hp4⟩
      · left; exact h
      · right
        exact ⟨p, hp1, hp2, by simp [h1], trivial, hp3, hp4⟩
    · simp [h1, h2]

/-- Pointwise description of a successful call. -/
theorem LOCAL_ok_spec (s : fluid_synth_t) (b mode val : Nat)
    (h : (fluid_synth_set_basic_channel_LOCAL s b mode val).1 = FLUID_OK) :
    let s' := (fluid_synth_set_basic_channel_LOCAL s b mode val).2
    let g := group_end s b
    let m := mode &&& 3
    let lbr := begin_range b m val g
    b < s.midi_channels ∧ lbr ≤ g ∧
    s'.midi_channels = s.midi_channels ∧
    s'.notes_off = s.notes_off ++ (List.range' b (g - b)).map (fun i => (i, s.chan i)) ∧
    ∀ j, s'.chan j =
      if b ≤ j ∧ j < g then written_chan b m lbr (begin_val b m val g) (s.chan j) j
      else narrowed_chan s b j := by
  intro s' g m lbr
  have hf := LOCAL_fails_iff s b mode val
  have hb : b < s.midi_channels := by
    by_contra hb
    have := hf.mpr (Or.inl hb)
    rw [this] at h; exact absurd h (by decide)
  have hl : lbr ≤ g := by
    by_contra hl
    have := hf.mpr (Or.inr (by show lbr > g; omega))
    rw [this] at h; exact absurd h (by decide)
  have hg := group_end_spec s b hb
  refine ⟨hb, hl, ?_⟩
  have hs' : s' = (fluid_synth_set_basic_channel_LOCAL s b mode val).2 := rfl
  rw [LOCAL_unfold s b mode val hb] at hs'
  simp only [show ¬ (begin_range b (mode &&& 3) val (group_end s b) > group_end s b) from
    by show ¬ (lbr > g); omega, if_false] at hs'
  -- the synth after the narrowing
  set s1 := (if prev_basic_chan_of s b ≥ 0 then
      s.set_chan (prev_basic_chan_of s b).toNat
        { s.chan (prev_basic_chan_of s b).toNat with
          mode_val := ((b : Int) - prev_basic_chan_of s b).toNat }
    else s) with hs1
  have h1len : s1.midi_channels = s.midi_channels := by
    rw [hs1]; split_ifs
    · exact midi_channels_set_chan _ _ _
    · rfl
  have h1log : s1.notes_off = s.notes_off := by
    rw [hs1]; split_ifs <;> rfl
  have h1chan : ∀ j, s1.chan j = narrowed_chan s b j := by
    intro j
    rw [hs1]
    unfold narrowed_chan
    rcases prev_basic_chan_of_spec s b with hp | ⟨p, hp, hpb, -⟩
    · have : prev_basic_chan_of s b ≠ (j : Int) := by omega
      simp [hp, this]
    · rw [hp]
      simp only [Int.toNat_ofNat, ge_iff_le, Int.natCast_nonneg, if_true]
      by_cases hpj : p = j
      · subst hpj
        rw [chan_set_chan_eq _ _ _ (by omega)]
        have : ((b : Int) - (p : Int)).toNat = b - p := by omega
        simp [this]
      · rw [chan_set_chan_ne _ _ _ _ hpj]
        have : ¬ ((p : Int) = (j : Int)) := by omega
        simp [this]
  obtain ⟨w1, w2, w3⟩ := write_loop_spec b m lbr (g - b) b s1 (begin_val b m val g) (le_refl _)
    (by rw [h1len]; have := hg.1; have := hg.2.1; omega)
  have hbg : b + (g - b) = g := by have := hg.1; omega
  rw [hbg] at w3
  refine ⟨?_, ?_, ?_⟩
  · rw [hs', w1, h1len]
  · rw [hs', w2, h1log]
    congr 1
    apply List.map_congr_left
    intro i hi
    rw [List.mem_range'_1] at hi
    rw [h1chan i]
    unfold narrowed_chan
    rcases prev_basic_chan_of_spec s b with hp | ⟨p, hp, hpb, -⟩
    · rw [hp, if_neg (by omega)]
    · rw [hp, if_neg (by omega)]
  · intro j
    rw [hs', w3 j]
    by_cases hj : b ≤ j ∧ j < g
    · simp only [hj, and_self, if_true]
      have : narrowed_chan s b j = { s.chan j with mode_val := (narrowed_chan s b j).mode_val } := by
        unfold narrowed_chan; split_ifs <;> rfl
      rw [h1chan, this]
      rfl
    · simp only [hj, if_false]
      exact h1chan j

/-! ## `fluid_synth_set_basic_channel` -/

theorem set_basic_channel_valid (s : fluid_synth_t) (b mode val : Int)
    (hm0 : 0 ≤ mode) (hm4 : mode < 4) (hv : 0 ≤ val) (hb0 : 0 ≤ b)
    (hbn : b < s.midi_channels) (hbv : int_wrap (b + val) ≤ s.midi_channels) :
    fluid_synth_set_basic_channel s (some ⟨b, mode, val⟩) =
      fluid_synth_set_basic_channel_LOCAL s b.toNat mode.toNat val.toNat := by
  unfold fluid_synth_set_basic_channel
  have h1 : ¬ (b ≥ (s.midi_channels : Int)) := by omega
  have h2 : ¬ (int_wrap (b + val) > (s.midi_channels : Int)) := by omega
  have h3 : mode < (FLUID_CHANNEL_MODE_LAST : Int) := by simpa using hm4
  simp only [ge_iff_le, hm0, h3, hv, hb0, not_true, if_false]
  rw [if_neg (by simpa using h1), if_neg (by simpa using h2)]

theorem set_basic_channel_invalid (s : fluid_synth_t) (b mode val : Int)
    (h : mode < 0 ∨ 4 ≤ mode ∨ val < 0 ∨ b < 0 ∨ (s.midi_channels : Int) ≤ b ∨
      (s.midi_channels : Int) < int_wrap (b + val)) :
    fluid_synth_set_basic_channel s (some ⟨b, mode, val⟩) = (FLUID_FAILED, s) := by
  unfold fluid_synth_set_basic_channel
  simp only [ge_iff_le, not_le, gt_iff_lt, not_lt]
  have e4 : ((FLUID_CHANNEL_MODE_LAST : Nat) : Int) = 4 := rfl
  rw [e4]
  split_ifs <;> first | rfl | omega

theorem set_basic_channel_cases (s : fluid_synth_t) (b mode val : Int) :
    (fluid_synth_set_basic_channel s (some ⟨b, mode, val⟩) = (FLUID_FAILED, s) ∧
      (mode < 0 ∨ 4 ≤ mode ∨ val < 0 ∨ b < 0 ∨ (s.midi_channels : Int) ≤ b ∨
        (s.midi_channels : Int) < int_wrap (b + val))) ∨
    (fluid_synth_set_basic_channel s (some ⟨b, mode, val⟩) =
        fluid_synth_set_basic_channel_LOCAL s b.toNat mode.toNat val.toNat ∧
      0 ≤ mode ∧ mode < 4 ∧ 0 ≤ val ∧ 0 ≤ b ∧ b < s.midi_channels ∧
        int_wrap (b + val) ≤ s.midi_channels) := by
  by_cases h : mode < 0 ∨ 4 ≤ mode ∨ val < 0 ∨ b < 0 ∨ (s.midi_channels : Int) ≤ b ∨
        (s.midi_channels : Int) < int_wrap (b + val)
  · left; exact ⟨set_basic_channel_invalid s b mode val h, h⟩
  · right
    have h' : 0 ≤ mode ∧ mode < 4 ∧ 0 ≤ val ∧ 0 ≤ b ∧ b < s.midi_channels ∧
        int_wrap (b + val) ≤ s.midi_channels := by omega
    obtain ⟨a1, a2, a3, a4, a5, a6⟩ := h'
    exact ⟨set_basic_channel_valid s b mode val a1 a2 a3 a4 a5 a6, a1, a2, a3, a4, a5, a6⟩

theorem and_three_of_lt (m : Nat) (h : m < 4) : m &&& 3 = m := by
  interval_cases m <;> rfl

/-- When the sum `b + val` does not exceed `INT_MAX`: after a successful
`fluid_synth_set_basic_channel (b, mode, val)`, with `groupEnd` the first basic channel
after `b` in the state before the call (the channel count if there is none) and
`enabledEnd` the end of the enabled range the mode asks for, every channel `i` of
`[b, groupEnd)` is basic iff `i = b`, enabled iff `i < enabledEnd`, carries the requested
mode bits when enabled and 0 when disabled, and has `mode_val = enabledEnd - b` when `i = b`
and 0 otherwise. -/
theorem set_basic_channel_group_exact (s : fluid_synth_t) (b mode val : Int)
    (hno : b + val ≤ INT_MAX)
    (h : (fluid_synth_set_basic_channel s (some ⟨b, mode, val⟩)).1 = FLUID_OK) :
    let s' := (fluid_synth_set_basic_channel s (some ⟨b, mode, val⟩)).2
    let groupEnd := group_end s b.toNat
    let enabledEnd := enabled_end b.toNat mode.toNat val.toNat groupEnd
    ∀ i, b.toNat ≤ i → i < groupEnd →
      (is_basic (s'.chan i) = true ↔ i = b.toNat) ∧
      (is_enabled (s'.chan i) = true ↔ i < enabledEnd) ∧
      mode_bits (s'.chan i) = (if i < enabledEnd then mode.toNat else 0) ∧
      (s'.chan i).mode_val = (if i = b.toNat then enabledEnd - b.toNat else 0) := by
  intro s' groupEnd enabledEnd i hi1 hi2
  rcases set_basic_channel_cases s b mode val with ⟨e, -⟩ | ⟨e, a1, a2, a3, a4, a5, a6⟩
  · rw [e] at h; simp at h
  · have hs' : s' = (fluid_synth_set_basic_channel_LOCAL s b.toNat mode.toNat val.toNat).2 := by
      show (fluid_synth_set_basic_channel s (some ⟨b, mode, val⟩)).2 = _
      rw [e]
    rw [e] at h
    have hm : mode.toNat < 4 := by omega
    have hno' : ((b.toNat : Nat) : Int) + ((val.toNat : Nat) : Int) ≤ INT_MAX := by omega
    obtain ⟨hb, hl, -, -, hc⟩ := LOCAL_ok_spec s b.toNat mode.toNat val.toNat h
    rw [and_three_of_lt _ hm, begin_range_eq _ _ _ _ hm hno'] at hl hc
    rw [begin_val_eq _ _ _ _ hm hno'] at hc
    have hg := group_end_spec s b.toNat hb
    have hgt := enabled_end_gt b.toNat mode.toNat val.toNat _ hg.1
    have hci : s'.chan i = written_chan b.toNat mode.toNat enabledEnd
        (enabledEnd - b.toNat) (s.chan i) i := by
      rw [hs', hc i]
      simp only [hi1, hi2, and_self, if_true]
    rw [hci, is_basic_written _ _ _ _ _ _ hm hgt, is_enabled_written _ _ _ _ _ _ hm,
      mode_bits_written _ _ _ _ _ _ hm, mode_val_written]
    simp

/-- C1 fails on the code: on the default partition of eight channels the request
`(1, Omni-Off/Mono, INT_MAX)` passes the test `chan + val > midi_channels`, whose `int`
sum wraps around, and returns `FLUID_OK`; the wrapped `last_begin_range` is negative, so
the write loop leaves channel 1 and the rest of the group `[1, 8)` disabled and channel 1
not basic, where the claim asks for a basic channel 1 and an enabled range `[1, 1 + val)`
that covers the group. -/
theorem set_basic_channel_group_overflow :
    (fluid_synth_set_basic_channel (default_synth 8) (some ⟨1, 3, 2147483647⟩)).1 = FLUID_OK ∧
    group_end (default_synth 8) 1 = 8 ∧
    ((fluid_synth_set_basic_channel (default_synth 8) (some ⟨1, 3, 2147483647⟩)).2.channel.map
        fun c => (is_basic c, is_enabled c, mode_bits c, c.mode_val)) =
      [(true, true, 0, 1), (false, false, 0, 2147483647), (false, false, 0, 0),
       (false, false, 0, 0), (false, false, 0, 0), (false, false, 0, 0), (false, false, 0, 0),
       (false, false, 0, 0)] := by
  decide

/-- When the sum `b + val` does not exceed `INT_MAX`:
`fluid_synth_set_basic_channel (b, mode, val)` returns `FLUID_FAILED` exactly when
the mode is outside 0..3, or `val < 0`, or `b` is outside the channel range, or `b + val`
exceeds the channel count, or the mode is Omni-Off/Mono with `val > 0` and `b + val` is
past the next basic channel after `b` (the channel count if there is none); in every other
case it returns `FLUID_OK`. -/
theorem set_basic_channel_fails_iff_exact (s : fluid_synth_t) (b mode val : Int)
    (hno : b + val ≤ INT_MAX) :
    ((fluid_synth_set_basic_channel s (some ⟨b, mode, val⟩)).1 = FLUID_FAILED ↔
      (mode < 0 ∨ 3 < mode ∨ val < 0 ∨ b < 0 ∨ (s.midi_channels : Int) ≤ b ∨
        (s.midi_channels : Int) < b + val ∨
        (mode = 3 ∧ 0 < val ∧ (group_end s b.toNat : Int) < b + val))) ∧
    ((fluid_synth_set_basic_channel s (some ⟨b, mode, val⟩)).1 = FLUID_FAILED ∨
      (fluid_synth_set_basic_channel s (some ⟨b, mode, val⟩)).1 = FLUID_OK) := by
  have hno2 : b + val ≤ 2147483647 := hno
  rcases set_basic_channel_cases s b mode val with ⟨e, hbad⟩ | ⟨e, a1, a2, a3, a4, a5, a6⟩
  · rw [e]
    refine ⟨⟨fun _ => ?_, fun _ => rfl⟩, Or.inl rfl⟩
    by_cases hc : 0 ≤ b ∧ 0 ≤ val
    · rw [int_wrap_eq _ (by omega) hno2] at hbad
      omega
    · omega
  · rw [e]
    rw [int_wrap_eq _ (by omega) hno2] at a6
    refine ⟨?_, ?_⟩
    · rw [LOCAL_fails_iff]
      have hb : b.toNat < s.midi_channels := by omega
      have hm : mode.toNat < 4 := by omega
      have hno' : ((b.toNat : Nat) : Int) + ((val.toNat : Nat) : Int) ≤ INT_MAX := by omega
      rw [and_three_of_lt _ hm, begin_range_eq _ _ _ _ hm hno']
      have hg := (group_end_spec s b.toNat hb).1
      unfold enabled_end
      constructor
      · rintro (h | h)
        · exact absurd hb h
        · right; right; right; right; right; right
          split_ifs at h with h1 h2
          · omega
          · obtain ⟨h3, h4⟩ := h2
            simp only [FLUID_CHANNEL_MODE_OMNIOFF_MONO] at h3
            omega
          · omega
      · intro h
        right
        have h' : mode = 3 ∧ 0 < val ∧ (group_end s b.toNat : Int) < b + val := by omega
        obtain ⟨h1, h2, h3⟩ := h'
        have e1 : mode.toNat = 3 := by omega
        have e2 : ¬ (mode.toNat = FLUID_CHANNEL_MODE_OMNIOFF_POLY) := by
          simp only [FLUID_CHANNEL_MODE_OMNIOFF_POLY]; omega
        have e3 : mode.toNat = FLUID_CHANNEL_MODE_OMNIOFF_MONO ∧ val.toNat > 0 := by
          simp only [FLUID_CHANNEL_MODE_OMNIOFF_MONO]; omega
        rw [if_neg e2, if_pos e3]
        omega
    · exact (LOCAL_result s b.toNat mode.toNat val.toNat).symm

/-- C2 fails on the code: on the default partition of eight channels the request
`(1, Omni-On/Poly, INT_MAX)` has `b + val > N` and yet returns `FLUID_OK`, because the
`int` sum of the test `chan + val > midi_channels` wraps around to a negative value. -/
theorem set_basic_channel_accepts_overflow :
    (default_synth 8).midi_channels = 8 ∧
    ((default_synth 8).midi_channels : Int) < 1 + 2147483647 ∧
    int_wrap (1 + 2147483647) = -2147483648 ∧
    (fluid_synth_set_basic_channel (default_synth 8) (some ⟨1, 0, 2147483647⟩)).1 = FLUID_OK := by
  decide

/-- C3: a `fluid_synth_set_basic_channel` call that returns `FLUID_FAILED` leaves the synth
as it was: no flag, mode bit or `mode_val` of any channel changes (the previous basic
channel is not narrowed) and no all-notes-off is issued. -/
theorem set_basic_channel_failed_unchanged (s : fluid_synth_t)
    (infos : Option fluid_basic_channel_infos_t)
    (h : (fluid_synth_set_basic_channel s infos).1 = FLUID_FAILED) :
    (fluid_synth_set_basic_channel s infos).2 = s := by
  cases infos with
  | none => rfl
  | some e =>
    obtain ⟨b, mode, val⟩ := e
    rcases set_basic_channel_cases s b mode val with ⟨e, -⟩ | ⟨e, -⟩
    · rw [e]
    · rw [e] at h ⊢
      exact LOCAL_failed_state s _ _ _ h

/-- Witness of C3: with eight channels and basic channels 0 and 4, the request
`(2, Omni-Off/Mono, 5)` fails because `2 + 5 = 7 > 4`, and nothing changes. -/
theorem set_basic_channel_failed_unchanged_witness :
    (is_basic (synth_leaders_0_4.chan 0) = true ∧ is_basic (synth_leaders_0_4.chan 4) = true ∧
      synth_leaders_0_4.midi_channels = 8) ∧
    (fluid_synth_set_basic_channel synth_leaders_0_4 (some ⟨2, 3, 5⟩)).1 = FLUID_FAILED ∧
    (fluid_synth_set_basic_channel synth_leaders_0_4 (some ⟨2, 3, 5⟩)).2 = synth_leaders_0_4 :=
  ⟨by decide, by decide,
    set_basic_channel_failed_unchanged synth_leaders_0_4 (some ⟨2, 3, 5⟩) (by decide)⟩

/-! ## The flags after a successful `fluid_synth_set_basic_channel_LOCAL` -/

theorem narrowed_chan_mode (s : fluid_synth_t) (b j : Nat) :
    (narrowed_chan s b j).mode = (s.chan j).mode := by
  unfold narrowed_chan; split_ifs <;> rfl

theorem narrowed_chan_mode_val (s : fluid_synth_t) (b j : Nat) :
    (narrowed_chan s b j).mode_val =
      if prev_basic_chan_of s b = (j : Int) then b - j else (s.chan j).mode_val := by
  unfold narrowed_chan; split_ifs <;> rfl

/-- The four observable fields of every channel after a successful call. -/
theorem LOCAL_ok_view (s : fluid_synth_t) (b mode val : Nat)
    (h : (fluid_synth_set_basic_channel_LOCAL s b mode val).1 = FLUID_OK) :
    let s' := (fluid_synth_set_basic_channel_LOCAL s b mode val).2
    let g := group_end s b
    let m := mode &&& 3
    let lbr := begin_range b m val g
    ∀ j,
      is_basic (s'.chan j) =
        (if b ≤ j ∧ j < g then decide (j = b ∧ j < lbr) else is_basic (s.chan j)) ∧
      is_enabled (s'.chan j) =
        (if b ≤ j ∧ j < g then decide (j < lbr) else is_enabled (s.chan j)) ∧
      mode_bits (s'.chan j) =
        (if b ≤ j ∧ j < g then (if j < lbr then m else 0) else mode_bits (s.chan j)) ∧
      (s'.chan j).mode_val =
        (if b ≤ j ∧ j < g then (if j = b then begin_val b m val g else 0)
         else if prev_basic_chan_of s b = (j : Int) then b - j else (s.chan j).mode_val) := by
  intro s' g m lbr j
  obtain ⟨hb, hl, -, -, hc⟩ := LOCAL_ok_spec s b mode val h
  have hm : m < 4 := and_three_lt mode
  have hcj : s'.chan j = if b ≤ j ∧ j < g then
        written_chan b m lbr (begin_val b m val g) (s.chan j) j
      else narrowed_chan s b j := hc j
  rw [hcj]
  by_cases hj : b ≤ j ∧ j < g
  · simp only [hj, and_self, if_true]
    exact ⟨is_basic_written_iff _ _ _ _ _ _ hm, is_enabled_written _ _ _ _ _ _ hm,
      mode_bits_written _ _ _ _ _ _ hm, mode_val_written _ _ _ _ _ _⟩
  · simp only [hj, if_false]
    refine ⟨?_, ?_, ?_, narrowed_chan_mode_val s b j⟩
    · simp only [is_basic, narrowed_chan_mode]
    · simp only [is_enabled, narrowed_chan_mode]
    · simp only [mode_bits, narrowed_chan_mode]

/-- The four observable fields after a successful call in which `b` lies in its own
enabled range: `b` is then the basic channel of its group. -/
theorem LOCAL_ok_view_nd (s : fluid_synth_t) (b mode val : Nat)
    (hnd : b < begin_range b (mode &&& 3) val (group_end s b))
    (h : (fluid_synth_set_basic_channel_LOCAL s b mode val).1 = FLUID_OK) :
    let s' := (fluid_synth_set_basic_channel_LOCAL s b mode val).2
    let g := group_end s b
    let m := mode &&& 3
    let lbr := begin_range b m val g
    ∀ j,
      is_basic (s'.chan j) =
        (if b ≤ j ∧ j < g then decide (j = b) else is_basic (s.chan j)) ∧
      is_enabled (s'.chan j) =
        (if b ≤ j ∧ j < g then decide (j < lbr) else is_enabled (s.chan j)) ∧
      mode_bits (s'.chan j) =
        (if b ≤ j ∧ j < g then (if j < lbr then m else 0) else mode_bits (s.chan j)) ∧
      (s'.chan j).mode_val =
        (if b ≤ j ∧ j < g then (if j = b then lbr - b else 0)
         else if prev_basic_chan_of s b = (j : Int) then b - j else (s.chan j).mode_val) := by
  intro s' g m lbr j
  obtain ⟨v1, v2, v3, v4⟩ := LOCAL_ok_view s b mode val h j
  rw [begin_val_of_lt b (mode &&& 3) val (group_end s b) hnd] at v4
  refine ⟨?_, v2, v3, v4⟩
  rw [v1]
  by_cases hj : b ≤ j ∧ j < group_end s b
  · simp only [hj, and_self, if_true]
    by_cases hjb : j = b
    · subst hjb; simp [hnd]
    · simp [hjb]
  · simp only [hj, if_false]

/-- The four observable fields after a successful call in which the sum `b + val` does
not exceed `INT_MAX`. -/
theorem LOCAL_ok_view_exact (s : fluid_synth_t) (b mode val : Nat)
    (hno : (b : Int) + (val : Int) ≤ INT_MAX)
    (h : (fluid_synth_set_basic_channel_LOCAL s b mode val).1 = FLUID_OK) :
    let s' := (fluid_synth_set_basic_channel_LOCAL s b mode val).2
    let g := group_end s b
    let m := mode &&& 3
    let lbr := enabled_end b m val g
    ∀ j,
      is_basic (s'.chan j) =
        (if b ≤ j ∧ j < g then decide (j = b) else is_basic (s.chan j)) ∧
      is_enabled (s'.chan j) =
        (if b ≤ j ∧ j < g then decide (j < lbr) else is_enabled (s.chan j)) ∧
      mode_bits (s'.chan j) =
        (if b ≤ j ∧ j < g then (if j < lbr then m else 0) else mode_bits (s.chan j)) ∧
      (s'.chan j).mode_val =
        (if b ≤ j ∧ j < g then (if j = b then lbr - b else 0)
         else if prev_basic_chan_of s b = (j : Int) then b - j else (s.chan j).mode_val) := by
  intro s' g m lbr j
  obtain ⟨hb, -⟩ := LOCAL_ok_spec s b mode val h
  have hg := group_end_spec s b hb
  have hnd : b < begin_range b (mode &&& 3) val (group_end s b) := by
    rw [begin_range_eq _ _ _ _ (and_three_lt mode) hno]
    exact enabled_end_gt b _ val _ hg.1
  have hv := LOCAL_ok_view_nd s b mode val hnd h j
  rw [begin_range_eq _ _ _ _ (and_three_lt mode) hno] at hv
  exact hv

/-- Pointwise description of a successful call in which the sum `b + val` does not exceed
`INT_MAX`. -/
theorem LOCAL_ok_spec_exact (s : fluid_synth_t) (b mode val : Nat)
    (hno : (b : Int) + (val : Int) ≤ INT_MAX)
    (h : (fluid_synth_set_basic_channel_LOCAL s b mode val).1 = FLUID_OK) :
    let s' := (fluid_synth_set_basic_channel_LOCAL s b mode val).2
    let g := group_end s b
    let m := mode &&& 3
    let lbr := enabled_end b m val g
    b < s.midi_channels ∧ lbr ≤ g ∧
    s'.midi_channels = s.midi_channels ∧
    s'.notes_off = s.notes_off ++ (List.range' b (g - b)).map (fun i => (i, s.chan i)) ∧
    ∀ j, s'.chan j =
      if b ≤ j ∧ j < g then written_chan b m lbr (lbr - b) (s.chan j) j
      else narrowed_chan s b j := by
  intro s' g m lbr
  obtain ⟨h1, h2, h3, h4, h5⟩ := LOCAL_ok_spec s b mode val h
  rw [begin_range_eq _ _ _ _ (and_three_lt mode) hno] at h2 h5
  rw [begin_val_eq _ _ _ _ (and_three_lt mode) hno] at h5
  exact ⟨h1, h2, h3, h4, h5⟩

/-- The call fails exactly when the channel is out of range or the requested range reaches
past the end of the group, when the sum `b + val` does not exceed `INT_MAX`. -/
theorem LOCAL_fails_iff_exact (s : fluid_synth_t) (b mode val : Nat)
    (hno : (b : Int) + (val : Int) ≤ INT_MAX) :
    (fluid_synth_set_basic_channel_LOCAL s b mode val).1 = FLUID_FAILED ↔
      ¬ b < s.midi_channels ∨
        enabled_end b (mode &&& 3) val (group_end s b) > group_end s b := by
  rw [LOCAL_fails_iff, begin_range_eq _ _ _ _ (and_three_lt mode) hno]

theorem prev_basic_chan_of_eq (s : fluid_synth_t) (b p : Nat) (hp : p < b)
    (hpb : is_basic (s.chan p) = true)
    (hnear : ∀ j, p < j → j < b → is_basic (s.chan j) = false)
    (he : is_enabled (s.chan b) = true) (hnb : is_basic (s.chan b) = false) :
    prev_basic_chan_of s b = (p : Int) := by
  unfold prev_basic_chan_of
  simp only [hnb, he, Bool.not_false, if_true]
  rcases search_prev_spec s b with ⟨-, h2⟩ | ⟨q, hq, hq1, hq2, hq3⟩
  · have := h2 p hp
    rw [hpb] at this; exact absurd this (by decide)
  · rw [hq]
    rcases Nat.lt_trichotomy p q with hlt | heq | hgt
    · have := hnear q hlt hq1
      rw [hq2] at this; exact absurd this (by decide)
    · rw [heq]
    · have := hq3 p hgt hp
      rw [hpb] at this; exact absurd this (by decide)

theorem prev_basic_chan_of_none (s : fluid_synth_t) (b : Nat)
    (h : is_basic (s.chan b) = true ∨ is_enabled (s.chan b) = false) :
    prev_basic_chan_of s b = -1 := by
  unfold prev_basic_chan_of
  rcases h with h | h
  · simp [h]
  · simp [h]

/-- C4: when channel `b` is enabled and not basic and `p` is the nearest basic channel below
it, a successful `fluid_synth_set_basic_channel (b, mode, val)` leaves `mode_val (p) = b - p`,
so the enabled range of `p` ends exactly at `b`, and the channels `p .. b-1` keep their
enabled flag and mode; when `b` was already basic, or was disabled, the `mode_val` of every
other basic channel is unchanged. -/
theorem set_basic_channel_narrows (s : fluid_synth_t) (b mode val : Int)
    (h : (fluid_synth_set_basic_channel s (some ⟨b, mode, val⟩)).1 = FLUID_OK) :
    let s' := (fluid_synth_set_basic_channel s (some ⟨b, mode, val⟩)).2
    (∀ p : Nat, p < b.toNat → is_basic (s.chan p) = true →
      (∀ j, p < j → j < b.toNat → is_basic (s.chan j) = false) →
      is_enabled (s.chan b.toNat) = true → is_basic (s.chan b.toNat) = false →
        (s'.chan p).mode_val = b.toNat - p ∧ p + (s'.chan p).mode_val = b.toNat ∧
        ∀ j, p ≤ j → j < b.toNat →
          is_enabled (s'.chan j) = is_enabled (s.chan j) ∧
          mode_bits (s'.chan j) = mode_bits (s.chan j) ∧
          is_basic (s'.chan j) = is_basic (s.chan j)) ∧
    ((is_basic (s.chan b.toNat) = true ∨ is_enabled (s.chan b.toNat) = false) →
      ∀ j, j ≠ b.toNat → is_basic (s.chan j) = true →
        (s'.chan j).mode_val = (s.chan j).mode_val) := by
  intro s'
  rcases set_basic_channel_cases s b mode val with ⟨e, -⟩ | ⟨e, -⟩
  · rw [e] at h; simp at h
  · have hs' : s' = (fluid_synth_set_basic_channel_LOCAL s b.toNat mode.toNat val.toNat).2 := by
      show (fluid_synth_set_basic_channel s (some ⟨b, mode, val⟩)).2 = _
      rw [e]
    rw [e] at h
    have hv := LOCAL_ok_view s b.toNat mode.toNat val.toNat h
    obtain ⟨hb, -⟩ := LOCAL_ok_spec s b.toNat mode.toNat val.toNat h
    have hg := group_end_spec s b.toNat hb
    rw [hs']
    refine ⟨?_, ?_⟩
    · intro p hp hpb hnear he hnb
      have hprev := prev_basic_chan_of_eq s b.toNat p hp hpb hnear he hnb
      have hmv : ((fluid_synth_set_basic_channel_LOCAL s b.toNat mode.toNat val.toNat).2.chan
          p).mode_val = b.toNat - p := by
        rw [(hv p).2.2.2]
        have : ¬ (b.toNat ≤ p ∧ p < group_end s b.toNat) := by omega
        simp only [this, if_false, hprev, if_true]
      refine ⟨hmv, by rw [hmv]; omega, ?_⟩
      intro j hj1 hj2
      have hout : ¬ (b.toNat ≤ j ∧ j < group_end s b.toNat) := by omega
      obtain ⟨v1, v2, v3, -⟩ := hv j
      simp only [hout, if_false] at v1 v2 v3
      exact ⟨v2, v3, v1⟩
    · intro hcase j hj hjb
      have hprev := prev_basic_chan_of_none s b.toNat hcase
      rw [(hv j).2.2.2]
      have hout : ¬ (b.toNat ≤ j ∧ j < group_end s b.toNat) := by
        rintro ⟨h1, h2⟩
        have := hg.2.2.1 j (by omega) h2
        rw [hjb] at this; exact absurd this (by decide)
      have hne : ¬ (prev_basic_chan_of s b.toNat = (j : Int)) := by omega
      simp only [hout, if_false, hne]

/-- Witness of C4: on the default partition of eight channels, the insertion of basic
channel 3 in Omni-Off/Poly leaves basic channel 0 with the enabled range `[0, 3)`, basic
channel 3 with the enabled range `{3}`, and the channels 4..7 disabled. -/
theorem set_basic_channel_narrows_witness :
    (fluid_synth_set_basic_channel (default_synth 8) (some ⟨3, 2, 0⟩)).1 = FLUID_OK ∧
    (((fluid_synth_set_basic_channel (default_synth 8) (some ⟨3, 2, 0⟩)).2.chan 0).mode_val = 3 ∧
      ((fluid_synth_set_basic_channel (default_synth 8) (some ⟨3, 2, 0⟩)).2.chan 3).mode_val = 1 ∧
      ((fluid_synth_set_basic_channel (default_synth 8) (some ⟨3, 2, 0⟩)).2.channel.map
        is_enabled) = [true, true, true, true, false, false, false, false] ∧
      ((fluid_synth_set_basic_channel (default_synth 8) (some ⟨3, 2, 0⟩)).2.channel.map
        is_basic) = [true, false, false, true, false, false, false, false]) ∧
    (((fluid_synth_set_basic_channel (default_synth 8) (some ⟨3, 2, 0⟩)).2.chan 0).mode_val
        = (3 : Int).toNat - 0 ∧
      0 + ((fluid_synth_set_basic_channel (default_synth 8) (some ⟨3, 2, 0⟩)).2.chan 0).mode_val
        = (3 : Int).toNat ∧
      ∀ j, 0 ≤ j → j < (3 : Int).toNat →
        is_enabled ((fluid_synth_set_basic_channel (default_synth 8) (some ⟨3, 2, 0⟩)).2.chan j)
          = is_enabled ((default_synth 8).chan j) ∧
        mode_bits ((fluid_synth_set_basic_channel (default_synth 8) (some ⟨3, 2, 0⟩)).2.chan j)
          = mode_bits ((default_synth 8).chan j) ∧
        is_basic ((fluid_synth_set_basic_channel (default_synth 8) (some ⟨3, 2, 0⟩)).2.chan j)
          = is_basic ((default_synth 8).chan j)) :=
  ⟨by decide, by decide,
    (set_basic_channel_narrows (default_synth 8) 3 2 0 (by decide)).1 0 (by decide) (by decide)
      (by
        intro j h1 h2
        have h3 : j < 3 := h2
        interval_cases j <;> decide)
      (by decide) (by decide)⟩

/-! ## The partition invariant -/

/-- The nearest basic channel at or below `i`, when there is one. -/
theorem nearest_basic (s : fluid_synth_t) (i : Nat) :
    (∀ j, j ≤ i → is_basic (s.chan j) = false) ∨
    ∃ L, L ≤ i ∧ is_basic (s.chan L) = true ∧
      ∀ j, L < j → j ≤ i → is_basic (s.chan j) = false := by
  rcases search_prev_spec s (i + 1) with ⟨-, h⟩ | ⟨p, -, hp1, hp2, hp3⟩
  · left; intro j hj; exact h j (by omega)
  · right; exact ⟨p, by omega, hp2, fun j h1 h2 => hp3 j h1 (by omega)⟩

/-- What the backward search of a successful call found, in a state that satisfies the
partition invariant. -/
theorem prev_basic_chan_of_inv (s : fluid_synth_t) (b : Nat) (hb : b < s.midi_channels)
    (hinv : partition_inv s) :
    (prev_basic_chan_of s b = -1 ∧
      (is_basic (s.chan b) = true ∨ is_enabled (s.chan b) = false)) ∨
    ∃ p : Nat, prev_basic_chan_of s b = (p : Int) ∧ p < b ∧ is_basic (s.chan b) = false ∧
      is_enabled (s.chan b) = true ∧ is_basic (s.chan p) = true ∧
      (∀ j, p < j → j < b → is_basic (s.chan j) = false) ∧ b < p + (s.chan p).mode_val := by
  by_cases h1 : is_basic (s.chan b) = true
  · left; exact ⟨prev_basic_chan_of_none s b (Or.inl h1), Or.inl h1⟩
  · have h1' : is_basic (s.chan b) = false := by simpa using h1
    by_cases h2 : is_enabled (s.chan b) = true
    · right
      rcases nearest_basic s b with hno | ⟨L, hL1, hL2, hL3⟩
      · have := hinv.orphan b hb hno
        rw [h2] at this; exact absurd this (by decide)
      · have hLb : L < b := by
          rcases Nat.lt_or_ge L b with h | h
          · exact h
          · have : L = b := by omega
            subst this
            rw [hL2] at h1'; exact absurd h1' (by decide)
        have hen := (hinv.enabled_iff L b (by omega) hb hL2 hL3).mp h2
        exact ⟨L, prev_basic_chan_of_eq s b L hLb hL2 (fun j a c => hL3 j a (by omega)) h2 h1',
          hLb, h1', h2, hL2, fun j a c => hL3 j a (by omega), hen⟩
    · have h2' : is_enabled (s.chan b) = false := by simpa using h2
      left; exact ⟨prev_basic_chan_of_none s b (Or.inr h2'), Or.inr h2'⟩

/-- A successful `fluid_synth_set_basic_channel_LOCAL` keeps the partition invariant, also
when the wrapped sum leaves the whole group disabled and `b` not basic. -/
theorem LOCAL_ok_partition_inv (s : fluid_synth_t) (b mode val : Nat)
    (hinv : partition_inv s)
    (h : (fluid_synth_set_basic_channel_LOCAL s b mode val).1 = FLUID_OK) :
    partition_inv (fluid_synth_set_basic_channel_LOCAL s b mode val).2 := by
  obtain ⟨hb, hl, hlen, -, -⟩ := LOCAL_ok_spec s b mode val h
  have hv := LOCAL_ok_view s b mode val h
  have hg := group_end_spec s b hb
  obtain ⟨hg1, hg2, hg3, hg4⟩ := hg
  set s' := (fluid_synth_set_basic_channel_LOCAL s b mode val).2 with hs'
  set g := group_end s b with hgdef
  set lbr := begin_range b (mode &&& 3) val g with hlbr
  -- the flags inside and outside the rewritten range
  have bin : ∀ j, b ≤ j → j < g → (is_basic (s'.chan j) = true ↔ j = b ∧ j < lbr) := by
    intro j h1 h2
    rw [(hv j).1]; simp [h1, h2]
  have ein : ∀ j, b ≤ j → j < g → (is_enabled (s'.chan j) = true ↔ j < lbr) := by
    intro j h1 h2
    rw [(hv j).2.1]; simp [h1, h2]
  have vin : ∀ j, b ≤ j → j < g → (s'.chan j).mode_val =
      if j = b then begin_val b (mode &&& 3) val g else 0 := by
    intro j h1 h2
    rw [(hv j).2.2.2]; simp [h1, h2]
  have bout : ∀ j, ¬ (b ≤ j ∧ j < g) → is_basic (s'.chan j) = is_basic (s.chan j) := by
    intro j h1
    rw [(hv j).1]; simp only [h1, if_false]
  have eout : ∀ j, ¬ (b ≤ j ∧ j < g) → is_enabled (s'.chan j) = is_enabled (s.chan j) := by
    intro j h1
    rw [(hv j).2.1]; simp only [h1, if_false]
  have vout : ∀ j, ¬ (b ≤ j ∧ j < g) → (s'.chan j).mode_val =
      if prev_basic_chan_of s b = (j : Int) then b - j else (s.chan j).mode_val := by
    intro j h1
    rw [(hv j).2.2.2]; simp only [h1, if_false]
  -- a basic channel of the new state is `b` or a basic channel of the old state
  have bold : ∀ j, j ≠ b → is_basic (s'.chan j) = true → is_basic (s.chan j) = true ∧
      ¬ (b ≤ j ∧ j < g) := by
    intro j hj hbj
    by_cases hin : b ≤ j ∧ j < g
    · exact absurd ((bin j hin.1 hin.2).mp hbj).1 hj
    · rw [bout j hin] at hbj; exact ⟨hbj, hin⟩
  -- the width of an old basic channel below `b` still stops at `b`
  have below : ∀ L, L < b → is_basic (s.chan L) = true → L + (s'.chan L).mode_val ≤ b := by
    intro L hL hLb
    rw [vout L (by omega)]
    rcases prev_basic_chan_of_inv s b hb hinv with ⟨hp, hcase⟩ | ⟨p, hp, hpb, hnb, hen, hpB, hnear, hcov⟩
    · have hne : ¬ (prev_basic_chan_of s b = (L : Int)) := by omega
      simp only [hne, if_false]
      rcases hcase with hbB | hbE
      · exact hinv.range_le L b hL hb hLb hbB
      · rcases nearest_basic s b with hno | ⟨q, hq1, hq2, hq3⟩
        · have := hno L (by omega)
          rw [hLb] at this; exact absurd this (by decide)
        · have hqv : ¬ (b < q + (s.chan q).mode_val) := by
            intro hc
            have := (hinv.enabled_iff q b hq1 hb hq2 hq3).mpr hc
            rw [hbE] at this; exact absurd this (by decide)
          rcases Nat.lt_trichotomy L q with hlt | heq | hgt
          · have := hinv.range_le L q hlt (by omega) hLb hq2
            omega
          · subst heq; omega
          · have := hq3 L hgt (by omega)
            rw [hLb] at this; exact absurd this (by decide)
    · by_cases hLp : L = p
      · subst hLp
        simp only [hp, if_true]
        omega
      · have hne : ¬ (prev_basic_chan_of s b = (L : Int)) := by omega
        simp only [hne, if_false]
        rcases Nat.lt_or_ge L p with hlt | hge
        · have := hinv.range_le L p hlt (by omega) hLb hpB
          omega
        · have := hnear L (by omega) hL
          rw [hLb] at this; exact absurd this (by decide)
  -- the width of an old basic channel other than the narrowed one is unchanged
  have vkeep : ∀ L, ¬ (b ≤ L ∧ L < g) → b ≤ L → (s'.chan L).mode_val = (s.chan L).mode_val := by
    intro L h1 h2
    rw [vout L h1]
    have hne : ¬ (prev_basic_chan_of s b = (L : Int)) := by
      rcases prev_basic_chan_of_spec s b with hp | ⟨p, hp, hpb, -⟩
      · omega
      · omega
    simp only [hne, if_false]
  -- the width of a basic channel below `b` between two old basic channels
  have between : ∀ L L', L < L' → L' < b → is_basic (s.chan L) = true →
      is_basic (s.chan L') = true → L + (s'.chan L).mode_val ≤ L' := by
    intro L L' hLL' hlt' hLold hL'old
    rw [vout L (by omega)]
    have hne : ¬ (prev_basic_chan_of s b = (L : Int)) := by
      rcases prev_basic_chan_of_spec s b with hp | ⟨p, hp, hpb, -, -, -, hnear⟩
      · omega
      · intro hc
        have hpL : p = L := by omega
        subst hpL
        have := hnear L' hLL' hlt'
        rw [hL'old] at this; exact absurd this (by decide)
    simp only [hne, if_false]
    exact hinv.range_le L L' hLL' (by omega) hLold hL'old
  -- the enabled flag of a channel below `b`, in the group of an old basic channel
  have enabled_below : ∀ L i, L ≤ i → i < b → is_basic (s.chan L) = true →
      (∀ j, L < j → j ≤ i → is_basic (s.chan j) = false) →
      (is_enabled (s'.chan i) = true ↔ i < L + (s'.chan L).mode_val) := by
    intro L i hLi hib hLold hnear_old
    have hold := hinv.enabled_iff L i hLi (by omega) hLold hnear_old
    rw [eout i (by omega), hold, vout L (by omega)]
    by_cases hpe : prev_basic_chan_of s b = (L : Int)
    · simp only [hpe, if_true]
      rcases prev_basic_chan_of_inv s b hb hinv with ⟨hp, -⟩ | ⟨p, hp, -, -, -, -, -, hcov⟩
      · omega
      · have : p = L := by omega
        subst this
        omega
    · simp only [hpe, if_false]
  by_cases hnd : b < lbr
  · -- `b` becomes the basic channel of `[b, g)`
    have hvb : (s'.chan b).mode_val = lbr - b := by
      rw [vin b (le_refl _) hg1, if_pos rfl]
      exact begin_val_of_lt b (mode &&& 3) val g hnd
    have bb : is_basic (s'.chan b) = true := (bin b (le_refl _) hg1).mpr ⟨rfl, hnd⟩
    refine ⟨?_, ?_, ?_, ?_⟩
    · -- range_le
      intro L L' hLL' hL'n hLB hL'B
      rw [hlen] at hL'n
      by_cases hLb : L = b
      · subst hLb
        rw [hvb]
        have := (bold L' (by omega) hL'B).2
        omega
      · obtain ⟨hLold, hLout⟩ := bold L hLb hLB
        rcases Nat.lt_or_ge L b with hlt | hge
        · have hbel := below L hlt hLold
          by_cases hL'b : L' = b
          · omega
          · obtain ⟨hL'old, hL'out⟩ := bold L' hL'b hL'B
            rcases Nat.lt_or_ge L' b with hlt' | hge'
            · exact between L L' hLL' hlt' hLold hL'old
            · omega
        · rw [vkeep L hLout hge]
          obtain ⟨hL'old, -⟩ := bold L' (by omega) hL'B
          exact hinv.range_le L L' hLL' hL'n hLold hL'old
    · -- range_le_end
      intro L hLn hLB
      rw [hlen] at hLn ⊢
      by_cases hLb : L = b
      · subst hLb
        rw [hvb]
        omega
      · obtain ⟨hLold, hLout⟩ := bold L hLb hLB
        rcases Nat.lt_or_ge L b with hlt | hge
        · have := below L hlt hLold
          omega
        · rw [vkeep L hLout hge]
          exact hinv.range_le_end L hLn hLold
    · -- enabled_iff
      intro L i hLi hin hLB hnear
      rw [hlen] at hin
      by_cases hLb : L = b
      · subst hLb
        have hig : i < g := by
          by_contra hc
          have hgn : g < s.midi_channels := by omega
          have h1 := hg4 hgn
          have h2 := hnear g hg1 (by omega)
          rw [bout g (by omega), h1] at h2
          exact absurd h2 (by decide)
        rw [ein i hLi hig, hvb]
        omega
      · obtain ⟨hLold, hLout⟩ := bold L hLb hLB
        rcases Nat.lt_or_ge L b with hlt | hge
        · have hib : i < b := by
            by_contra hc
            have := hnear b hlt (by omega)
            rw [bb] at this; exact absurd this (by decide)
          have hnear_old : ∀ j, L < j → j ≤ i → is_basic (s.chan j) = false := by
            intro j h1 h2
            rw [← bout j (by omega)]
            exact hnear j h1 h2
          exact enabled_below L i hLi hib hLold hnear_old
        · have hnear_old : ∀ j, L < j → j ≤ i → is_basic (s.chan j) = false := by
            intro j h1 h2
            rw [← bout j (by omega)]
            exact hnear j h1 h2
          rw [eout i (by omega), vkeep L hLout hge]
          exact hinv.enabled_iff L i hLi hin hLold hnear_old
    · -- orphan
      intro i hin hno
      rw [hlen] at hin
      have hib : i < b := by
        by_contra hc
        have := hno b (by omega)
        rw [bb] at this; exact absurd this (by decide)
      rw [eout i (by omega)]
      apply hinv.orphan i hin
      intro j hj
      rw [← bout j (by omega)]
      exact hno j hj
  · -- the wrapped sum: the whole range `[b, g)` is left disabled, without a basic channel
    have nbin : ∀ j, b ≤ j → j < g → is_basic (s'.chan j) = false := by
      intro j h1 h2
      by_contra hc
      have := (bin j h1 h2).mp (by simpa using hc)
      omega
    have nein : ∀ j, b ≤ j → j < g → is_enabled (s'.chan j) = false := by
      intro j h1 h2
      by_contra hc
      have := (ein j h1 h2).mp (by simpa using hc)
      omega
    have boldd : ∀ j, is_basic (s'.chan j) = true → is_basic (s.chan j) = true ∧
        ¬ (b ≤ j ∧ j < g) := by
      intro j hbj
      by_cases hin : b ≤ j ∧ j < g
      · rw [nbin j hin.1 hin.2] at hbj; exact absurd hbj (by decide)
      · rw [bout j hin] at hbj; exact ⟨hbj, hin⟩
    -- no group of the new state runs from below `g` to `g` or beyond
    have past : ∀ L i, L < g → g ≤ i → i < s.midi_channels →
        (∀ j, L < j → j ≤ i → is_basic (s'.chan j) = false) → False := by
      intro L i hLg hgi hin hnear
      have h1 := hg4 (by omega)
      have h2 := hnear g hLg hgi
      rw [bout g (by omega), h1] at h2
      exact absurd h2 (by decide)
    refine ⟨?_, ?_, ?_, ?_⟩
    · -- range_le
      intro L L' hLL' hL'n hLB hL'B
      rw [hlen] at hL'n
      obtain ⟨hLold, hLout⟩ := boldd L hLB
      obtain ⟨hL'old, hL'out⟩ := boldd L' hL'B
      rcases Nat.lt_or_ge L b with hlt | hge
      · have hbel := below L hlt hLold
        rcases Nat.lt_or_ge L' b with hlt' | hge'
        · exact between L L' hLL' hlt' hLold hL'old
        · omega
      · rw [vkeep L hLout hge]
        exact hinv.range_le L L' hLL' hL'n hLold hL'old
    · -- range_le_end
      intro L hLn hLB
      rw [hlen] at hLn ⊢
      obtain ⟨hLold, hLout⟩ := boldd L hLB
      rcases Nat.lt_or_ge L b with hlt | hge
      · have := below L hlt hLold
        omega
      · rw [vkeep L hLout hge]
        exact hinv.range_le_end L hLn hLold
    · -- enabled_iff
      intro L i hLi hin hLB hnear
      rw [hlen] at hin
      obtain ⟨hLold, hLout⟩ := boldd L hLB
      rcases Nat.lt_or_ge L b with hlt | hge
      · rcases Nat.lt_or_ge i b with hib | hib
        · have hnear_old : ∀ j, L < j → j ≤ i → is_basic (s.chan j) = false := by
            intro j h1 h2
            rw [← bout j (by omega)]
            exact hnear j h1 h2
          exact enabled_below L i hLi hib hLold hnear_old
        · rcases Nat.lt_or_ge i g with hig | hig
          · have hbel := below L hlt hLold
            rw [nein i hib hig]
            constructor
            · intro hc; exact absurd hc (by decide)
            · intro hc; omega
          · exact (past L i (by omega) hig hin hnear).elim
      · have hnear_old : ∀ j, L < j → j ≤ i → is_basic (s.chan j) = false := by
          intro j h1 h2
          rw [← bout j (by omega)]
          exact hnear j h1 h2
        rw [eout i (by omega), vkeep L hLout hge]
        exact hinv.enabled_iff L i hLi hin hLold hnear_old
    · -- orphan
      intro i hin hno
      rw [hlen] at hin
      rcases Nat.lt_or_ge i b with hib | hib
      · rw [eout i (by omega)]
        apply hinv.orphan i hin
        intro j hj
        rw [← bout j (by omega)]
        exact hno j hj
      · rcases Nat.lt_or_ge i g with hig | hig
        · exact nein i hib hig
        · have h1 := hg4 (by omega)
          have h2 := hno g hig
          rw [bout g (by omega), h1] at h2
          exact absurd h2 (by decide)

/-- A successful `fluid_synth_set_basic_channel_LOCAL` in which `b` lies in its own enabled
range keeps `mode_val` at 0 on the channels that are not basic. -/
theorem LOCAL_ok_nonbasic_val (s : fluid_synth_t) (b mode val : Nat)
    (hnb0 : nonbasic_val_zero s)
    (hnd : b < begin_range b (mode &&& 3) val (group_end s b))
    (h : (fluid_synth_set_basic_channel_LOCAL s b mode val).1 = FLUID_OK) :
    nonbasic_val_zero (fluid_synth_set_basic_channel_LOCAL s b mode val).2 := by
  obtain ⟨hb, hl, hlen, -, -⟩ := LOCAL_ok_spec s b mode val h
  have hv := LOCAL_ok_view_nd s b mode val hnd h
  intro i hin hnb
  rw [hlen] at hin
  obtain ⟨v1, -, -, v4⟩ := hv i
  rw [v4]
  rw [v1] at hnb
  by_cases hrange : b ≤ i ∧ i < group_end s b
  · simp only [hrange, and_self, if_true] at hnb ⊢
    have : i ≠ b := by
      intro hc; simp [hc] at hnb
    simp only [this, if_false]
  · simp only [hrange, if_false] at hnb ⊢
    have hne : ¬ (prev_basic_chan_of s b = (i : Int)) := by
      rcases prev_basic_chan_of_spec s b with hp | ⟨p, hp, -, -, -, hpB, -⟩
      · omega
      · intro hc
        have : p = i := by omega
        subst this
        rw [hpB] at hnb; exact absurd hnb (by decide)
    simp only [hne, if_false]
    exact hnb0 i hin hnb

/-! ## Clearing and marking -/

theorem chan_of_lt (s : fluid_synth_t) (j : Nat) (h : j < s.midi_channels) :
    s.chan j = s.channel[j] := by
  unfold fluid_synth_t.midi_channels at h
  simp [fluid_synth_t.chan, List.getD_eq_getElem?_getD, List.getElem?_eq_getElem h]

theorem chan_of_ge (s : fluid_synth_t) (j : Nat) (h : s.midi_channels ≤ j) :
    s.chan j = default := by
  unfold fluid_synth_t.midi_channels at h
  simp [fluid_synth_t.chan, List.getD_eq_getElem?_getD, List.getElem?_eq_none h]

theorem midi_channels_clear (s : fluid_synth_t) :
    (clear_basic_channels s).midi_channels = s.midi_channels := by
  simp [clear_basic_channels, fluid_synth_t.midi_channels]

theorem chan_clear (s : fluid_synth_t) (j : Nat) (h : j < s.midi_channels) :
    (clear_basic_channels s).chan j =
      { fluid_channel_reset_basic_channel_info (s.chan j) with mode_val := 0 } := by
  rw [chan_of_lt _ j (by rw [midi_channels_clear]; exact h), chan_of_lt s j h]
  simp [clear_basic_channels]

theorem reset_info_mode (c : fluid_channel_t) :
    (fluid_channel_reset_basic_channel_info c).mode = set_info_word c.mode 0 := by
  simp [fluid_channel_reset_basic_channel_info, set_info_word, mask_eq]

theorem clear_flags (s : fluid_synth_t) (j : Nat) :
    is_basic ((clear_basic_channels s).chan j) = false ∧
    is_enabled ((clear_basic_channels s).chan j) = false ∧
    mode_bits ((clear_basic_channels s).chan j) = 0 ∧
    ((clear_basic_channels s).chan j).mode_val = 0 := by
  rcases Nat.lt_or_ge j s.midi_channels with h | h
  · rw [chan_clear s j h]
    simp only [is_basic, is_enabled, mode_bits, reset_info_mode, set_info_word_and_four,
      set_info_word_and_eight, set_info_word_and_three]
    simp
  · rw [chan_of_ge _ j (by rw [midi_channels_clear]; exact h)]
    decide

theorem all_disabled_clear (s : fluid_synth_t) : all_disabled (clear_basic_channels s) :=
  fun j => ⟨(clear_flags s j).2.1, (clear_flags s j).2.2.2⟩

theorem all_disabled_partition_inv (s : fluid_synth_t) (h : all_disabled s) :
    partition_inv s := by
  refine ⟨?_, ?_, ?_, ?_⟩
  · intro L L' h1 _ _ _
    rw [(h L).2]; omega
  · intro L h1 _
    rw [(h L).2]; omega
  · intro L i h1 _ _ _
    rw [(h L).2, (h i).1]
    constructor
    · intro hc; exact absurd hc (by decide)
    · intro hc; omega
  · intro i _ _
    exact (h i).1

theorem midi_channels_mark (s : fluid_synth_t) (e : fluid_basic_channel_infos_t) :
    (mark_basic_channel s e).midi_channels = s.midi_channels := by
  simp only [mark_basic_channel]
  split_ifs
  · rfl
  · exact midi_channels_set_chan _ _ _

theorem notes_off_mark (s : fluid_synth_t) (e : fluid_basic_channel_infos_t) :
    (mark_basic_channel s e).notes_off = s.notes_off := by
  simp only [mark_basic_channel]
  split_ifs <;> rfl

/-- The record at `j` after one iteration of the marking loop. -/
theorem chan_mark (s : fluid_synth_t) (e : fluid_basic_channel_infos_t) (j : Nat) :
    (mark_basic_channel s e).chan j =
      if e.basicchan.toNat = j ∧ j < s.midi_channels ∧ is_basic (s.chan j) = false then
        { s.chan j with mode := (s.chan j).mode ||| FLUID_CHANNEL_BASIC }
      else s.chan j := by
  simp only [mark_basic_channel]
  by_cases hb : is_basic (s.chan e.basicchan.toNat) = true
  · simp only [hb, if_true]
    by_cases hj : e.basicchan.toNat = j
    · subst hj; simp [hb]
    · simp [hj]
  · simp only [hb, Bool.false_eq_true, if_false]
    by_cases hj : e.basicchan.toNat = j
    · subst hj
      rcases Nat.lt_or_ge e.basicchan.toNat s.midi_channels with hlt | hge
      · rw [chan_set_chan_eq _ _ _ hlt]
        simp [hlt, hb]
      · have hn : ¬ (e.basicchan.toNat < s.midi_channels) := by omega
        simp only [hn, false_and, and_false, if_false]
        rw [chan_of_ge _ _ (by rw [midi_channels_set_chan]; exact hge), chan_of_ge _ _ hge]
    · rw [chan_set_chan_ne _ _ _ _ hj]
      simp [hj]

theorem mark_flags (s : fluid_synth_t) (e : fluid_basic_channel_infos_t) (j : Nat) :
    (is_basic ((mark_basic_channel s e).chan j) = true ↔
      is_basic (s.chan j) = true ∨ (e.basicchan.toNat = j ∧ j < s.midi_channels)) ∧
    is_enabled ((mark_basic_channel s e).chan j) = is_enabled (s.chan j) ∧
    mode_bits ((mark_basic_channel s e).chan j) = mode_bits (s.chan j) ∧
    ((mark_basic_channel s e).chan j).mode_val = (s.chan j).mode_val := by
  rw [chan_mark]
  by_cases hc : e.basicchan.toNat = j ∧ j < s.midi_channels ∧ is_basic (s.chan j) = false
  · rw [if_pos hc]
    refine ⟨?_, ?_, ?_, rfl⟩
    · simp [is_basic, or_four_and_four, hc.1, hc.2.1]
    · simp [is_enabled, or_four_and_eight]
    · simp [mode_bits, or_four_and_three]
  · rw [if_neg hc]
    refine ⟨?_, rfl, rfl, rfl⟩
    constructor
    · intro h; exact Or.inl h
    · rintro (h | ⟨h1, h2⟩)
      · exact h
      · by_contra hn
        exact hc ⟨h1, h2, by simpa using hn⟩

theorem midi_channels_marks (l : List fluid_basic_channel_infos_t) :
    ∀ s : fluid_synth_t, (l.foldl mark_basic_channel s).midi_channels = s.midi_channels := by
  induction l with
  | nil => intro s; rfl
  | cons e l ih => intro s; rw [List.foldl_cons, ih, midi_channels_mark]

theorem notes_off_marks (l : List fluid_basic_channel_infos_t) :
    ∀ s : fluid_synth_t, (l.foldl mark_basic_channel s).notes_off = s.notes_off := by
  induction l with
  | nil => intro s; rfl
  | cons e l ih => intro s; rw [List.foldl_cons, ih, notes_off_mark]

/-- The flags after the marking loop. -/
theorem marks_flags (l : List fluid_basic_channel_infos_t) :
    ∀ (s : fluid_synth_t) (j : Nat),
      (is_basic ((l.foldl mark_basic_channel s).chan j) = true ↔
        is_basic (s.chan j) = true ∨
          ((∃ e ∈ l, e.basicchan.toNat = j) ∧ j < s.midi_channels)) ∧
      is_enabled ((l.foldl mark_basic_channel s).chan j) = is_enabled (s.chan j) ∧
      mode_bits ((l.foldl mark_basic_channel s).chan j) = mode_bits (s.chan j) ∧
      ((l.foldl mark_basic_channel s).chan j).mode_val = (s.chan j).mode_val := by
  induction l with
  | nil => intro s j; simp
  | cons e l ih =>
    intro s j
    rw [List.foldl_cons]
    obtain ⟨h1, h2, h3, h4⟩ := ih (mark_basic_channel s e) j
    obtain ⟨m1, m2, m3, m4⟩ := mark_flags s e j
    refine ⟨?_, by rw [h2, m2], by rw [h3, m3], by rw [h4, m4]⟩
    rw [h1, m1, midi_channels_mark]
    simp only [List.mem_cons, exists_eq_or_imp]
    tauto

theorem all_disabled_prepared (s : fluid_synth_t) (l : List fluid_basic_channel_infos_t) :
    all_disabled (prepared s l) := by
  intro j
  obtain ⟨-, h2, -, h4⟩ := marks_flags l (clear_basic_channels s) j
  obtain ⟨-, c2, -, c4⟩ := clear_flags s j
  exact ⟨by rw [prepared, h2, c2], by rw [prepared, h4, c4]⟩

theorem midi_channels_prepared (s : fluid_synth_t) (l : List fluid_basic_channel_infos_t) :
    (prepared s l).midi_channels = s.midi_channels := by
  rw [prepared, midi_channels_marks, midi_channels_clear]

theorem is_basic_prepared (s : fluid_synth_t) (l : List fluid_basic_channel_infos_t)
    (j : Nat) :
    is_basic ((prepared s l).chan j) = true ↔
      (∃ e ∈ l, e.basicchan.toNat = j) ∧ j < s.midi_channels := by
  rw [prepared, (marks_flags l (clear_basic_channels s) j).1, (clear_flags s j).1,
    midi_channels_clear]
  simp

/-! ## The loop that applies the entries -/

theorem apply_loop_partition_inv (l : List fluid_basic_channel_infos_t) :
    ∀ (r : Int) (s : fluid_synth_t), partition_inv s →
      partition_inv (l.foldl apply_basic_channel (r, s)).2 := by
  induction l with
  | nil => intro r s h; exact h
  | cons e l ih =>
    intro r s h
    rw [List.foldl_cons]
    apply ih
    show partition_inv
      (fluid_synth_set_basic_channel_LOCAL s e.basicchan.toNat e.mode.toNat e.val.toNat).2
    rcases LOCAL_result s e.basicchan.toNat e.mode.toNat e.val.toNat with hok | hf
    · exact LOCAL_ok_partition_inv s _ _ _ h hok
    · rw [LOCAL_failed_state s _ _ _ hf]; exact h

theorem LOCAL_partition_inv (s : fluid_synth_t) (b mode val : Nat) (h : partition_inv s) :
    partition_inv (fluid_synth_set_basic_channel_LOCAL s b mode val).2 := by
  rcases LOCAL_result s b mode val with hok | hf
  · exact LOCAL_ok_partition_inv s _ _ _ h hok
  · rw [LOCAL_failed_state s _ _ _ hf]; exact h

/-- The branches of `fluid_synth_reset_basic_channels`. -/
theorem reset_basic_channels_cases (s : fluid_synth_t) (n : Int)
    (infos : Option (List fluid_basic_channel_infos_t)) :
    fluid_synth_reset_basic_channels s n infos = (FLUID_FAILED, s) ∨
    (∃ a, infos = some a ∧ 0 < n ∧ n ≤ s.midi_channels ∧
      (a.take n.toNat).any (entry_invalid s.midi_channels) = false ∧
      fluid_synth_reset_basic_channels s n infos =
        (a.take n.toNat).foldl apply_basic_channel
          (FLUID_OK, prepared s (a.take n.toNat))) ∨
    ((n = 0 ∨ infos = none) ∧ 0 ≤ n ∧ n ≤ s.midi_channels ∧
      fluid_synth_reset_basic_channels s n infos =
        fluid_synth_set_basic_channel_LOCAL (clear_basic_channels s) 0
          FLUID_CHANNEL_MODE_OMNION_POLY 0) := by
  by_cases h0 : n ≥ 0
  · by_cases hn : n > (s.midi_channels : Int)
    · left
      unfold fluid_synth_reset_basic_channels
      simp [h0, hn]
    · by_cases hz : n = 0
      · right; right
        refine ⟨Or.inl hz, h0, by omega, ?_⟩
        unfold fluid_synth_reset_basic_channels
        simp [hz]
      · cases infos with
        | none =>
          right; right
          refine ⟨Or.inr rfl, h0, by omega, ?_⟩
          unfold fluid_synth_reset_basic_channels
          simp [h0, hn]
        | some a =>
          by_cases hv : (a.take n.toNat).any (entry_invalid s.midi_channels) = true
          · left
            unfold fluid_synth_reset_basic_channels
            simp only [h0, hn, not_true, if_false, ne_eq, hz, not_false_eq_true, if_true, hv]
          · right; left
            refine ⟨a, rfl, by omega, by omega, by simpa using hv, ?_⟩
            unfold fluid_synth_reset_basic_channels
            simp only [h0, hn, not_true, if_false, ne_eq, hz, not_false_eq_true, if_true, hv,
              Bool.false_eq_true]
            rfl
  · left
    unfold fluid_synth_reset_basic_channels
    simp [h0]

theorem reset_partition_inv (s : fluid_synth_t) (n : Int)
    (infos : Option (List fluid_basic_channel_infos_t)) (h : partition_inv s) :
    partition_inv (fluid_synth_reset_basic_channels s n infos).2 := by
  rcases reset_basic_channels_cases s n infos with e | ⟨a, -, -, -, -, e⟩ | ⟨-, -, -, e⟩
  · rw [e]; exact h
  · rw [e]
    apply apply_loop_partition_inv
    exact all_disabled_partition_inv _ (all_disabled_prepared s _)
  · rw [e]
    apply LOCAL_partition_inv
    exact all_disabled_partition_inv _ (all_disabled_clear s)

theorem set_basic_channel_partition_inv (s : fluid_synth_t)
    (infos : Option fluid_basic_channel_infos_t) (h : partition_inv s) :
    partition_inv (fluid_synth_set_basic_channel s infos).2 := by
  cases infos with
  | none => exact h
  | some e =>
    obtain ⟨b, mode, val⟩ := e
    rcases set_basic_channel_cases s b mode val with ⟨e, -⟩ | ⟨e, -⟩
    · rw [e]; exact h
    · rw [e]; exact LOCAL_partition_inv s _ _ _ h

theorem reachable_partition_inv (s : fluid_synth_t) (h : Reachable s) : partition_inv s := by
  induction h with
  | default s0 =>
    rcases reset_basic_channels_cases s0 0 none with e | ⟨a, ha, -⟩ | ⟨-, -, -, e⟩
    · rw [e]
      -- the call with no entries only fails on a synth without channels
      have hn : s0.midi_channels = 0 := by
        by_contra hc
        have h1 : (fluid_synth_reset_basic_channels s0 0 none).1 = FLUID_FAILED := by rw [e]
        have h2 : fluid_synth_reset_basic_channels s0 0 none =
            fluid_synth_set_basic_channel_LOCAL (clear_basic_channels s0) 0 0 0 := by
          simp [fluid_synth_reset_basic_channels]
        rw [h2, LOCAL_fails_iff] at h1
        rcases h1 with h1 | h1
        · rw [midi_channels_clear] at h1; omega
        · rw [begin_range_eq 0 (0 &&& 3) 0 _ (by decide) (by decide)] at h1
          simp [enabled_end] at h1
      show partition_inv s0
      refine ⟨?_, ?_, ?_, ?_⟩ <;> intros <;> omega
    · exact absurd ha (by simp)
    · rw [e]
      apply LOCAL_partition_inv
      exact all_disabled_partition_inv _ (all_disabled_clear s0)
  | set_basic_channel s infos _ ih => exact set_basic_channel_partition_inv s infos ih
  | reset_basic_channels s n infos _ ih => exact reset_partition_inv s n infos ih

/-- C5: in the default state and in every state reached from it by calls of
`fluid_synth_set_basic_channel` and `fluid_synth_reset_basic_channels`, every enabled
channel `i` has a basic channel at or below it, and the nearest one `L` satisfies
`L ≤ i < L + mode_val L`; the enabled range of a basic channel contains no other basic
channel, so an enabled channel lies in the enabled range of exactly one basic channel. -/
theorem partition_invariant (s : fluid_synth_t) (h : Reachable s) :
    (∀ i, i < s.midi_channels → is_enabled (s.chan i) = true →
      ∃ L, L ≤ i ∧ is_basic (s.chan L) = true ∧
        (∀ j, L < j → j ≤ i → is_basic (s.chan j) = false) ∧
        i < L + (s.chan L).mode_val) ∧
    (∀ L L', L < L' → L' < s.midi_channels → is_basic (s.chan L) = true →
      is_basic (s.chan L') = true → L + (s.chan L).mode_val ≤ L') ∧
    (∀ i L L', i < s.midi_channels → is_basic (s.chan L) = true →
      is_basic (s.chan L') = true → L ≤ i → i < L + (s.chan L).mode_val →
      L' ≤ i → i < L' + (s.chan L').mode_val → L = L') := by
  have hinv := reachable_partition_inv s h
  refine ⟨?_, hinv.range_le, ?_⟩
  · intro i hi hen
    rcases nearest_basic s i with hno | ⟨L, hL1, hL2, hL3⟩
    · have := hinv.orphan i hi hno
      rw [hen] at this; exact absurd this (by decide)
    · exact ⟨L, hL1, hL2, hL3, (hinv.enabled_iff L i hL1 hi hL2 hL3).mp hen⟩
  · intro i L L' hi hL hL' h1 h2 h3 h4
    rcases Nat.lt_trichotomy L L' with hlt | heq | hgt
    · have := hinv.range_le L L' hlt (by omega) hL hL'
      omega
    · exact heq
    · have := hinv.range_le L' L hgt (by omega) hL' hL
      omega

/-- Witness of C5: the state after the insertion of basic channel 3 in Omni-Off/Poly on
the default partition of eight channels. -/
theorem partition_invariant_witness :
    Reachable synth_insert_3 ∧
    (synth_insert_3.channel.map fun c => (is_basic c, is_enabled c, c.mode_val)) =
      [(true, true, 3), (false, true, 0), (false, true, 0), (true, true, 1),
       (false, false, 0), (false, false, 0), (false, false, 0), (false, false, 0)] ∧
    ∀ i, i < synth_insert_3.midi_channels → is_enabled (synth_insert_3.chan i) = true →
      ∃ L, L ≤ i ∧ is_basic (synth_insert_3.chan L) = true ∧
        (∀ j, L < j → j ≤ i → is_basic (synth_insert_3.chan j) = false) ∧
        i < L + (synth_insert_3.chan L).mode_val :=
  ⟨Reachable.set_basic_channel _ _ (Reachable.default _), by decide,
    (partition_invariant synth_insert_3
      (Reachable.set_basic_channel _ _ (Reachable.default (default_synth 8)))).1⟩

/-! ## The validation test of an entry -/

theorem entry_invalid_iff (n_chan : Nat) (e : fluid_basic_channel_infos_t) :
    entry_invalid n_chan e = true ↔
      (e.basicchan < 0 ∨ (n_chan : Int) ≤ e.basicchan ∨ e.mode < 0 ∨ 3 < e.mode ∨
        e.val < 0 ∨ (n_chan : Int) < int_wrap (e.basicchan + e.val)) := by
  unfold entry_invalid
  simp only [Bool.or_eq_true, decide_eq_true_eq, ge_iff_le, gt_iff_lt]
  have e4 : ((FLUID_CHANNEL_MODE_LAST : Nat) : Int) = 4 := rfl
  rw [e4]
  constructor
  · intro h; omega
  · intro h; omega

theorem entry_valid_bounds (n_chan : Nat) (e : fluid_basic_channel_infos_t)
    (h : entry_invalid n_chan e = false) :
    0 ≤ e.basicchan ∧ e.basicchan < n_chan ∧ 0 ≤ e.mode ∧ e.mode < 4 ∧ 0 ≤ e.val ∧
      int_wrap (e.basicchan + e.val) ≤ n_chan := by
  have h1 : ¬ (entry_invalid n_chan e = true) := by rw [h]; decide
  rw [entry_invalid_iff] at h1
  omega

theorem entries_valid_of_any (n_chan : Nat) (l : List fluid_basic_channel_infos_t)
    (h : l.any (entry_invalid n_chan) = false) :
    ∀ e ∈ l, entry_invalid n_chan e = false := by
  intro e he
  by_contra hc
  have : l.any (entry_invalid n_chan) = true :=
    List.any_eq_true.mpr ⟨e, he, by simpa using hc⟩
  rw [h] at this
  exact absurd this (by decide)

/-- The sum `basicchan + val` of a valid entry that does not exceed `INT_MAX`, on the
naturals that `fluid_synth_set_basic_channel_LOCAL` receives. -/
theorem entry_no_wrap (n_chan : Nat) (e : fluid_basic_channel_infos_t)
    (h : entry_invalid n_chan e = false) (hno : e.basicchan + e.val ≤ INT_MAX) :
    no_wrap e := by
  have := entry_valid_bounds n_chan e h
  unfold no_wrap
  omega

/-! ## The width a mode determines -/

theorem reachableOK_reachable (s : fluid_synth_t) (h : ReachableOK s) : Reachable s := by
  induction h with
  | default s0 => exact Reachable.default s0
  | set_basic_channel s infos _ _ _ ih => exact Reachable.set_basic_channel s infos ih
  | reset_basic_channels s n infos _ _ _ _ ih =>
    exact Reachable.reset_basic_channels s n infos ih

/-- The end of a group only depends on the channel count and on the basic flags above the
basic channel. -/
theorem group_end_congr (s t : fluid_synth_t) (L : Nat) (hL : L < s.midi_channels)
    (hn : t.midi_channels = s.midi_channels)
    (hb : ∀ j, L < j → j ≤ group_end s L → is_basic (t.chan j) = is_basic (s.chan j)) :
    group_end t L = group_end s L := by
  obtain ⟨h1, h2, h3, h4⟩ := group_end_spec s L hL
  apply is_group_end_unique t L
  · exact group_end_spec t L (by rw [hn]; exact hL)
  · refine ⟨h1, by rw [hn]; exact h2, ?_, ?_⟩
    · intro j hj1 hj2
      rw [hb j hj1 (by omega)]; exact h3 j hj1 hj2
    · intro hg
      rw [hn] at hg
      rw [hb _ h1 (le_refl _)]; exact h4 hg

theorem group_end_le_of_basic (s : fluid_synth_t) (L p : Nat) (hL : L < s.midi_channels)
    (hp : L < p) (hpb : is_basic (s.chan p) = true) :
    group_end s L ≤ p := by
  obtain ⟨-, -, h3, -⟩ := group_end_spec s L hL
  by_contra hc
  have := h3 p hp (by omega)
  rw [hpb] at this; exact absurd this (by decide)

theorem lt_group_end_of_not_basic (s : fluid_synth_t) (L b : Nat) (hL : L < s.midi_channels)
    (hb : b < s.midi_channels)
    (hnb : ∀ j, L < j → j ≤ b → is_basic (s.chan j) = false) : b < group_end s L := by
  obtain ⟨h1, h2, -, h4⟩ := group_end_spec s L hL
  by_contra hc
  have hg := h4 (by omega)
  have := hnb (group_end s L) h1 (by omega)
  rw [hg] at this; exact absurd this (by decide)

/-- A successful `fluid_synth_set_basic_channel_LOCAL` in which the sum `b + val` does not
exceed `INT_MAX` establishes the width of its basic channel and keeps the widths that the
modes of the other basic channels determine. -/
theorem LOCAL_ok_width_by_mode (s : fluid_synth_t) (b mode val : Nat) (A : Nat → Prop)
    (hno : (b : Int) + (val : Int) ≤ INT_MAX)
    (hinv : partition_inv s)
    (hA : ∀ L, L < s.midi_channels → is_basic (s.chan L) = true → A L → width_by_mode s L)
    (h : (fluid_synth_set_basic_channel_LOCAL s b mode val).1 = FLUID_OK) :
    ∀ L, L < s.midi_channels →
      is_basic ((fluid_synth_set_basic_channel_LOCAL s b mode val).2.chan L) = true →
      (A L ∨ L = b) →
      width_by_mode (fluid_synth_set_basic_channel_LOCAL s b mode val).2 L := by
  obtain ⟨hb, hl, hlen, -, -⟩ := LOCAL_ok_spec_exact s b mode val hno h
  have hv := LOCAL_ok_view_exact s b mode val hno h
  obtain ⟨hg1, hg2, hg3, hg4⟩ := group_end_spec s b hb
  have hgt : b < enabled_end b (mode &&& 3) val (group_end s b) :=
    enabled_end_gt b _ val _ hg1
  set s' := (fluid_synth_set_basic_channel_LOCAL s b mode val).2 with hs'
  set g := group_end s b with hgdef
  set lbr := enabled_end b (mode &&& 3) val g with hlbr
  have bin : ∀ j, b ≤ j → j < g → (is_basic (s'.chan j) = true ↔ j = b) := by
    intro j h1 h2
    rw [(hv j).1]; simp [h1, h2]
  have bout : ∀ j, ¬ (b ≤ j ∧ j < g) → is_basic (s'.chan j) = is_basic (s.chan j) := by
    intro j h1
    rw [(hv j).1]; simp only [h1, if_false]
  have mout : ∀ j, ¬ (b ≤ j ∧ j < g) → mode_bits (s'.chan j) = mode_bits (s.chan j) := by
    intro j h1
    rw [(hv j).2.2.1]; simp only [h1, if_false]
  have vout : ∀ j, ¬ (b ≤ j ∧ j < g) → (s'.chan j).mode_val =
      if prev_basic_chan_of s b = (j : Int) then b - j else (s.chan j).mode_val := by
    intro j h1
    rw [(hv j).2.2.2]; simp only [h1, if_false]
  -- above `b` the basic flags are those of the old state
  have babove : ∀ j, b < j → is_basic (s'.chan j) = is_basic (s.chan j) := by
    intro j hj
    by_cases hin : j < g
    · have h1 : is_basic (s'.chan j) = false := by
        have := bin j (by omega) hin
        cases hx : is_basic (s'.chan j)
        · rfl
        · exact absurd (this.mp hx) (by omega)
      rw [h1, hg3 j hj hin]
    · exact bout j (by omega)
  intro L hLn hLB hAL
  by_cases hLb : L = b
  · subst hLb
    have hge : group_end s' L = g := group_end_congr s s' L hb hlen (fun j h1 _ => babove j h1)
    have hmb : mode_bits (s'.chan L) = mode &&& 3 := by
      rw [(hv L).2.2.1]; simp [hg1, hgt]
    have hmv : (s'.chan L).mode_val = lbr - L := by
      rw [(hv L).2.2.2]; simp [hg1]
    refine ⟨by rw [hmv]; omega, ?_, ?_⟩
    · intro hm
      rw [hmb] at hm
      rw [hmv, hge]
      have : lbr = g := by
        rw [hlbr]; unfold enabled_end
        rcases hm with hm | hm <;> simp [hm]
      omega
    · intro hm
      rw [hmb] at hm
      rw [hmv]
      have : lbr = L + 1 := by
        rw [hlbr]; unfold enabled_end
        simp [hm]
      omega
  · have hLold : is_basic (s.chan L) = true ∧ ¬ (b ≤ L ∧ L < g) := by
      by_cases hin : b ≤ L ∧ L < g
      · exact absurd ((bin L hin.1 hin.2).mp hLB) hLb
      · rw [bout L hin] at hLB; exact ⟨hLB, hin⟩
    obtain ⟨hLold, hLout⟩ := hLold
    have hAL' : A L := by
      rcases hAL with h1 | h1
      · exact h1
      · exact absurd h1 hLb
    obtain ⟨w1, w2, w3⟩ := hA L hLn hLold hAL'
    rcases Nat.lt_or_ge L b with hlt | hge
    · -- `L` is below `b`
      by_cases hbB : is_basic (s.chan b) = true
      · -- `b` was already basic: nothing changes for `L`
        have hprev := prev_basic_chan_of_none s b (Or.inl hbB)
        have hmv : (s'.chan L).mode_val = (s.chan L).mode_val := by
          rw [vout L hLout]
          have : ¬ (prev_basic_chan_of s b = (L : Int)) := by omega
          simp only [this, if_false]
        have hge' : group_end s' L = group_end s L := by
          apply group_end_congr s s' L hLn hlen
          intro j h1 _
          by_cases hjb : j = b
          · subst hjb; rw [hbB]; exact (bin j (le_refl _) hg1).mpr rfl
          · rcases Nat.lt_or_ge j b with h2 | h2
            · exact bout j (by omega)
            · exact babove j (by omega)
        unfold width_by_mode
        rw [hmv, mout L hLout, hge']
        exact ⟨w1, w2, w3⟩
      · have hbB' : is_basic (s.chan b) = false := by simpa using hbB
        rcases search_prev_spec s b with ⟨-, hno⟩ | ⟨p, -, hpb, hpB, hnear⟩
        · have := hno L hlt
          rw [hLold] at this; exact absurd this (by decide)
        · have hLp : L ≤ p := by
            by_contra hc
            have := hnear L (by omega) hlt
            rw [hLold] at this; exact absurd this (by decide)
          rcases Nat.lt_or_ge L p with hLp' | hLp'
          · -- another basic channel lies between `L` and `b`
            have hgle := group_end_le_of_basic s L p hLn hLp' hpB
            have hge' : group_end s' L = group_end s L := by
              apply group_end_congr s s' L hLn hlen
              intro j h1 h2
              exact bout j (by omega)
            have hmv : (s'.chan L).mode_val = (s.chan L).mode_val := by
              rw [vout L hLout]
              have : ¬ (prev_basic_chan_of s b = (L : Int)) := by
                rcases prev_basic_chan_of_spec s b with hp | ⟨q, hq, hqb, -, -, hqB, hqnear⟩
                · omega
                · intro hc
                  have : q = L := by omega
                  subst this
                  have := hqnear p hLp' hpb
                  rw [hpB] at this; exact absurd this (by decide)
              simp only [this, if_false]
            unfold width_by_mode
            rw [hmv, mout L hLout, hge']
            exact ⟨w1, w2, w3⟩
          · -- `L` is the nearest basic channel below `b`: its group now ends at `b`
            have hLp'' : L = p := by omega
            subst hLp''
            have hnear' : ∀ j, L < j → j ≤ b → is_basic (s.chan j) = false := by
              intro j h1 h2
              by_cases hjb : j = b
              · subst hjb; exact hbB'
              · exact hnear j h1 (by omega)
            have hgold : b < group_end s L := lt_group_end_of_not_basic s L b hLn hb hnear'
            have hge' : group_end s' L = b := by
              apply is_group_end_unique s' L
              · exact group_end_spec s' L (by rw [hlen]; exact hLn)
              · refine ⟨hlt, by rw [hlen]; omega, ?_, ?_⟩
                · intro j h1 h2
                  rw [bout j (by omega)]; exact hnear j h1 h2
                · intro _; exact (bin b (le_refl _) hg1).mpr rfl
            rcases prev_basic_chan_of_inv s b hb hinv with ⟨hp, hcase⟩ |
                ⟨q, hq, hqb, -, hen, hqB, hqnear, hcov⟩
            · have hbE : is_enabled (s.chan b) = false := by
                rcases hcase with h1 | h1
                · rw [hbB'] at h1; exact absurd h1 (by decide)
                · exact h1
              have hmv : (s'.chan L).mode_val = (s.chan L).mode_val := by
                rw [vout L hLout]
                have : ¬ (prev_basic_chan_of s b = (L : Int)) := by omega
                simp only [this, if_false]
              have hncov : ¬ (b < L + (s.chan L).mode_val) := by
                intro hc
                have := (hinv.enabled_iff L b (by omega) hb hLold hnear').mpr hc
                rw [hbE] at this; exact absurd this (by decide)
              unfold width_by_mode
              rw [hmv, mout L hLout, hge']
              refine ⟨w1, ?_, w3⟩
              intro hm
              have := w2 hm
              omega
            · have hqL : q = L := by
                rcases Nat.lt_trichotomy q L with h1 | h1 | h1
                · have := hqnear L h1 hlt
                  rw [hLold] at this; exact absurd this (by decide)
                · exact h1
                · have := hnear q h1 hqb
                  rw [hqB] at this; exact absurd this (by decide)
              subst hqL
              have hmv : (s'.chan q).mode_val = b - q := by
                rw [vout q hLout]
                simp only [hq, if_true]
              unfold width_by_mode
              rw [hmv, mout q hLout, hge']
              refine ⟨by omega, fun _ => by omega, ?_⟩
              intro hm
              have := w3 hm
              omega
    · -- `L` is at or after the end of the group of `b`
      have hmv : (s'.chan L).mode_val = (s.chan L).mode_val := by
        rw [vout L hLout]
        have : ¬ (prev_basic_chan_of s b = (L : Int)) := by
          rcases prev_basic_chan_of_spec s b with hp | ⟨q, hq, hqb, -⟩
          · omega
          · omega
        simp only [this, if_false]
      have hge' : group_end s' L = group_end s L := by
        apply group_end_congr s s' L hLn hlen
        intro j h1 _
        exact babove j (by omega)
      unfold width_by_mode
      rw [hmv, mout L hLout, hge']
      exact ⟨w1, w2, w3⟩

/-! ## Results and flags along the loop that applies the entries -/

theorem midi_channels_LOCAL (s : fluid_synth_t) (b mode val : Nat) :
    (fluid_synth_set_basic_channel_LOCAL s b mode val).2.midi_channels = s.midi_channels := by
  rcases LOCAL_result s b mode val with hok | hf
  · exact (LOCAL_ok_spec s b mode val hok).2.2.1
  · rw [LOCAL_failed_state s _ _ _ hf]

theorem midi_channels_apply_loop (l : List fluid_basic_channel_infos_t) :
    ∀ (r : Int) (s : fluid_synth_t),
      (l.foldl apply_basic_channel (r, s)).2.midi_channels = s.midi_channels := by
  induction l with
  | nil => intro r s; rfl
  | cons e l ih =>
    intro r s
    rw [List.foldl_cons, apply_basic_channel, ih, midi_channels_LOCAL]

/-- Once `result` is not `FLUID_OK`, it keeps its value. -/
theorem apply_loop_result_stuck (l : List fluid_basic_channel_infos_t) :
    ∀ (r : Int) (s : fluid_synth_t), r ≠ FLUID_OK →
      (l.foldl apply_basic_channel (r, s)).1 = r := by
  induction l with
  | nil => intro r s _; rfl
  | cons e l ih =>
    intro r s hr
    rw [List.foldl_cons, apply_basic_channel]
    simp only [hr, if_false]
    exact ih r _ hr

theorem apply_loop_ok_start (l : List fluid_basic_channel_infos_t) (r : Int)
    (s : fluid_synth_t) (h : (l.foldl apply_basic_channel (r, s)).1 = FLUID_OK) :
    r = FLUID_OK := by
  by_contra hr
  rw [apply_loop_result_stuck l r s hr] at h
  exact hr h

theorem apply_loop_ok_head (e : fluid_basic_channel_infos_t)
    (l : List fluid_basic_channel_infos_t) (r : Int) (s : fluid_synth_t)
    (h : ((e :: l).foldl apply_basic_channel (r, s)).1 = FLUID_OK) :
    (fluid_synth_set_basic_channel_LOCAL s e.basicchan.toNat e.mode.toNat e.val.toNat).1
      = FLUID_OK := by
  rw [List.foldl_cons] at h
  have h1 := apply_loop_ok_start l _ _ h
  have h2 := apply_loop_ok_start (e :: l) r s (by rw [List.foldl_cons]; exact h)
  simpa [apply_basic_channel, h2] using h1

/-- A basic channel after the call is `b` or was basic before it. -/
theorem LOCAL_basic_cases (s : fluid_synth_t) (b mode val : Nat) (j : Nat)
    (h : is_basic ((fluid_synth_set_basic_channel_LOCAL s b mode val).2.chan j) = true) :
    is_basic (s.chan j) = true ∨ j = b := by
  rcases LOCAL_result s b mode val with hok | hf
  · have hv := (LOCAL_ok_view s b mode val hok j).1
    rw [hv] at h
    by_cases hin : b ≤ j ∧ j < group_end s b
    · simp only [hin, and_self, if_true, decide_eq_true_eq] at h
      exact Or.inr h.1
    · simp only [hin, if_false] at h
      exact Or.inl h
  · rw [LOCAL_failed_state s _ _ _ hf] at h
    exact Or.inl h

theorem apply_loop_basic_cases (l : List fluid_basic_channel_infos_t) :
    ∀ (r : Int) (s : fluid_synth_t) (j : Nat),
      is_basic ((l.foldl apply_basic_channel (r, s)).2.chan j) = true →
      is_basic (s.chan j) = true ∨ ∃ e ∈ l, e.basicchan.toNat = j := by
  induction l with
  | nil => intro r s j h; exact Or.inl h
  | cons e l ih =>
    intro r s j h
    rw [List.foldl_cons] at h
    rcases ih _ _ j h with h1 | ⟨e', he', hj⟩
    · rcases LOCAL_basic_cases s _ _ _ j h1 with h2 | h2
      · exact Or.inl h2
      · exact Or.inr ⟨e, List.mem_cons_self _ _, h2.symm⟩
    · exact Or.inr ⟨e', List.mem_cons_of_mem _ he', hj⟩

/-- When every entry is applied successfully and no sum `basicchan + val` exceeds
`INT_MAX`, the basic channels named by the entries end with the width their mode
determines. -/
theorem apply_loop_width_by_mode (l : List fluid_basic_channel_infos_t)
    (hno : ∀ e ∈ l, no_wrap e) :
    ∀ (r : Int) (s : fluid_synth_t) (A : Nat → Prop), partition_inv s →
      (∀ L, L < s.midi_channels → is_basic (s.chan L) = true → A L → width_by_mode s L) →
      (l.foldl apply_basic_channel (r, s)).1 = FLUID_OK →
      ∀ L, L < s.midi_channels →
        is_basic ((l.foldl apply_basic_channel (r, s)).2.chan L) = true →
        (A L ∨ ∃ e ∈ l, e.basicchan.toNat = L) →
        width_by_mode (l.foldl apply_basic_channel (r, s)).2 L := by
  induction l with
  | nil =>
    intro r s A _ hA _ L hL hLB hAL
    rcases hAL with h1 | ⟨e, he, -⟩
    · exact hA L hL hLB h1
    · exact absurd he (List.not_mem_nil _)
  | cons e l ih =>
    intro r s A hinv hA hok L hL hLB hAL
    have hhead := apply_loop_ok_head e l r s hok
    rw [List.foldl_cons] at hok hLB ⊢
    have hstep := LOCAL_ok_width_by_mode s e.basicchan.toNat e.mode.toNat e.val.toNat A
      (hno e (List.mem_cons_self _ _)) hinv hA hhead
    have hinv' := LOCAL_ok_partition_inv s _ _ _ hinv hhead
    have hlen := midi_channels_LOCAL s e.basicchan.toNat e.mode.toNat e.val.toNat
    refine ih (fun x hx => hno x (List.mem_cons_of_mem _ hx)) _ _
      (fun L => A L ∨ L = e.basicchan.toNat) hinv' ?_ hok L ?_ hLB ?_
    · intro L' hL' hB' hA'
      exact hstep L' (by rw [← hlen]; exact hL') hB' hA'
    · show L < (fluid_synth_set_basic_channel_LOCAL s _ _ _).2.midi_channels
      rw [hlen]; exact hL
    · rcases hAL with h1 | ⟨e', he', hj⟩
      · exact Or.inl (Or.inl h1)
      · rcases List.mem_cons.mp he' with h2 | h2
        · subst h2; exact Or.inl (Or.inr hj.symm)
        · exact Or.inr ⟨e', h2, hj⟩

/-- The conjunction of the partition invariant and of the widths the modes determine. -/
theorem reachableOK_width_by_mode (s : fluid_synth_t) (h : ReachableOK s) :
    ∀ L, L < s.midi_channels → is_basic (s.chan L) = true → width_by_mode s L := by
  induction h with
  | default s0 =>
    rcases reset_basic_channels_cases s0 0 none with e | ⟨a, ha, -⟩ | ⟨-, -, -, e⟩
    · rw [e]
      have hn : s0.midi_channels = 0 := by
        by_contra hc
        have h1 : (fluid_synth_reset_basic_channels s0 0 none).1 = FLUID_FAILED := by rw [e]
        have h2 : fluid_synth_reset_basic_channels s0 0 none =
            fluid_synth_set_basic_channel_LOCAL (clear_basic_channels s0) 0 0 0 := by
          simp [fluid_synth_reset_basic_channels]
        rw [h2, LOCAL_fails_iff] at h1
        rcases h1 with h1 | h1
        · rw [midi_channels_clear] at h1; omega
        · rw [begin_range_eq 0 (0 &&& 3) 0 _ (by decide) (by decide)] at h1
          simp [enabled_end] at h1
      intro L hL
      have hL' : L < s0.midi_channels := hL
      omega
    · exact absurd ha (by simp)
    · rw [e]
      intro L hL hLB
      rw [midi_channels_LOCAL, midi_channels_clear] at hL
      rcases LOCAL_result (clear_basic_channels s0) 0 FLUID_CHANNEL_MODE_OMNION_POLY 0 with
        hok | hf
      · refine LOCAL_ok_width_by_mode (clear_basic_channels s0) 0 _ 0 (fun _ => False)
          (by decide)
          (all_disabled_partition_inv _ (all_disabled_clear s0)) (fun _ _ _ hF => absurd hF id)
          hok L (by rw [midi_channels_clear]; exact hL) hLB ?_
        rcases LOCAL_basic_cases _ _ _ _ L hLB with h1 | h1
        · rw [(clear_flags s0 L).1] at h1; exact absurd h1 (by decide)
        · exact Or.inr h1
      · rw [LOCAL_failed_state _ _ _ _ hf] at hLB
        rw [(clear_flags s0 L).1] at hLB; exact absurd hLB (by decide)
  | set_basic_channel s infos hs hnov hok ih =>
    cases infos with
    | none => simp [fluid_synth_set_basic_channel] at hok
    | some e =>
      obtain ⟨b, mode, val⟩ := e
      have hbv : b + val ≤ INT_MAX := hnov ⟨b, mode, val⟩ rfl
      rcases set_basic_channel_cases s b mode val with ⟨e, -⟩ | ⟨e, a1, a2, a3, a4, a5, a6⟩
      · rw [e] at hok; simp at hok
      · rw [e] at hok ⊢
        intro L hL hLB
        rw [midi_channels_LOCAL] at hL
        exact LOCAL_ok_width_by_mode s _ _ _ (fun _ => True) (by omega)
          (reachable_partition_inv s (reachableOK_reachable s hs))
          (fun L' h1 h2 _ => ih L' h1 h2) hok L hL hLB (Or.inl trivial)
  | reset_basic_channels s n infos hs _ hnov hok ih =>
    rcases reset_basic_channels_cases s n infos with e | ⟨a, ha, -, -, hany, e⟩ | ⟨-, -, -, e⟩
    · rw [e] at hok; simp at hok
    · rw [e] at hok ⊢
      intro L hL hLB
      rw [midi_channels_apply_loop, midi_channels_prepared] at hL
      have hvalid := entries_valid_of_any _ _ hany
      refine apply_loop_width_by_mode _
        (fun x hx => entry_no_wrap _ x (hvalid x hx) (hnov a ha x hx)) _ _ (fun _ => False)
        (all_disabled_partition_inv _ (all_disabled_prepared s _))
        (fun _ _ _ hF => absurd hF id) hok L (by rw [midi_channels_prepared]; exact hL) hLB ?_
      rcases apply_loop_basic_cases _ _ _ L hLB with h1 | h1
      · exact Or.inr ((is_basic_prepared s _ L).mp h1).1
      · exact Or.inr h1
    · rw [e] at hok ⊢
      intro L hL hLB
      rw [midi_channels_LOCAL, midi_channels_clear] at hL
      refine LOCAL_ok_width_by_mode (clear_basic_channels s) 0 _ 0 (fun _ => False)
        (by decide)
        (all_disabled_partition_inv _ (all_disabled_clear s)) (fun _ _ _ hF => absurd hF id)
        hok L (by rw [midi_channels_clear]; exact hL) hLB ?_
      rcases LOCAL_basic_cases _ _ _ _ L hLB with h1 | h1
      · rw [(clear_flags s L).1] at h1; exact absurd h1 (by decide)
      · exact Or.inr h1

theorem mode_bits_lt (c : fluid_channel_t) : mode_bits c < 4 := and_three_lt c.mode

/-- In the default state and after every successful mutation in which no sum
`basicchan + val` exceeds `INT_MAX`, the enabled channels of the group
`[L, next basic channel or N)` of a basic channel `L` are exactly its first `mode_val L`
channels, and `mode_val L` is the whole group length in Omni-On/Poly and Omni-On/Mono,
exactly 1 in Omni-Off/Poly, and between 1 and the group length in Omni-Off/Mono. -/
theorem mode_determines_width_exact (s : fluid_synth_t) (h : ReachableOK s) :
    ∀ L, L < s.midi_channels → is_basic (s.chan L) = true →
      (∀ i, L ≤ i → i < group_end s L →
        (is_enabled (s.chan i) = true ↔ i < L + (s.chan L).mode_val)) ∧
      (mode_bits (s.chan L) = FLUID_CHANNEL_MODE_OMNION_POLY ∨
        mode_bits (s.chan L) = FLUID_CHANNEL_MODE_OMNION_MONO →
          (s.chan L).mode_val = group_end s L - L) ∧
      (mode_bits (s.chan L) = FLUID_CHANNEL_MODE_OMNIOFF_POLY → (s.chan L).mode_val = 1) ∧
      (mode_bits (s.chan L) = FLUID_CHANNEL_MODE_OMNIOFF_MONO →
        1 ≤ (s.chan L).mode_val ∧ (s.chan L).mode_val ≤ group_end s L - L) := by
  intro L hL hLB
  have hinv := reachable_partition_inv s (reachableOK_reachable s h)
  obtain ⟨w1, w2, w3⟩ := reachableOK_width_by_mode s h L hL hLB
  obtain ⟨g1, g2, g3, g4⟩ := group_end_spec s L hL
  have hle : L + (s.chan L).mode_val ≤ group_end s L := by
    rcases Nat.lt_or_ge (group_end s L) s.midi_channels with hlt | hge
    · exact hinv.range_le L _ g1 hlt hLB (g4 hlt)
    · have := hinv.range_le_end L hL hLB
      omega
  refine ⟨?_, ?_, w3, ?_⟩
  · intro i hi1 hi2
    exact hinv.enabled_iff L i hi1 (by omega) hLB (fun j h1 h2 => g3 j h1 (by omega))
  · intro hm
    have := w2 hm
    omega
  · intro _
    exact ⟨w1, by omega⟩

/-- C6 fails on the code: from the default partition of eight channels the request
`(1, Omni-Off/Mono, INT_MAX)` returns `FLUID_OK` (its `int` sums wrap around), so the
state is reached by successful calls only; there the basic channel 0 is in Omni-On/Poly
and its group is `[0, 8)`, but its `mode_val` is 1 and channel 1 of its group is
disabled. -/
theorem mode_determines_width_overflow :
    (fluid_synth_reset_basic_channels (default_synth 8) 0 none).1 = FLUID_OK ∧
    (fluid_synth_set_basic_channel (fluid_synth_reset_basic_channels (default_synth 8) 0 none).2
      (some ⟨1, 3, 2147483647⟩)).1 = FLUID_OK ∧
    is_basic (synth_wrapped_1.chan 0) = true ∧
    mode_bits (synth_wrapped_1.chan 0) = FLUID_CHANNEL_MODE_OMNION_POLY ∧
    group_end synth_wrapped_1 0 = 8 ∧
    (synth_wrapped_1.chan 0).mode_val = 1 ∧
    is_enabled (synth_wrapped_1.chan 1) = false := by
  decide

theorem reachableOK_synth_insert_3 : ReachableOK synth_insert_3 :=
  ReachableOK.set_basic_channel _ _ (ReachableOK.default _)
    (by intro e he; cases he; decide) (by decide)

/-! ## The width of the channels that are not basic -/

/-- When the sum `b + val` does not exceed `INT_MAX`, `b` lies in its own enabled range. -/
theorem begin_range_gt_of_fits (s : fluid_synth_t) (b mode val : Nat)
    (hb : b < s.midi_channels) (hno : (b : Int) + (val : Int) ≤ INT_MAX) :
    b < begin_range b (mode &&& 3) val (group_end s b) := by
  rw [begin_range_eq _ _ _ _ (and_three_lt mode) hno]
  exact enabled_end_gt b _ val _ (group_end_spec s b hb).1

theorem LOCAL_nonbasic_val (s : fluid_synth_t) (b mode val : Nat)
    (hno : (b : Int) + (val : Int) ≤ INT_MAX) (hnb0 : nonbasic_val_zero s) :
    nonbasic_val_zero (fluid_synth_set_basic_channel_LOCAL s b mode val).2 := by
  rcases LOCAL_result s b mode val with hok | hf
  · obtain ⟨hb, -⟩ := LOCAL_ok_spec s b mode val hok
    exact LOCAL_ok_nonbasic_val s b mode val hnb0 (begin_range_gt_of_fits s b mode val hb hno) hok
  · rw [LOCAL_failed_state s _ _ _ hf]; exact hnb0

theorem apply_loop_nonbasic_val (l : List fluid_basic_channel_infos_t)
    (hno : ∀ e ∈ l, no_wrap e) :
    ∀ (r : Int) (s : fluid_synth_t), nonbasic_val_zero s →
      nonbasic_val_zero (l.foldl apply_basic_channel (r, s)).2 := by
  induction l with
  | nil => intro r s h; exact h
  | cons e l ih =>
    intro r s h
    rw [List.foldl_cons]
    exact ih (fun x hx => hno x (List.mem_cons_of_mem _ hx)) _ _
      (LOCAL_nonbasic_val s _ _ _ (hno e (List.mem_cons_self _ _)) h)

theorem all_disabled_nonbasic_val (s : fluid_synth_t) (h : all_disabled s) :
    nonbasic_val_zero s := fun i _ _ => (h i).2

/-- In a state reached by successful calls in which no sum `basicchan + val` exceeds
`INT_MAX`, `mode_val` is 0 on the channels that are not basic. -/
theorem reachableOK_nonbasic_val (s : fluid_synth_t) (h : ReachableOK s) :
    nonbasic_val_zero s := by
  induction h with
  | default s0 =>
    have h2 : fluid_synth_reset_basic_channels s0 0 none =
        fluid_synth_set_basic_channel_LOCAL (clear_basic_channels s0) 0 0 0 := by
      simp [fluid_synth_reset_basic_channels]
    rw [h2]
    exact LOCAL_nonbasic_val _ 0 0 0 (by decide)
      (all_disabled_nonbasic_val _ (all_disabled_clear s0))
  | set_basic_channel s infos _ hnov hok ih =>
    cases infos with
    | none => exact ih
    | some e =>
      obtain ⟨b, mode, val⟩ := e
      have hbv : b + val ≤ INT_MAX := hnov ⟨b, mode, val⟩ rfl
      rcases set_basic_channel_cases s b mode val with ⟨e, -⟩ | ⟨e, a1, a2, a3, a4, a5, a6⟩
      · rw [e]; exact ih
      · rw [e]
        exact LOCAL_nonbasic_val s _ _ _ (by omega) ih
  | reset_basic_channels s n infos _ _ hnov hok ih =>
    rcases reset_basic_channels_cases s n infos with e | ⟨a, ha, -, -, hany, e⟩ | ⟨-, -, -, e⟩
    · rw [e]; exact ih
    · rw [e]
      have hvalid := entries_valid_of_any _ _ hany
      exact apply_loop_nonbasic_val _
        (fun x hx => entry_no_wrap _ x (hvalid x hx) (hnov a ha x hx)) _ _
        (all_disabled_nonbasic_val _ (all_disabled_prepared s _))
    · rw [e]
      exact LOCAL_nonbasic_val _ 0 _ 0 (by decide)
        (all_disabled_nonbasic_val _ (all_disabled_clear s))

/-! ## Validation of `fluid_synth_reset_basic_channels` -/

/-- The validation of `fluid_synth_reset_basic_channels` precedes every mutation: when the
entry count exceeds the channel count, or some entry among the `n` entries has its basic
channel outside the channel range, its mode outside 0..3, a negative `val`, or a sum
`basicchan + val` past the channel count that does not exceed `INT_MAX`, the call returns
`FLUID_FAILED` and the synth is unchanged. -/
theorem reset_basic_channels_validates_exact (s : fluid_synth_t) (n : Int)
    (infos : Option (List fluid_basic_channel_infos_t))
    (h : (s.midi_channels : Int) < n ∨
      ∃ a e, infos = some a ∧ e ∈ a.take n.toNat ∧
        (e.basicchan < 0 ∨ (s.midi_channels : Int) ≤ e.basicchan ∨ e.mode < 0 ∨ 3 < e.mode ∨
          e.val < 0 ∨
          ((s.midi_channels : Int) < e.basicchan + e.val ∧ e.basicchan + e.val ≤ INT_MAX))) :
    (fluid_synth_reset_basic_channels s n infos).1 = FLUID_FAILED ∧
    (fluid_synth_reset_basic_channels s n infos).2 = s := by
  rcases reset_basic_channels_cases s n infos with e | ⟨a, ha, h0, hn, hv, -⟩ |
      ⟨hz, h0, hn, -⟩
  · rw [e]; exact ⟨rfl, rfl⟩
  · exfalso
    rcases h with h | ⟨a', e, ha', he, hbad⟩
    · omega
    · rw [ha] at ha'
      cases ha'
      have := (List.any_eq_false.mp hv) e he
      apply this
      rw [entry_invalid_iff]
      by_cases hc : 0 ≤ e.basicchan ∧ 0 ≤ e.val
      · rcases hbad with h1 | h1 | h1 | h1 | h1 | ⟨h1, h2⟩
        · exact Or.inl h1
        · exact Or.inr (Or.inl h1)
        · exact Or.inr (Or.inr (Or.inl h1))
        · exact Or.inr (Or.inr (Or.inr (Or.inl h1)))
        · exact Or.inr (Or.inr (Or.inr (Or.inr (Or.inl h1))))
        · have h3 : e.basicchan + e.val ≤ 2147483647 := h2
          rw [int_wrap_eq _ (by omega) h3]
          exact Or.inr (Or.inr (Or.inr (Or.inr (Or.inr h1))))
      · omega
  · exfalso
    rcases h with h | ⟨a', e, ha', he, -⟩
    · omega
    · rcases hz with hz | hz
      · subst hz; simp at he
      · rw [hz] at ha'; cases ha'

/-- C8 fails on the code: on the default partition of eight channels the entry
`(1, Omni-On/Poly, INT_MAX)` has `basicchan + val > N`, but the `int` sum of the validation
loop wraps around to a negative value, the entry passes, and the call clears the channels,
applies the entry and returns `FLUID_OK`: channel 0 is no longer basic nor enabled. -/
theorem reset_basic_channels_accepts_overflow :
    ((default_synth 8).midi_channels : Int) < 1 + 2147483647 ∧
    entry_invalid (default_synth 8).midi_channels ⟨1, 0, 2147483647⟩ = false ∧
    (fluid_synth_reset_basic_channels (default_synth 8) 1 (some [⟨1, 0, 2147483647⟩])).1
      = FLUID_OK ∧
    ((default_synth 8).channel.map fun c => (is_basic c, is_enabled c, c.mode_val)) =
      [(true, true, 8), (false, true, 0), (false, true, 0), (false, true, 0), (false, true, 0),
       (false, true, 0), (false, true, 0), (false, true, 0)] ∧
    ((fluid_synth_reset_basic_channels (default_synth 8) 1
        (some [⟨1, 0, 2147483647⟩])).2.channel.map
        fun c => (is_basic c, is_enabled c, c.mode_val)) =
      [(false, false, 0), (true, true, 7), (false, true, 0), (false, true, 0), (false, true, 0),
       (false, true, 0), (false, true, 0), (false, true, 0)] := by
  decide

/-! ## Best-effort application -/

theorem apply_loop_state (l : List fluid_basic_channel_infos_t) :
    ∀ (r : Int) (s : fluid_synth_t),
      (l.foldl apply_basic_channel (r, s)).2 = l.foldl apply_entry s := by
  induction l with
  | nil => intro r s; rfl
  | cons e l ih =>
    intro r s
    rw [List.foldl_cons, List.foldl_cons, apply_basic_channel, ih]
    rfl

theorem apply_trace_fst (l : List fluid_basic_channel_infos_t) :
    ∀ s : fluid_synth_t, (apply_trace s l).map Prod.fst = l := by
  induction l with
  | nil => intro s; rfl
  | cons e l ih => intro s; simp [apply_trace, ih]

theorem apply_loop_result_cases (l : List fluid_basic_channel_infos_t) :
    ∀ (s : fluid_synth_t),
      (l.foldl apply_basic_channel (FLUID_OK, s)).1 = FLUID_OK ∨
      (l.foldl apply_basic_channel (FLUID_OK, s)).1 = FLUID_FAILED := by
  induction l with
  | nil => intro s; exact Or.inl rfl
  | cons e l ih =>
    intro s
    rw [List.foldl_cons]
    rcases LOCAL_result s e.basicchan.toNat e.mode.toNat e.val.toNat with h | h
    · have : apply_basic_channel (FLUID_OK, s) e = (FLUID_OK, apply_entry s e) := by
        simp [apply_basic_channel, h, apply_entry]
      rw [this]; exact ih _
    · have : apply_basic_channel (FLUID_OK, s) e = (FLUID_FAILED, apply_entry s e) := by
        simp [apply_basic_channel, h, apply_entry]
      rw [this]
      right
      exact apply_loop_result_stuck l _ _ (by decide)

/-- The result of the loop is `FLUID_FAILED` exactly when the application of some entry
failed. -/
theorem apply_loop_failed_iff (l : List fluid_basic_channel_infos_t) :
    ∀ (s : fluid_synth_t),
      (l.foldl apply_basic_channel (FLUID_OK, s)).1 = FLUID_FAILED ↔
        ∃ p ∈ apply_trace s l, p.2 = FLUID_FAILED := by
  induction l with
  | nil => intro s; simp [apply_trace]
  | cons e l ih =>
    intro s
    rw [List.foldl_cons]
    rcases LOCAL_result s e.basicchan.toNat e.mode.toNat e.val.toNat with h | h
    · have : apply_basic_channel (FLUID_OK, s) e = (FLUID_OK, apply_entry s e) := by
        simp [apply_basic_channel, h, apply_entry]
      rw [this, ih]
      simp only [apply_trace, List.mem_cons, exists_eq_or_imp, h]
      constructor
      · intro hx; exact Or.inr hx
      · rintro (hx | hx)
        · exact absurd hx (by decide)
        · exact hx
    · have : apply_basic_channel (FLUID_OK, s) e = (FLUID_FAILED, apply_entry s e) := by
        simp [apply_basic_channel, h, apply_entry]
      rw [this, apply_loop_result_stuck l _ _ (by decide)]
      simp only [apply_trace, List.mem_cons, exists_eq_or_imp, h, true_or]

/-- The entries whose application failed can be left out. -/
theorem apply_loop_succeeded_only (l : List fluid_basic_channel_infos_t) :
    ∀ (s : fluid_synth_t),
      l.foldl apply_entry s =
        (((apply_trace s l).filter fun p => decide (p.2 = FLUID_OK)).map Prod.fst).foldl
          apply_entry s := by
  induction l with
  | nil => intro s; rfl
  | cons e l ih =>
    intro s
    rw [List.foldl_cons]
    rcases LOCAL_result s e.basicchan.toNat e.mode.toNat e.val.toNat with h | h
    · simp only [apply_trace, List.filter_cons, h, decide_True, if_true, List.map_cons,
        List.foldl_cons]
      exact ih _
    · have hs : apply_entry s e = s := LOCAL_failed_state s _ _ _ h
      have hd : decide ((FLUID_FAILED : Int) = FLUID_OK) = false := by decide
      simp only [apply_trace, List.filter_cons, h, hd, Bool.false_eq_true, if_false]
      rw [hs]
      exact ih s

theorem reset_basic_channels_checked (s : fluid_synth_t) (n : Int)
    (a : List fluid_basic_channel_infos_t) (hn0 : 0 < n) (hn : n ≤ s.midi_channels)
    (hvalid : ∀ e ∈ a.take n.toNat, entry_invalid s.midi_channels e = false) :
    fluid_synth_reset_basic_channels s n (some a) =
      (a.take n.toNat).foldl apply_basic_channel (FLUID_OK, prepared s (a.take n.toNat)) := by
  unfold fluid_synth_reset_basic_channels
  have h1 : ¬ (n > (s.midi_channels : Int)) := by omega
  have h2 : n ≠ 0 := by omega
  have h3 : ¬ ((a.take n.toNat).any (entry_invalid s.midi_channels) = true) := by
    rw [Bool.not_eq_true]
    exact List.any_eq_false.mpr (fun x hx => by simp [hvalid x hx])
  simp only [ge_iff_le, le_of_lt hn0, not_true, if_false, h1, ne_eq, h2, not_false_eq_true,
    if_true, h3]
  rfl

theorem prepared_flags (s : fluid_synth_t) (l : List fluid_basic_channel_infos_t) (j : Nat) :
    (is_basic ((prepared s l).chan j) = true ↔
      (∃ e ∈ l, e.basicchan.toNat = j) ∧ j < s.midi_channels) ∧
    is_enabled ((prepared s l).chan j) = false ∧
    mode_bits ((prepared s l).chan j) = 0 ∧
    ((prepared s l).chan j).mode_val = 0 := by
  obtain ⟨-, h2, h3, h4⟩ := marks_flags l (clear_basic_channels s) j
  obtain ⟨-, c2, c3, c4⟩ := clear_flags s j
  exact ⟨is_basic_prepared s l j, by rw [prepared, h2, c2], by rw [prepared, h3, c3],
    by rw [prepared, h4, c4]⟩

/-- C9: for a non-empty entry list that passes validation,
`fluid_synth_reset_basic_channels` starts from the cleared state in which the named basic
channels are marked, applies every entry in input order to the state its predecessor left
(also after a failure), returns `FLUID_FAILED` exactly when the application of at least one
entry failed and `FLUID_OK` otherwise, and ends in the state obtained from the start state
by applying, in input order, only the entries whose application succeeded. -/
theorem reset_basic_channels_best_effort (s : fluid_synth_t) (n : Int)
    (a : List fluid_basic_channel_infos_t) (hn0 : 0 < n) (hn : n ≤ s.midi_channels)
    (hvalid : ∀ e ∈ a.take n.toNat, entry_invalid s.midi_channels e = false) :
    let entries := a.take n.toNat
    let start := prepared s entries
    let trace := apply_trace start entries
    (∀ j, (is_basic (start.chan j) = true ↔
        (∃ e ∈ entries, e.basicchan.toNat = j) ∧ j < s.midi_channels) ∧
      is_enabled (start.chan j) = false ∧ mode_bits (start.chan j) = 0 ∧
      (start.chan j).mode_val = 0) ∧
    trace.map Prod.fst = entries ∧
    (fluid_synth_reset_basic_channels s n (some a)).2 = entries.foldl apply_entry start ∧
    ((fluid_synth_reset_basic_channels s n (some a)).1 = FLUID_FAILED ↔
      ∃ p ∈ trace, p.2 = FLUID_FAILED) ∧
    ((fluid_synth_reset_basic_channels s n (some a)).1 = FLUID_OK ∨
      (fluid_synth_reset_basic_channels s n (some a)).1 = FLUID_FAILED) ∧
    (fluid_synth_reset_basic_channels s n (some a)).2 =
      ((trace.filter fun p => decide (p.2 = FLUID_OK)).map Prod.fst).foldl apply_entry start := by
  intro entries start trace
  have e := reset_basic_channels_checked s n a hn0 hn hvalid
  rw [e]
  refine ⟨fun j => prepared_flags s entries j, apply_trace_fst entries start,
    apply_loop_state entries _ start, apply_loop_failed_iff entries start,
    apply_loop_result_cases entries start, ?_⟩
  rw [apply_loop_state entries _ start]
  exact apply_loop_succeeded_only entries start

/-- Witness of C9: on eight channels, the entry `(0, Omni-Off/Mono, 6)` reaches past the
basic channel 4 named by the second entry and fails, the second entry is applied all the
same, and the call returns `FLUID_FAILED`. -/
theorem reset_basic_channels_best_effort_witness :
    (fluid_synth_reset_basic_channels (default_synth 8) 2 (some [⟨0, 3, 6⟩, ⟨4, 0, 0⟩])).1
      = FLUID_FAILED ∧
    apply_trace (prepared (default_synth 8) [⟨0, 3, 6⟩, ⟨4, 0, 0⟩]) [⟨0, 3, 6⟩, ⟨4, 0, 0⟩]
      = [(⟨0, 3, 6⟩, FLUID_FAILED), (⟨4, 0, 0⟩, FLUID_OK)] ∧
    (fluid_synth_reset_basic_channels (default_synth 8) 2 (some [⟨0, 3, 6⟩, ⟨4, 0, 0⟩])).2 =
      (((apply_trace (prepared (default_synth 8) (List.take (2 : Int).toNat
            [⟨0, 3, 6⟩, ⟨4, 0, 0⟩])) (List.take (2 : Int).toNat [⟨0, 3, 6⟩, ⟨4, 0, 0⟩])).filter
          fun p => decide (p.2 = FLUID_OK)).map Prod.fst).foldl apply_entry
        (prepared (default_synth 8) (List.take (2 : Int).toNat [⟨0, 3, 6⟩, ⟨4, 0, 0⟩])) :=
  ⟨by decide, by decide,
    (reset_basic_channels_best_effort (default_synth 8) 2 [⟨0, 3, 6⟩, ⟨4, 0, 0⟩] (by decide)
      (by decide) (by decide)).2.2.2.2.2⟩

/-! ## The apply loop on a fixed set of basic channels -/

theorem same_basic_refl (s : fluid_synth_t) : same_basic s s := ⟨rfl, fun _ => rfl⟩

theorem same_basic_trans (a b c : fluid_synth_t) (h1 : same_basic a b) (h2 : same_basic b c) :
    same_basic a c :=
  ⟨h2.1.trans h1.1, fun j => (h2.2 j).trans (h1.2 j)⟩

theorem same_basic_symm (a b : fluid_synth_t) (h : same_basic a b) : same_basic b a :=
  ⟨h.1.symm, fun j => (h.2 j).symm⟩

theorem group_end_same_basic (ref s : fluid_synth_t) (h : same_basic ref s) (b : Nat) :
    group_end s b = group_end ref b := by
  unfold group_end
  have hf : (fun j => is_basic (s.chan j)) = (fun j => is_basic (ref.chan j)) := funext h.2
  rw [h.1, hf]

theorem LOCAL_fst_same_basic (ref s : fluid_synth_t) (h : same_basic ref s)
    (b mode val : Nat) :
    (fluid_synth_set_basic_channel_LOCAL s b mode val).1 =
      (fluid_synth_set_basic_channel_LOCAL ref b mode val).1 := by
  have h1 := LOCAL_fails_iff s b mode val
  have h2 := LOCAL_fails_iff ref b mode val
  rw [h.1, group_end_same_basic ref s h] at h1
  rcases LOCAL_result s b mode val with a | a <;>
    rcases LOCAL_result ref b mode val with c | c
  · rw [a, c]
  · have := h1.mpr (h2.mp c)
    rw [a] at this; exact absurd this (by decide)
  · have := h2.mpr (h1.mp a)
    rw [c] at this; exact absurd this (by decide)
  · rw [a, c]

/-- The call on a channel that is already basic changes no basic flag, when the sum
`b + val` does not exceed `INT_MAX`. -/
theorem LOCAL_same_basic (s : fluid_synth_t) (b mode val : Nat)
    (hno : (b : Int) + (val : Int) ≤ INT_MAX)
    (hb : is_basic (s.chan b) = true) :
    same_basic s (fluid_synth_set_basic_channel_LOCAL s b mode val).2 := by
  rcases LOCAL_result s b mode val with hok | hf
  · obtain ⟨hbn, -, hlen, -, -⟩ := LOCAL_ok_spec s b mode val hok
    refine ⟨hlen, ?_⟩
    intro j
    rw [(LOCAL_ok_view_exact s b mode val hno hok j).1]
    by_cases hin : b ≤ j ∧ j < group_end s b
    · simp only [hin, and_self, if_true]
      by_cases hj : j = b
      · subst hj; simp [hb]
      · have := (group_end_spec s b hbn).2.2.1 j (by omega) hin.2
        simp [hj, this]
    · simp only [hin, if_false]
  · rw [LOCAL_failed_state s _ _ _ hf]; exact same_basic_refl s

/-- The records after the successful application of an entry whose basic channel is
already marked. -/
theorem apply_entry_chan (ref s : fluid_synth_t) (e : fluid_basic_channel_infos_t)
    (h : same_basic ref s) (hb : is_basic (ref.chan e.basicchan.toNat) = true)
    (hok : (fluid_synth_set_basic_channel_LOCAL ref e.basicchan.toNat e.mode.toNat
      e.val.toNat).1 = FLUID_OK) (j : Nat) :
    (apply_entry s e).chan j = entry_step ref j (s.chan j) e := by
  have hb' : is_basic (s.chan e.basicchan.toNat) = true := by rw [h.2]; exact hb
  have hok' : (fluid_synth_set_basic_channel_LOCAL s e.basicchan.toNat e.mode.toNat
      e.val.toNat).1 = FLUID_OK := by rw [LOCAL_fst_same_basic ref s h]; exact hok
  obtain ⟨-, -, -, -, hc⟩ := LOCAL_ok_spec s _ _ _ hok'
  unfold apply_entry entry_step entry_record
  rw [hc j, group_end_same_basic ref s h]
  by_cases hin : e.basicchan.toNat ≤ j ∧ j < group_end ref e.basicchan.toNat
  · simp only [hin, and_self, if_true]
  · simp only [hin, if_false]
    unfold narrowed_chan
    rw [prev_basic_chan_of_none s _ (Or.inl hb')]
    have : ¬ ((-1 : Int) = (j : Int)) := by omega
    simp only [this, if_false]

theorem apply_entry_same_basic (ref s : fluid_synth_t) (e : fluid_basic_channel_infos_t)
    (hno : no_wrap e)
    (h : same_basic ref s) (hb : is_basic (ref.chan e.basicchan.toNat) = true) :
    same_basic ref (apply_entry s e) := by
  have hb' : is_basic (s.chan e.basicchan.toNat) = true := by rw [h.2]; exact hb
  exact same_basic_trans ref s _ h (LOCAL_same_basic s _ _ _ hno hb')

theorem apply_loop_same_basic (ref : fluid_synth_t) (l : List fluid_basic_channel_infos_t)
    (hno : ∀ e ∈ l, no_wrap e) :
    ∀ s : fluid_synth_t, same_basic ref s →
      (∀ e ∈ l, is_basic (ref.chan e.basicchan.toNat) = true) →
      same_basic ref (l.foldl apply_entry s) := by
  induction l with
  | nil => intro s h _; exact h
  | cons e l ih =>
    intro s h hb
    rw [List.foldl_cons]
    exact ih (fun x hx => hno x (List.mem_cons_of_mem _ hx)) _
      (apply_entry_same_basic ref s e (hno e (List.mem_cons_self _ _)) h
        (hb e (List.mem_cons_self _ _)))
      (fun x hx => hb x (List.mem_cons_of_mem _ hx))

/-- The records after the apply loop, when every entry passes its check and no sum
`basicchan + val` exceeds `INT_MAX`. -/
theorem apply_loop_chan (ref : fluid_synth_t) (l : List fluid_basic_channel_infos_t)
    (hno : ∀ e ∈ l, no_wrap e) :
    ∀ s : fluid_synth_t, same_basic ref s →
      (∀ e ∈ l, is_basic (ref.chan e.basicchan.toNat) = true) →
      (∀ e ∈ l, (fluid_synth_set_basic_channel_LOCAL ref e.basicchan.toNat e.mode.toNat
        e.val.toNat).1 = FLUID_OK) →
      ∀ j, (l.foldl apply_entry s).chan j = chan_fold ref j l (s.chan j) := by
  induction l with
  | nil => intro s _ _ _ j; rfl
  | cons e l ih =>
    intro s h hb hok j
    rw [List.foldl_cons, chan_fold, List.foldl_cons]
    rw [ih (fun x hx => hno x (List.mem_cons_of_mem _ hx)) _
      (apply_entry_same_basic ref s e (hno e (List.mem_cons_self _ _)) h
        (hb e (List.mem_cons_self _ _)))
      (fun x hx => hb x (List.mem_cons_of_mem _ hx))
      (fun x hx => hok x (List.mem_cons_of_mem _ hx)) j]
    rw [apply_entry_chan ref s e h (hb e (List.mem_cons_self _ _))
      (hok e (List.mem_cons_self _ _)) j]
    rfl

/-- On a fixed set of basic channels the loop returns `FLUID_OK` exactly when every entry
passes its check against that set, when no sum `basicchan + val` exceeds `INT_MAX`. -/
theorem apply_loop_ok_iff (ref : fluid_synth_t) (l : List fluid_basic_channel_infos_t)
    (hno : ∀ e ∈ l, no_wrap e) :
    ∀ s : fluid_synth_t, same_basic ref s →
      (∀ e ∈ l, is_basic (ref.chan e.basicchan.toNat) = true) →
      ((l.foldl apply_basic_channel (FLUID_OK, s)).1 = FLUID_OK ↔
        ∀ e ∈ l, (fluid_synth_set_basic_channel_LOCAL ref e.basicchan.toNat e.mode.toNat
          e.val.toNat).1 = FLUID_OK) := by
  induction l with
  | nil => intro s _ _; simp
  | cons e l ih =>
    intro s h hb
    have hbe := hb e (List.mem_cons_self _ _)
    have hnext := apply_entry_same_basic ref s e (hno e (List.mem_cons_self _ _)) h hbe
    have ih := ih (fun x hx => hno x (List.mem_cons_of_mem _ hx))
    rw [List.foldl_cons]
    have hfst := LOCAL_fst_same_basic ref s h e.basicchan.toNat e.mode.toNat e.val.toNat
    rcases LOCAL_result ref e.basicchan.toNat e.mode.toNat e.val.toNat with hr | hr
    · have : apply_basic_channel (FLUID_OK, s) e = (FLUID_OK, apply_entry s e) := by
        simp [apply_basic_channel, hfst, hr, apply_entry]
      rw [this, ih _ hnext (fun x hx => hb x (List.mem_cons_of_mem _ hx))]
      simp only [List.mem_cons, forall_eq_or_imp, hr, true_and]
    · have : apply_basic_channel (FLUID_OK, s) e = (FLUID_FAILED, apply_entry s e) := by
        simp [apply_basic_channel, hfst, hr, apply_entry]
      rw [this, apply_loop_result_stuck l _ _ (by decide)]
      simp only [List.mem_cons, forall_eq_or_imp, hr]
      constructor
      · intro hx; exact absurd hx (by decide)
      · intro hx; exact absurd hx.1 (by decide)

/-! ## The last entry of a basic channel wins -/

theorem is_basic_lt (s : fluid_synth_t) (j : Nat) (h : is_basic (s.chan j) = true) :
    j < s.midi_channels := by
  by_contra hc
  rw [chan_of_ge s j (by omega)] at h
  exact absurd h (by decide)

theorem chan_fold_cons (ref : fluid_synth_t) (j : Nat) (x : fluid_basic_channel_infos_t)
    (l : List fluid_basic_channel_infos_t) (c : fluid_channel_t) :
    chan_fold ref j (x :: l) c = chan_fold ref j l (entry_step ref j c x) := rfl

theorem written_chan_overwrite (b m lbr v b' m' lbr' v' : Nat) (c : fluid_channel_t)
    (j : Nat) :
    written_chan b' m' lbr' v' (written_chan b m lbr v c j) j = written_chan b' m' lbr' v' c j := by
  unfold written_chan fluid_channel_set_basic_channel_info
  simp only [mask_eq]
  have := set_info_word_twice c.mode (new_mode_at b m lbr j) (new_mode_at b' m' lbr' j)
  unfold set_info_word at this
  simp only [this]

theorem entry_record_overwrite (ref : fluid_synth_t) (e e' : fluid_basic_channel_infos_t)
    (c : fluid_channel_t) (j : Nat) :
    entry_record ref e' (entry_record ref e c j) j = entry_record ref e' c j := by
  unfold entry_record
  exact written_chan_overwrite _ _ _ _ _ _ _ _ c j

theorem entry_record_entry_step (ref : fluid_synth_t) (e x : fluid_basic_channel_infos_t)
    (c : fluid_channel_t) (j : Nat) :
    entry_record ref e (entry_step ref j c x) j = entry_record ref e c j := by
  unfold entry_step
  split_ifs
  · exact entry_record_overwrite ref x e c j
  · rfl

theorem entry_record_chan_fold (ref : fluid_synth_t) (e : fluid_basic_channel_infos_t)
    (j : Nat) (l : List fluid_basic_channel_infos_t) :
    ∀ c, entry_record ref e (chan_fold ref j l c) j = entry_record ref e c j := by
  induction l with
  | nil => intro c; rfl
  | cons x l ih =>
    intro c
    rw [chan_fold_cons, ih, entry_record_entry_step]

/-- Two basic channels whose groups contain the same index are equal. -/
theorem writers_same_basic (ref : fluid_synth_t) (b b' j : Nat)
    (hb : is_basic (ref.chan b) = true) (hb' : is_basic (ref.chan b') = true)
    (h : b ≤ j ∧ j < group_end ref b) (h' : b' ≤ j ∧ j < group_end ref b') : b = b' := by
  have g := group_end_spec ref b (is_basic_lt ref b hb)
  have g' := group_end_spec ref b' (is_basic_lt ref b' hb')
  rcases Nat.lt_trichotomy b b' with hlt | heq | hgt
  · have := g.2.2.1 b' hlt (by omega)
    rw [hb'] at this; exact absurd this (by decide)
  · exact heq
  · have := g'.2.2.1 b hgt (by omega)
    rw [hb] at this; exact absurd this (by decide)

theorem chan_fold_no_writer (ref : fluid_synth_t) (j : Nat)
    (l : List fluid_basic_channel_infos_t) :
    ∀ c, (∀ x ∈ l, ¬ (x.basicchan.toNat ≤ j ∧ j < group_end ref x.basicchan.toNat)) →
      chan_fold ref j l c = c := by
  induction l with
  | nil => intro c _; rfl
  | cons x l ih =>
    intro c h
    rw [chan_fold_cons]
    have hx := h x (List.mem_cons_self _ _)
    have : entry_step ref j c x = c := by
      unfold entry_step; rw [if_neg hx]
    rw [this]
    exact ih c (fun y hy => h y (List.mem_cons_of_mem _ hy))

theorem chan_fold_append (ref : fluid_synth_t) (j : Nat)
    (l1 l2 : List fluid_basic_channel_infos_t) (c : fluid_channel_t) :
    chan_fold ref j (l1 ++ l2) c = chan_fold ref j l2 (chan_fold ref j l1 c) := by
  unfold chan_fold
  rw [List.foldl_append]

/-- The record at an index of the group of `e` is the one that `e` stores, when no later
entry names the basic channel of `e`. -/
theorem chan_fold_last_entry (ref : fluid_synth_t) (j : Nat)
    (l1 l2 : List fluid_basic_channel_infos_t) (e : fluid_basic_channel_infos_t)
    (c : fluid_channel_t)
    (hb : ∀ x ∈ l1 ++ e :: l2, is_basic (ref.chan x.basicchan.toNat) = true)
    (hlast : ∀ x ∈ l2, x.basicchan.toNat ≠ e.basicchan.toNat)
    (hj : e.basicchan.toNat ≤ j ∧ j < group_end ref e.basicchan.toNat) :
    chan_fold ref j (l1 ++ e :: l2) c = entry_record ref e c j := by
  rw [chan_fold_append]
  rw [chan_fold_cons]
  have hstep : entry_step ref j (chan_fold ref j l1 c) e = entry_record ref e c j := by
    unfold entry_step
    rw [if_pos hj, entry_record_chan_fold]
  rw [hstep]
  apply chan_fold_no_writer
  intro x hx hw
  have hbx := hb x (List.mem_append_right _ (List.mem_cons_of_mem _ hx))
  have hbe := hb e (List.mem_append_right _ (List.mem_cons_self _ _))
  exact hlast x hx (writers_same_basic ref _ _ j hbx hbe hw hj)

/-- An entry that a later entry supersedes has no effect on the final record. -/
theorem chan_fold_superseded (ref : fluid_synth_t) (j : Nat)
    (e : fluid_basic_channel_infos_t) (l : List fluid_basic_channel_infos_t) :
    ∀ c, (∃ x ∈ l, x.basicchan = e.basicchan) →
      chan_fold ref j l (entry_step ref j c e) = chan_fold ref j l c := by
  induction l with
  | nil => intro c h; obtain ⟨x, hx, -⟩ := h; exact absurd hx (List.not_mem_nil _)
  | cons y l ih =>
    intro c h
    rw [chan_fold_cons, chan_fold_cons]
    by_cases hwy : y.basicchan.toNat ≤ j ∧ j < group_end ref y.basicchan.toNat
    · have : entry_step ref j (entry_step ref j c e) y = entry_step ref j c y := by
        conv_lhs => unfold entry_step
        conv_rhs => unfold entry_step
        rw [if_pos hwy, if_pos hwy]
        exact entry_record_entry_step ref y e c j
      rw [this]
    · have e1 : ∀ c', entry_step ref j c' y = c' := by
        intro c'; unfold entry_step; rw [if_neg hwy]
      rw [e1, e1]
      by_cases hy : y.basicchan = e.basicchan
      · have hw : ¬ (e.basicchan.toNat ≤ j ∧ j < group_end ref e.basicchan.toNat) := by
          rw [← hy]; exact hwy
        have : entry_step ref j c e = c := by
          unfold entry_step; rw [if_neg hw]
        rw [this]
      · have hrest : ∃ x ∈ l, x.basicchan = e.basicchan := by
          obtain ⟨x, hx, hxe⟩ := h
          rcases List.mem_cons.mp hx with h1 | h1
          · subst h1; exact absurd hxe hy
          · exact ⟨x, h1, hxe⟩
        exact ih c hrest

theorem mem_remove_superseded (l : List fluid_basic_channel_infos_t) :
    ∀ x, x ∈ remove_superseded l → x ∈ l := by
  induction l with
  | nil => intro x h; exact h
  | cons e l ih =>
    intro x h
    unfold remove_superseded at h
    split_ifs at h
    · exact List.mem_cons_of_mem _ (ih x h)
    · rcases List.mem_cons.mp h with h1 | h1
      · rw [h1]; exact List.mem_cons_self _ _
      · exact List.mem_cons_of_mem _ (ih x h1)

theorem named_remove_superseded (l : List fluid_basic_channel_infos_t) :
    ∀ b : Int, (∃ x ∈ remove_superseded l, x.basicchan = b) ↔ ∃ x ∈ l, x.basicchan = b := by
  induction l with
  | nil => intro b; rfl
  | cons e l ih =>
    intro b
    unfold remove_superseded
    by_cases h : l.any (fun x => decide (x.basicchan = e.basicchan)) = true
    · rw [if_pos h, ih b]
      constructor
      · rintro ⟨x, hx, hb⟩; exact ⟨x, List.mem_cons_of_mem _ hx, hb⟩
      · rintro ⟨x, hx, hb⟩
        rcases List.mem_cons.mp hx with h1 | h1
        · subst h1
          obtain ⟨y, hy, hye⟩ := List.any_eq_true.mp h
          exact ⟨y, hy, by rw [← hb]; simpa using hye⟩
        · exact ⟨x, h1, hb⟩
    · rw [if_neg h]
      simp only [List.mem_cons, exists_eq_or_imp]
      rw [ih b]

theorem chan_fold_remove_superseded (ref : fluid_synth_t) (j : Nat)
    (l : List fluid_basic_channel_infos_t) :
    ∀ c, chan_fold ref j (remove_superseded l) c = chan_fold ref j l c := by
  induction l with
  | nil => intro c; rfl
  | cons e l ih =>
    intro c
    unfold remove_superseded
    by_cases h : l.any (fun x => decide (x.basicchan = e.basicchan)) = true
    · rw [if_pos h, ih c]
      have hex : ∃ x ∈ l, x.basicchan = e.basicchan := by
        obtain ⟨y, hy, hye⟩ := List.any_eq_true.mp h
        exact ⟨y, hy, by simpa using hye⟩
      have := chan_fold_superseded ref j e l c hex
      rw [← this]
      rfl
    · rw [if_neg h]
      show chan_fold ref j (remove_superseded l) (entry_step ref j c e) =
        chan_fold ref j l (entry_step ref j c e)
      exact ih _

theorem remove_superseded_length_le (l : List fluid_basic_channel_infos_t) :
    (remove_superseded l).length ≤ l.length := by
  induction l with
  | nil => exact le_refl _
  | cons e l ih =>
    unfold remove_superseded
    split_ifs
    · simp only [List.length_cons]; omega
    · simp only [List.length_cons]; omega

theorem remove_superseded_ne_nil (l : List fluid_basic_channel_infos_t) (h : l ≠ []) :
    remove_superseded l ≠ [] := by
  obtain ⟨e, he⟩ := List.exists_mem_of_ne_nil l h
  obtain ⟨x, hx, -⟩ := (named_remove_superseded l e.basicchan).mpr ⟨e, he, rfl⟩
  exact List.ne_nil_of_mem hx

/-- Every named basic channel has a last entry. -/
theorem exists_last_entry (l : List fluid_basic_channel_infos_t) :
    ∀ b : Int, (∃ x ∈ l, x.basicchan = b) →
      ∃ l1 e l2, l = l1 ++ e :: l2 ∧ e.basicchan = b ∧ ∀ x ∈ l2, x.basicchan ≠ b := by
  induction l with
  | nil => intro b h; obtain ⟨x, hx, -⟩ := h; exact absurd hx (List.not_mem_nil _)
  | cons y l ih =>
    intro b h
    by_cases hl : ∃ x ∈ l, x.basicchan = b
    · obtain ⟨l1, e, l2, h1, h2, h3⟩ := ih b hl
      exact ⟨y :: l1, e, l2, by rw [h1]; rfl, h2, h3⟩
    · obtain ⟨x, hx, hxb⟩ := h
      rcases List.mem_cons.mp hx with h1 | h1
      · subst h1
        refine ⟨[], x, l, rfl, hxb, ?_⟩
        intro z hz hzb
        exact hl ⟨z, hz, hzb⟩
      · exact absurd ⟨x, h1, hxb⟩ hl

/-! ## The prepared state and the table of basic channels -/

theorem channel_ext (s t : fluid_synth_t) (hn : s.midi_channels = t.midi_channels)
    (hc : ∀ i, s.chan i = t.chan i) : s.channel = t.channel := by
  have h := synth_ext { channel := s.channel, notes_off := [] }
    { channel := t.channel, notes_off := [] } hn (fun i _ => hc i) rfl
  have h2 : ({ channel := s.channel, notes_off := [] } : fluid_synth_t).channel =
      ({ channel := t.channel, notes_off := [] } : fluid_synth_t).channel :=
    congrArg fluid_synth_t.channel h
  exact h2

/-- The record at `j` after the marking loop. -/
theorem chan_marks (l : List fluid_basic_channel_infos_t) :
    ∀ (s : fluid_synth_t) (j : Nat),
      (l.foldl mark_basic_channel s).chan j =
        if (∃ e ∈ l, e.basicchan.toNat = j) ∧ j < s.midi_channels ∧
            is_basic (s.chan j) = false then
          { s.chan j with mode := (s.chan j).mode ||| FLUID_CHANNEL_BASIC }
        else s.chan j := by
  induction l with
  | nil => intro s j; simp
  | cons e l ih =>
    intro s j
    rw [List.foldl_cons, ih, midi_channels_mark]
    have hm := chan_mark s e j
    by_cases hc : e.basicchan.toNat = j ∧ j < s.midi_channels ∧ is_basic (s.chan j) = false
    · rw [if_pos hc] at hm
      have hb : is_basic ((mark_basic_channel s e).chan j) = true := by
        rw [(mark_flags s e j).1]; exact Or.inr ⟨hc.1, hc.2.1⟩
      have h1 : ¬ ((∃ e ∈ l, e.basicchan.toNat = j) ∧ j < s.midi_channels ∧
          is_basic ((mark_basic_channel s e).chan j) = false) := by
        rintro ⟨-, -, h3⟩; rw [hb] at h3; exact absurd h3 (by decide)
      have h2 : (∃ x ∈ e :: l, x.basicchan.toNat = j) ∧ j < s.midi_channels ∧
          is_basic (s.chan j) = false := ⟨⟨e, List.mem_cons_self _ _, hc.1⟩, hc.2⟩
      rw [if_neg h1, if_pos h2, hm]
    · rw [if_neg hc] at hm
      rw [hm]
      by_cases h1 : (∃ e ∈ l, e.basicchan.toNat = j) ∧ j < s.midi_channels ∧
          is_basic (s.chan j) = false
      · have h2 : (∃ x ∈ e :: l, x.basicchan.toNat = j) ∧ j < s.midi_channels ∧
            is_basic (s.chan j) = false := by
          obtain ⟨⟨x, hx, hxj⟩, h3⟩ := h1
          exact ⟨⟨x, List.mem_cons_of_mem _ hx, hxj⟩, h3⟩
        rw [if_pos h1, if_pos h2]
      · have h2 : ¬ ((∃ x ∈ e :: l, x.basicchan.toNat = j) ∧ j < s.midi_channels ∧
            is_basic (s.chan j) = false) := by
          rintro ⟨⟨x, hx, hxj⟩, h3, h4⟩
          rcases List.mem_cons.mp hx with h5 | h5
          · subst h5; exact hc ⟨hxj, h3, h4⟩
          · exact h1 ⟨⟨x, h5, hxj⟩, h3, h4⟩
        rw [if_neg h1, if_neg h2]

/-- The prepared state only depends on the set of basic channels the entries name. -/
theorem prepared_congr (s : fluid_synth_t) (l l' : List fluid_basic_channel_infos_t)
    (h : ∀ j, (∃ e ∈ l, e.basicchan.toNat = j) ↔ (∃ e ∈ l', e.basicchan.toNat = j)) :
    prepared s l = prepared s l' := by
  apply synth_ext
  · rw [midi_channels_prepared, midi_channels_prepared]
  · intro j _
    unfold prepared
    rw [chan_marks, chan_marks]
    simp only [h j]
  · unfold prepared
    rw [notes_off_marks, notes_off_marks]

theorem named_toNat_remove_superseded (l : List fluid_basic_channel_infos_t) (j : Nat) :
    (∃ e ∈ remove_superseded l, e.basicchan.toNat = j) ↔ (∃ e ∈ l, e.basicchan.toNat = j) := by
  constructor
  · rintro ⟨x, hx, hj⟩
    exact ⟨x, mem_remove_superseded l x hx, hj⟩
  · rintro ⟨x, hx, hj⟩
    obtain ⟨y, hy, hyx⟩ := (named_remove_superseded l x.basicchan).mpr ⟨x, hx, rfl⟩
    exact ⟨y, hy, by rw [hyx]; exact hj⟩

theorem count_loop (p : Nat → Bool) (l : List Nat) :
    ∀ acc : Nat, l.foldl (fun n i => if p i then n + 1 else n) acc =
      acc + (l.filter p).length := by
  induction l with
  | nil => intro acc; rfl
  | cons x l ih =>
    intro acc
    rw [List.foldl_cons, ih]
    by_cases hx : p x = true
    · simp [hx, List.filter_cons]; omega
    · simp [hx, List.filter_cons]

theorem filterMap_if (p : Nat → Bool) (g : Nat → fluid_basic_channel_infos_t) (l : List Nat) :
    (l.filterMap fun i => if p i then some (g i) else none) = (l.filter p).map g := by
  induction l with
  | nil => rfl
  | cons x l ih =>
    by_cases hx : p x = true
    · simp [List.filterMap_cons, List.filter_cons, hx, ih]
    · simp [List.filterMap_cons, List.filter_cons, hx, ih]

theorem basic_channel_table_eq (s : fluid_synth_t) :
    basic_channel_table s =
      ((List.range s.midi_channels).filter fun i => is_basic (s.chan i)).map fun i =>
        { basicchan := (i : Int), mode := (mode_bits (s.chan i) : Int),
          val := ((s.chan i).mode_val : Int) } := by
  unfold basic_channel_table
  exact filterMap_if (fun i => is_basic (s.chan i)) _ _

theorem basic_channel_table_length (s : fluid_synth_t) :
    (basic_channel_table s).length =
      ((List.range s.midi_channels).filter fun i => is_basic (s.chan i)).length := by
  rw [basic_channel_table_eq, List.length_map]

/-- What `fluid_synth_get_basic_channels` returns when the table is asked for and can be
allocated. -/
theorem get_basic_channels_eq (s : fluid_synth_t) :
    fluid_synth_get_basic_channels s true true =
      if (basic_channel_table s).length ≠ 0 then
        (((basic_channel_table s).length : Int), some (basic_channel_table s))
      else (0, none) := by
  have hc := count_loop (fun i => is_basic (s.chan i)) (List.range s.midi_channels) 0
  rw [Nat.zero_add, ← basic_channel_table_length] at hc
  unfold fluid_synth_get_basic_channels
  simp only [hc]
  by_cases h0 : (basic_channel_table s).length = 0
  · simp [h0]
  · have h1 : ((basic_channel_table s).length != 0) = true := by simpa using h0
    simp only [h1, Bool.and_self, if_true, ne_eq, h0, not_false_eq_true]
    rfl

theorem mem_basic_channel_table (s : fluid_synth_t) (e : fluid_basic_channel_infos_t) :
    e ∈ basic_channel_table s ↔
      ∃ i, i < s.midi_channels ∧ is_basic (s.chan i) = true ∧
        e = { basicchan := (i : Int), mode := (mode_bits (s.chan i) : Int),
              val := ((s.chan i).mode_val : Int) } := by
  rw [basic_channel_table_eq]
  simp only [List.mem_map, List.mem_filter, List.mem_range]
  constructor
  · rintro ⟨i, ⟨h1, h2⟩, h3⟩; exact ⟨i, h1, h2, h3.symm⟩
  · rintro ⟨i, h1, h2, h3⟩; exact ⟨i, ⟨h1, h2⟩, h3.symm⟩

theorem basic_channel_table_names (s : fluid_synth_t) :
    (basic_channel_table s).map (fun e => e.basicchan) =
      ((List.range s.midi_channels).filter fun i => is_basic (s.chan i)).map
        fun i : Nat => (i : Int) := by
  rw [basic_channel_table_eq, List.map_map]
  rfl

theorem basic_channel_table_nodup (s : fluid_synth_t) :
    ((basic_channel_table s).map fun e => e.basicchan).Nodup := by
  rw [basic_channel_table_names]
  exact ((List.nodup_range _).filter _).map Nat.cast_injective

/-! ## Last entry wins -/

theorem LOCAL_ok_iff (s : fluid_synth_t) (b mode val : Nat)
    (hno : (b : Int) + (val : Int) ≤ INT_MAX) :
    (fluid_synth_set_basic_channel_LOCAL s b mode val).1 = FLUID_OK ↔
      b < s.midi_channels ∧
        enabled_end b (mode &&& 3) val (group_end s b) ≤ group_end s b := by
  have hf := LOCAL_fails_iff_exact s b mode val hno
  constructor
  · intro h
    have hnf : ¬ ((fluid_synth_set_basic_channel_LOCAL s b mode val).1 = FLUID_FAILED) := by
      rw [h]; decide
    rw [hf] at hnf
    constructor
    · by_contra hc; exact hnf (Or.inl hc)
    · by_contra hc; exact hnf (Or.inr (by omega))
  · rintro ⟨h1, h2⟩
    rcases LOCAL_result s b mode val with h | h
    · exact h
    · rcases hf.mp h with h3 | h3
      · exact absurd h1 h3
      · omega

/-- The fields of the group of an entry after the apply loop, when no later entry names its
basic channel. -/
theorem apply_loop_last_entry (ref : fluid_synth_t)
    (l1 l2 : List fluid_basic_channel_infos_t) (e : fluid_basic_channel_infos_t)
    (hno : ∀ x ∈ l1 ++ e :: l2, no_wrap x)
    (hb : ∀ x ∈ l1 ++ e :: l2, is_basic (ref.chan x.basicchan.toNat) = true)
    (hok : ∀ x ∈ l1 ++ e :: l2, (fluid_synth_set_basic_channel_LOCAL ref x.basicchan.toNat
      x.mode.toNat x.val.toNat).1 = FLUID_OK)
    (hlast : ∀ x ∈ l2, x.basicchan.toNat ≠ e.basicchan.toNat) (hm : e.mode.toNat < 4) :
    let t := (l1 ++ e :: l2).foldl apply_entry ref
    let b := e.basicchan.toNat
    let lbr := enabled_end b e.mode.toNat e.val.toNat (group_end ref b)
    mode_bits (t.chan b) = e.mode.toNat ∧ (t.chan b).mode_val = lbr - b ∧
    ∀ i, b ≤ i → i < group_end ref b →
      (is_enabled (t.chan i) = true ↔ i < lbr) ∧
      (is_basic (t.chan i) = true ↔ i = b) ∧
      mode_bits (t.chan i) = (if i < lbr then e.mode.toNat else 0) ∧
      (t.chan i).mode_val = (if i = b then lbr - b else 0) := by
  intro t b lbr
  have hbe := hb e (List.mem_append_right _ (List.mem_cons_self _ _))
  have hbn : b < ref.midi_channels := is_basic_lt ref b hbe
  have hg := group_end_spec ref b hbn
  have hgt : b < lbr := enabled_end_gt b _ _ _ hg.1
  have hm3 : e.mode.toNat &&& 3 = e.mode.toNat := and_three_of_lt _ hm
  have hrec : ∀ i, b ≤ i → i < group_end ref b →
      t.chan i = written_chan b e.mode.toNat lbr (lbr - b) (ref.chan i) i := by
    intro i h1 h2
    have := apply_loop_chan ref (l1 ++ e :: l2) hno ref (same_basic_refl ref) hb hok i
    rw [chan_fold_last_entry ref i l1 l2 e _ hb hlast ⟨h1, h2⟩] at this
    rw [this]
    unfold entry_record
    have hne : no_wrap e := hno e (List.mem_append_right _ (List.mem_cons_self _ _))
    rw [hm3, begin_range_eq _ _ _ _ hm hne, begin_val_eq _ _ _ _ hm hne]
  have hall : ∀ i, b ≤ i → i < group_end ref b →
      (is_enabled (t.chan i) = true ↔ i < lbr) ∧
      (is_basic (t.chan i) = true ↔ i = b) ∧
      mode_bits (t.chan i) = (if i < lbr then e.mode.toNat else 0) ∧
      (t.chan i).mode_val = (if i = b then lbr - b else 0) := by
    intro i h1 h2
    rw [hrec i h1 h2, is_enabled_written _ _ _ _ _ _ hm, is_basic_written _ _ _ _ _ _ hm hgt,
      mode_bits_written _ _ _ _ _ _ hm, mode_val_written]
    simp
  obtain ⟨-, -, h3, h4⟩ := hall b (le_refl _) hg.1
  refine ⟨?_, ?_, hall⟩
  · rw [h3, if_pos hgt]
  · rw [h4, if_pos rfl]

theorem take_length_toNat (n : Int) (a : List fluid_basic_channel_infos_t) (hn0 : 0 < n)
    (hlen : n ≤ a.length) : (a.take n.toNat).length = n.toNat ∧ a.take n.toNat ≠ [] := by
  have h1 : (a.take n.toNat).length = n.toNat := by
    rw [List.length_take]; omega
  refine ⟨h1, ?_⟩
  intro hc
  rw [hc] at h1
  simp at h1
  omega

/-- Last entry wins, when no sum `basicchan + val` exceeds `INT_MAX`. For a non-empty
validated entry list,
`fluid_synth_reset_basic_channels` returns `FLUID_OK` exactly when every entry keeps its
enabled range inside its group, whether or not basic channels are named more than once.
After a call that returns `FLUID_OK` the basic channels are exactly the named ones,
`fluid_synth_get_basic_channels` returns one triple for each distinct named value, the mode,
`mode_val` and enabled range of a basic channel are those of the last entry that names it,
and the list without the entries superseded by a later entry with the same basic channel
gives `FLUID_OK` and the same channel array. -/
theorem reset_basic_channels_last_entry_wins_exact (s : fluid_synth_t) (n : Int)
    (a : List fluid_basic_channel_infos_t) (hn0 : 0 < n) (hn : n ≤ s.midi_channels)
    (hlen : n ≤ a.length)
    (hvalid : ∀ e ∈ a.take n.toNat, entry_invalid s.midi_channels e = false)
    (hnov : ∀ e ∈ a.take n.toNat, e.basicchan + e.val ≤ INT_MAX) :
    let entries := a.take n.toNat
    let start := prepared s entries
    let r := fluid_synth_reset_basic_channels s n (some a)
    let names := entries.map fun e => e.basicchan
    let kept := remove_superseded entries
    (r.1 = FLUID_OK ↔ ∀ e ∈ entries,
      enabled_end e.basicchan.toNat e.mode.toNat e.val.toNat
        (group_end start e.basicchan.toNat) ≤ group_end start e.basicchan.toNat) ∧
    (r.1 = FLUID_OK →
      (∀ j : Nat, is_basic (r.2.chan j) = true ↔ ∃ e ∈ entries, e.basicchan = (j : Int)) ∧
      fluid_synth_get_basic_channels r.2 true true =
        ((names.dedup.length : Int), some (basic_channel_table r.2)) ∧
      (basic_channel_table r.2).length = names.dedup.length ∧
      ((basic_channel_table r.2).map fun e => e.basicchan).Nodup ∧
      (∀ b : Int, b ∈ (basic_channel_table r.2).map (fun e => e.basicchan) ↔ b ∈ names) ∧
      (∀ b ∈ names, ∃ l1 e l2, entries = l1 ++ e :: l2 ∧ e.basicchan = b ∧
        ∀ x ∈ l2, x.basicchan ≠ b) ∧
      (∀ l1 e l2, entries = l1 ++ e :: l2 → (∀ x ∈ l2, x.basicchan ≠ e.basicchan) →
        mode_bits (r.2.chan e.basicchan.toNat) = e.mode.toNat ∧
        (r.2.chan e.basicchan.toNat).mode_val =
          enabled_end e.basicchan.toNat e.mode.toNat e.val.toNat
            (group_end r.2 e.basicchan.toNat) - e.basicchan.toNat ∧
        ∀ i, e.basicchan.toNat ≤ i → i < group_end r.2 e.basicchan.toNat →
          (is_enabled (r.2.chan i) = true ↔
            i < enabled_end e.basicchan.toNat e.mode.toNat e.val.toNat
              (group_end r.2 e.basicchan.toNat))) ∧
      (fluid_synth_reset_basic_channels s kept.length (some kept)).1 = FLUID_OK ∧
      (fluid_synth_reset_basic_channels s kept.length (some kept)).2.channel = r.2.channel) := by
  intro entries start r names kept
  have hr : r = entries.foldl apply_basic_channel (FLUID_OK, start) :=
    reset_basic_channels_checked s n a hn0 hn hvalid
  have hbounds : ∀ e ∈ entries, 0 ≤ e.basicchan ∧ e.basicchan < s.midi_channels ∧
      0 ≤ e.mode ∧ e.mode < 4 ∧ 0 ≤ e.val ∧ e.basicchan + e.val ≤ s.midi_channels := by
    intro e he
    obtain ⟨b1, b2, b3, b4, b5, b6⟩ := entry_valid_bounds _ e (hvalid e he)
    have h3 : e.basicchan + e.val ≤ 2147483647 := hnov e he
    rw [int_wrap_eq _ (by omega) h3] at b6
    exact ⟨b1, b2, b3, b4, b5, b6⟩
  have hnw : ∀ e ∈ entries, no_wrap e :=
    fun e he => entry_no_wrap _ e (hvalid e he) (hnov e he)
  have hstartn : start.midi_channels = s.midi_channels := midi_channels_prepared s entries
  have hb : ∀ e ∈ entries, is_basic (start.chan e.basicchan.toNat) = true := by
    intro e he
    have := hbounds e he
    exact (is_basic_prepared s entries _).mpr ⟨⟨e, he, rfl⟩, by omega⟩
  have hcheck : ∀ e ∈ entries,
      ((fluid_synth_set_basic_channel_LOCAL start e.basicchan.toNat e.mode.toNat
        e.val.toNat).1 = FLUID_OK ↔
      enabled_end e.basicchan.toNat e.mode.toNat e.val.toNat
        (group_end start e.basicchan.toNat) ≤ group_end start e.basicchan.toNat) := by
    intro e he
    have hbd := hbounds e he
    rw [LOCAL_ok_iff _ _ _ _ (hnw e he), and_three_of_lt _ (by omega : e.mode.toNat < 4),
      hstartn]
    constructor
    · intro h; exact h.2
    · intro h; exact ⟨by omega, h⟩
  have hiff : r.1 = FLUID_OK ↔ ∀ e ∈ entries,
      enabled_end e.basicchan.toNat e.mode.toNat e.val.toNat
        (group_end start e.basicchan.toNat) ≤ group_end start e.basicchan.toNat := by
    rw [hr, apply_loop_ok_iff start entries hnw start (same_basic_refl start) hb]
    constructor
    · intro h e he; exact (hcheck e he).mp (h e he)
    · intro h e he; exact (hcheck e he).mpr (h e he)
  refine ⟨hiff, ?_⟩
  intro hok
  have hstatic : ∀ e ∈ entries, (fluid_synth_set_basic_channel_LOCAL start e.basicchan.toNat
      e.mode.toNat e.val.toNat).1 = FLUID_OK :=
    fun e he => (hcheck e he).mpr (hiff.mp hok e he)
  have hr2 : r.2 = entries.foldl apply_entry start := by
    rw [hr]; exact apply_loop_state entries _ start
  have hsb : same_basic start r.2 := by
    rw [hr2]; exact apply_loop_same_basic start entries hnw start (same_basic_refl start) hb
  -- the basic channels are the named ones
  have hbasic : ∀ j : Nat, is_basic (r.2.chan j) = true ↔
      ∃ e ∈ entries, e.basicchan = (j : Int) := by
    intro j
    rw [hsb.2 j, is_basic_prepared s entries j]
    constructor
    · rintro ⟨⟨e, he, hj⟩, -⟩
      have := hbounds e he
      exact ⟨e, he, by omega⟩
    · rintro ⟨e, he, hj⟩
      have := hbounds e he
      exact ⟨⟨e, he, by omega⟩, by omega⟩
  -- the table of basic channels
  have hmem : ∀ b : Int, b ∈ (basic_channel_table r.2).map (fun e => e.basicchan) ↔
      b ∈ names := by
    intro b
    rw [basic_channel_table_names]
    simp only [List.mem_map, List.mem_filter, List.mem_range, names]
    constructor
    · rintro ⟨i, ⟨-, hi⟩, rfl⟩
      obtain ⟨e, he, hj⟩ := (hbasic i).mp hi
      exact ⟨e, he, hj⟩
    · rintro ⟨e, he, rfl⟩
      have hbd := hbounds e he
      refine ⟨e.basicchan.toNat, ⟨?_, ?_⟩, by omega⟩
      · rw [hsb.1, hstartn]; omega
      · exact (hbasic _).mpr ⟨e, he, by omega⟩
  have hnodup := basic_channel_table_nodup r.2
  have hperm : List.Perm ((basic_channel_table r.2).map fun e => e.basicchan) names.dedup := by
    rw [List.perm_ext_iff_of_nodup hnodup (List.nodup_dedup names)]
    intro b
    rw [hmem b, List.mem_dedup]
  have htlen : (basic_channel_table r.2).length = names.dedup.length := by
    rw [← hperm.length_eq, List.length_map]
  obtain ⟨hel, hne⟩ := take_length_toNat n a hn0 hlen
  have hpos : (basic_channel_table r.2).length ≠ 0 := by
    rw [htlen]
    obtain ⟨e, he⟩ := List.exists_mem_of_ne_nil entries hne
    have : e.basicchan ∈ names.dedup :=
      List.mem_dedup.mpr (List.mem_map.mpr ⟨e, he, rfl⟩)
    exact Nat.ne_of_gt (List.length_pos_of_mem this)
  have hget : fluid_synth_get_basic_channels r.2 true true =
      ((names.dedup.length : Int), some (basic_channel_table r.2)) := by
    rw [get_basic_channels_eq, if_pos hpos, htlen]
  -- the last entry of a basic channel
  have hlast : ∀ l1 e l2, entries = l1 ++ e :: l2 → (∀ x ∈ l2, x.basicchan ≠ e.basicchan) →
      mode_bits (r.2.chan e.basicchan.toNat) = e.mode.toNat ∧
      (r.2.chan e.basicchan.toNat).mode_val =
        enabled_end e.basicchan.toNat e.mode.toNat e.val.toNat
          (group_end r.2 e.basicchan.toNat) - e.basicchan.toNat ∧
      ∀ i, e.basicchan.toNat ≤ i → i < group_end r.2 e.basicchan.toNat →
        (is_enabled (r.2.chan i) = true ↔
          i < enabled_end e.basicchan.toNat e.mode.toNat e.val.toNat
            (group_end r.2 e.basicchan.toNat)) := by
    intro l1 e l2 hsplit hl2
    have he : e ∈ entries := by rw [hsplit]; exact List.mem_append_right _ (List.mem_cons_self _ _)
    have hbd := hbounds e he
    have hl2' : ∀ x ∈ l2, x.basicchan.toNat ≠ e.basicchan.toNat := by
      intro x hx hc
      have hxe : x ∈ entries := by
        rw [hsplit]; exact List.mem_append_right _ (List.mem_cons_of_mem _ hx)
      have := hbounds x hxe
      exact hl2 x hx (by omega)
    have key := apply_loop_last_entry start l1 l2 e (by rw [← hsplit]; exact hnw)
      (by rw [← hsplit]; exact hb)
      (by rw [← hsplit]; exact hstatic) hl2' (by omega)
    rw [← hsplit, ← hr2] at key
    rw [group_end_same_basic start r.2 hsb]
    obtain ⟨k1, k2, k3⟩ := key
    exact ⟨k1, k2, fun i h1 h2 => (k3 i h1 h2).1⟩
  -- the list without the superseded entries
  have hkept_mem : ∀ x ∈ kept, x ∈ entries := mem_remove_superseded entries
  have hkept_ne : kept ≠ [] := remove_superseded_ne_nil entries hne
  have hkept_len : kept.length ≤ entries.length := remove_superseded_length_le entries
  have hkept_pos : 0 < kept.length := List.length_pos.mpr hkept_ne
  have hel' : entries.length = n.toNat := hel
  have hkept_n : ((kept.length : Nat) : Int) ≤ s.midi_channels := by omega
  have hkept_take : kept.take ((kept.length : Int)).toNat = kept := by
    simp
  have hkept_valid : ∀ e ∈ kept.take ((kept.length : Int)).toNat,
      entry_invalid s.midi_channels e = false := by
    rw [hkept_take]
    intro e he; exact hvalid e (hkept_mem e he)
  have hstart' : prepared s kept = start :=
    prepared_congr s kept entries (named_toNat_remove_superseded entries)
  have hr' : fluid_synth_reset_basic_channels s kept.length (some kept) =
      kept.foldl apply_basic_channel (FLUID_OK, start) := by
    rw [reset_basic_channels_checked s kept.length kept (by omega) hkept_n hkept_valid,
      hkept_take, hstart']
  have hb' : ∀ e ∈ kept, is_basic (start.chan e.basicchan.toNat) = true :=
    fun e he => hb e (hkept_mem e he)
  have hnw' : ∀ e ∈ kept, no_wrap e := fun e he => hnw e (hkept_mem e he)
  have hstatic' : ∀ e ∈ kept, (fluid_synth_set_basic_channel_LOCAL start e.basicchan.toNat
      e.mode.toNat e.val.toNat).1 = FLUID_OK := fun e he => hstatic e (hkept_mem e he)
  have hok' : (fluid_synth_reset_basic_channels s kept.length (some kept)).1 = FLUID_OK := by
    rw [hr', apply_loop_ok_iff start kept hnw' start (same_basic_refl start) hb']
    exact hstatic'
  have hchan' : (fluid_synth_reset_basic_channels s kept.length (some kept)).2.channel =
      r.2.channel := by
    apply channel_ext
    · rw [hr', apply_loop_state, hr2]
      rw [(apply_loop_same_basic start kept hnw' start (same_basic_refl start) hb').1,
        (apply_loop_same_basic start entries hnw start (same_basic_refl start) hb).1]
    · intro j
      rw [hr', apply_loop_state, hr2,
        apply_loop_chan start kept hnw' start (same_basic_refl start) hb' hstatic' j,
        apply_loop_chan start entries hnw start (same_basic_refl start) hb hstatic j]
      exact chan_fold_remove_superseded start j entries _
  refine ⟨hbasic, hget, htlen, hnodup, hmem, ?_, hlast, hok', hchan'⟩
  intro b hbn
  obtain ⟨e, he, heb⟩ := List.mem_map.mp hbn
  exact exists_last_entry entries b ⟨e, he, heb⟩

/-- C10 fails on the code: on the default partition of eight channels the one-entry list
`(1, Omni-Off/Mono, INT_MAX)` passes the validation loop, whose `int` sum wraps around, and
the call returns `FLUID_OK`; the wrapped `last_begin_range` of the application is
negative, so channel 1, the only basic channel named, is not basic after the call, and
`fluid_synth_get_basic_channels` returns no triple. -/
theorem reset_basic_channels_last_entry_overflow :
    entry_invalid (default_synth 8).midi_channels ⟨1, 3, 2147483647⟩ = false ∧
    (fluid_synth_reset_basic_channels (default_synth 8) 1 (some [⟨1, 3, 2147483647⟩])).1
      = FLUID_OK ∧
    is_basic ((fluid_synth_reset_basic_channels (default_synth 8) 1
      (some [⟨1, 3, 2147483647⟩])).2.chan 1) = false ∧
    ((fluid_synth_reset_basic_channels (default_synth 8) 1
      (some [⟨1, 3, 2147483647⟩])).2.channel.map is_basic) =
      [false, false, false, false, false, false, false, false] ∧
    fluid_synth_get_basic_channels (fluid_synth_reset_basic_channels (default_synth 8) 1
      (some [⟨1, 3, 2147483647⟩])).2 true true = (0, none) := by
  decide

/-! ## Round trip through `fluid_synth_get_basic_channels` -/

theorem midi_channels_set_basic_channel (s : fluid_synth_t)
    (infos : Option fluid_basic_channel_infos_t) :
    (fluid_synth_set_basic_channel s infos).2.midi_channels = s.midi_channels := by
  cases infos with
  | none => rfl
  | some e =>
    obtain ⟨b, mode, val⟩ := e
    rcases set_basic_channel_cases s b mode val with ⟨e, -⟩ | ⟨e, -⟩
    · rw [e]
    · rw [e, midi_channels_LOCAL]

theorem midi_channels_reset_basic_channels (s : fluid_synth_t) (n : Int)
    (infos : Option (List fluid_basic_channel_infos_t)) :
    (fluid_synth_reset_basic_channels s n infos).2.midi_channels = s.midi_channels := by
  rcases reset_basic_channels_cases s n infos with e | ⟨a, -, -, -, -, e⟩ | ⟨-, -, -, e⟩
  · rw [e]
  · rw [e, midi_channels_apply_loop, midi_channels_prepared]
  · rw [e, midi_channels_LOCAL, midi_channels_clear]

theorem LOCAL_ok_basic (s : fluid_synth_t) (b mode val : Nat)
    (hno : (b : Int) + (val : Int) ≤ INT_MAX)
    (h : (fluid_synth_set_basic_channel_LOCAL s b mode val).1 = FLUID_OK) :
    is_basic ((fluid_synth_set_basic_channel_LOCAL s b mode val).2.chan b) = true := by
  obtain ⟨hb, -⟩ := LOCAL_ok_spec s b mode val h
  have hg := (group_end_spec s b hb).1
  rw [(LOCAL_ok_view_exact s b mode val hno h b).1]
  simp [hg]

/-- The call with no entries succeeds on a synth with at least one channel and makes
channel 0 basic. -/
theorem default_has_basic (s : fluid_synth_t) (h : 0 < s.midi_channels) :
    is_basic ((fluid_synth_set_basic_channel_LOCAL (clear_basic_channels s) 0
      FLUID_CHANNEL_MODE_OMNION_POLY 0).2.chan 0) = true := by
  apply LOCAL_ok_basic _ _ _ _ (by decide)
  rw [LOCAL_ok_iff _ _ _ _ (by decide), midi_channels_clear]
  exact ⟨h, by simp [enabled_end]⟩

/-- A state reached by successful calls on a synth with at least one channel has a basic
channel. -/
theorem reachableOK_has_basic (s : fluid_synth_t) (h : ReachableOK s)
    (hN : 0 < s.midi_channels) : ∃ L, is_basic (s.chan L) = true := by
  induction h with
  | default s0 =>
    rw [midi_channels_reset_basic_channels] at hN
    have h2 : fluid_synth_reset_basic_channels s0 0 none =
        fluid_synth_set_basic_channel_LOCAL (clear_basic_channels s0) 0 0 0 := by
      simp [fluid_synth_reset_basic_channels]
    rw [h2]
    exact ⟨0, default_has_basic s0 hN⟩
  | set_basic_channel s infos _ hnov hok _ =>
    cases infos with
    | none => simp [fluid_synth_set_basic_channel] at hok
    | some e =>
      obtain ⟨b, mode, val⟩ := e
      have hbv : b + val ≤ INT_MAX := hnov ⟨b, mode, val⟩ rfl
      rcases set_basic_channel_cases s b mode val with ⟨e, -⟩ | ⟨e, a1, a2, a3, a4, a5, a6⟩
      · rw [e] at hok; simp at hok
      · rw [e] at hok ⊢
        exact ⟨_, LOCAL_ok_basic s _ _ _ (by omega) hok⟩
  | reset_basic_channels s n infos _ hwf hnov hok _ =>
    rw [midi_channels_reset_basic_channels] at hN
    rcases reset_basic_channels_cases s n infos with e | ⟨a, ha, hn0, hn, hv, e⟩ |
        ⟨-, -, -, e⟩
    · rw [e] at hok; simp at hok
    · rw [e, apply_loop_state]
      obtain ⟨-, hne⟩ := take_length_toNat n a hn0 (hwf a ha)
      obtain ⟨x, hx⟩ := List.exists_mem_of_ne_nil _ hne
      have hvalid : ∀ y ∈ a.take n.toNat, entry_invalid s.midi_channels y = false :=
        fun y hy => by
          have := List.any_eq_false.mp hv y hy
          simpa using this
      have hb : ∀ y ∈ a.take n.toNat,
          is_basic ((prepared s (a.take n.toNat)).chan y.basicchan.toNat) = true := by
        intro y hy
        have := entry_valid_bounds _ y (hvalid y hy)
        exact (is_basic_prepared s _ _).mpr ⟨⟨y, hy, rfl⟩, by omega⟩
      have hsb := apply_loop_same_basic (prepared s (a.take n.toNat)) (a.take n.toNat)
        (fun y hy => entry_no_wrap _ y (hvalid y hy) (hnov a ha y hy)) _
        (same_basic_refl _) hb
      exact ⟨x.basicchan.toNat, by rw [hsb.2]; exact hb x hx⟩
    · rw [e]
      exact ⟨0, default_has_basic s hN⟩

theorem basic_channel_table_length_le (s : fluid_synth_t) :
    (basic_channel_table s).length ≤ s.midi_channels := by
  rw [basic_channel_table_length]
  have := List.length_filter_le (fun i => is_basic (s.chan i)) (List.range s.midi_channels)
  rw [List.length_range] at this
  exact this

theorem group_end_ge_width (s : fluid_synth_t) (hinv : partition_inv s) (L : Nat)
    (hL : is_basic (s.chan L) = true) : L + (s.chan L).mode_val ≤ group_end s L := by
  have hLn := is_basic_lt s L hL
  obtain ⟨g1, g2, g3, g4⟩ := group_end_spec s L hLn
  rcases Nat.lt_or_ge (group_end s L) s.midi_channels with hlt | hge
  · exact hinv.range_le L _ g1 hlt hL (g4 hlt)
  · have := hinv.range_le_end L hLn hL
    omega

/-- The bulk replace with the table of a state whose basic channels have the width their
mode determines reproduces the observable fields of every channel; the channel count is an
`int`. -/
theorem round_trip_of_inv (s : fluid_synth_t) (hmax : (s.midi_channels : Int) ≤ INT_MAX)
    (hinv : partition_inv s) (hnb0 : nonbasic_val_zero s)
    (hw : ∀ L, L < s.midi_channels → is_basic (s.chan L) = true → width_by_mode s L)
    (hex : ∃ L, is_basic (s.chan L) = true) :
    let table := basic_channel_table s
    let r := fluid_synth_reset_basic_channels s table.length (some table)
    fluid_synth_get_basic_channels s true true = ((table.length : Int), some table) ∧
    r.1 = FLUID_OK ∧
    ∀ i, is_basic (r.2.chan i) = is_basic (s.chan i) ∧
      is_enabled (r.2.chan i) = is_enabled (s.chan i) ∧
      (r.2.chan i).mode_val = (s.chan i).mode_val ∧
      (is_basic (s.chan i) = true → mode_bits (r.2.chan i) = mode_bits (s.chan i)) := by
  intro table r
  have hmemt : ∀ e ∈ table, ∃ i, i < s.midi_channels ∧ is_basic (s.chan i) = true ∧
      e = { basicchan := (i : Int), mode := (mode_bits (s.chan i) : Int),
            val := ((s.chan i).mode_val : Int) } :=
    fun e he => (mem_basic_channel_table s e).mp he
  have hpos : table.length ≠ 0 := by
    obtain ⟨L, hL⟩ := hex
    have : (⟨(L : Int), (mode_bits (s.chan L) : Int), ((s.chan L).mode_val : Int)⟩ :
        fluid_basic_channel_infos_t) ∈ table :=
      (mem_basic_channel_table s _).mpr ⟨L, is_basic_lt s L hL, hL, rfl⟩
    exact Nat.ne_of_gt (List.length_pos_of_mem this)
  have hget : fluid_synth_get_basic_channels s true true =
      ((table.length : Int), some table) := by
    rw [get_basic_channels_eq, if_pos hpos]
  have htake : table.take ((table.length : Int)).toNat = table := by simp
  have hvalid : ∀ e ∈ table.take ((table.length : Int)).toNat,
      entry_invalid s.midi_channels e = false := by
    rw [htake]
    intro e he
    obtain ⟨i, hi, hib, rfl⟩ := hmemt e he
    have h1 := hinv.range_le_end i hi hib
    have h2 := mode_bits_lt (s.chan i)
    have hmax2 : (s.midi_channels : Int) ≤ 2147483647 := hmax
    have : ¬ (entry_invalid s.midi_channels
        ⟨(i : Int), (mode_bits (s.chan i) : Int), ((s.chan i).mode_val : Int)⟩ = true) := by
      rw [entry_invalid_iff]
      simp only
      rw [int_wrap_eq _ (by omega) (by omega)]
      omega
    simpa using this
  have hnw : ∀ e ∈ table, no_wrap e := by
    intro e he
    obtain ⟨i, hi, hib, rfl⟩ := hmemt e he
    have h1 := hinv.range_le_end i hi hib
    have hmax2 : (s.midi_channels : Int) ≤ 2147483647 := hmax
    unfold no_wrap
    simp only [Int.toNat_ofNat]
    show ((i : Nat) : Int) + (((s.chan i).mode_val : Nat) : Int) ≤ 2147483647
    omega
  have hlen : table.length ≤ s.midi_channels := basic_channel_table_length_le s
  have hr : r = table.foldl apply_basic_channel (FLUID_OK, prepared s table) := by
    show fluid_synth_reset_basic_channels s table.length (some table) = _
    rw [reset_basic_channels_checked s table.length table (by omega) (by omega) hvalid, htake]
  set start := prepared s table with hstart
  -- the prepared state has the basic channels of `s`
  have hsb0 : same_basic s start := by
    refine ⟨midi_channels_prepared s table, ?_⟩
    intro j
    rw [Bool.eq_iff_iff, is_basic_prepared s table j]
    constructor
    · rintro ⟨⟨e, he, hj⟩, -⟩
      obtain ⟨i, -, hib, rfl⟩ := hmemt e he
      have : i = j := by simpa using hj
      rw [← this]; exact hib
    · intro hj
      have hjn := is_basic_lt s j hj
      exact ⟨⟨_, (mem_basic_channel_table s _).mpr ⟨j, hjn, hj, rfl⟩, by simp⟩, hjn⟩
  have hge : ∀ b, group_end start b = group_end s b := group_end_same_basic s start hsb0
  have hb : ∀ e ∈ table, is_basic (start.chan e.basicchan.toNat) = true := by
    intro e he
    obtain ⟨i, -, hib, rfl⟩ := hmemt e he
    rw [hsb0.2]; simpa using hib
  -- the end of the enabled range that the entry of a basic channel asks for
  have hlbr : ∀ i, is_basic (s.chan i) = true →
      enabled_end i (mode_bits (s.chan i)) (s.chan i).mode_val (group_end s i) =
        i + (s.chan i).mode_val := by
    intro i hib
    obtain ⟨w1, w2, w3⟩ := hw i (is_basic_lt s i hib) hib
    have hm := mode_bits_lt (s.chan i)
    unfold enabled_end
    by_cases h2 : mode_bits (s.chan i) = FLUID_CHANNEL_MODE_OMNIOFF_POLY
    · rw [if_pos h2, w3 h2]
    · rw [if_neg h2]
      by_cases h3 : mode_bits (s.chan i) = FLUID_CHANNEL_MODE_OMNIOFF_MONO ∧
          (s.chan i).mode_val > 0
      · rw [if_pos h3]
      · rw [if_neg h3]
        have h01 : mode_bits (s.chan i) = FLUID_CHANNEL_MODE_OMNION_POLY ∨
            mode_bits (s.chan i) = FLUID_CHANNEL_MODE_OMNION_MONO := by
          simp only [FLUID_CHANNEL_MODE_OMNIOFF_POLY, FLUID_CHANNEL_MODE_OMNIOFF_MONO,
            FLUID_CHANNEL_MODE_OMNION_POLY, FLUID_CHANNEL_MODE_OMNION_MONO] at h2 h3 ⊢
          omega
        exact (w2 h01).symm
  have hstatic : ∀ e ∈ table, (fluid_synth_set_basic_channel_LOCAL start e.basicchan.toNat
      e.mode.toNat e.val.toNat).1 = FLUID_OK := by
    intro e he
    obtain ⟨i, hi, hib, rfl⟩ := hmemt e he
    rw [LOCAL_ok_iff _ _ _ _ (hnw _ he)]
    simp only [Int.toNat_ofNat]
    rw [and_three_of_lt _ (mode_bits_lt (s.chan i)), hge, hlbr i hib, hsb0.1]
    exact ⟨hi, group_end_ge_width s hinv i hib⟩
  have hok : r.1 = FLUID_OK := by
    rw [hr, apply_loop_ok_iff start table hnw start (same_basic_refl start) hb]
    exact hstatic
  have hr2 : r.2 = table.foldl apply_entry start := by
    rw [hr]; exact apply_loop_state table _ start
  have hsb : same_basic s r.2 := by
    rw [hr2]
    exact same_basic_trans s start _ hsb0
      (apply_loop_same_basic start table hnw start (same_basic_refl start) hb)
  have hinv' : partition_inv r.2 := by
    rw [hr, apply_loop_state]
    have := apply_loop_partition_inv table FLUID_OK start
      (all_disabled_partition_inv _ (all_disabled_prepared s table))
    rw [apply_loop_state] at this
    exact this
  have hnb0' : nonbasic_val_zero r.2 := by
    rw [hr]
    exact apply_loop_nonbasic_val table hnw _ _
      (all_disabled_nonbasic_val _ (all_disabled_prepared s table))
  -- the fields of the group of a basic channel
  have hgroup : ∀ L, is_basic (s.chan L) = true → ∀ i, L ≤ i → i < group_end s L →
      (is_enabled (r.2.chan i) = true ↔ i < L + (s.chan L).mode_val) ∧
      mode_bits (r.2.chan i) = (if i < L + (s.chan L).mode_val then mode_bits (s.chan L) else 0) ∧
      (r.2.chan i).mode_val = (if i = L then (s.chan L).mode_val else 0) := by
    intro L hLb i hi1 hi2
    have hLn := is_basic_lt s L hLb
    obtain ⟨l1, e, l2, hsplit, heb, hl2⟩ := exists_last_entry table (L : Int)
      ⟨_, (mem_basic_channel_table s _).mpr ⟨L, hLn, hLb, rfl⟩, rfl⟩
    have he : e ∈ table := by
      rw [hsplit]; exact List.mem_append_right _ (List.mem_cons_self _ _)
    obtain ⟨k, -, -, hek⟩ := hmemt e he
    have hkL : k = L := by
      rw [hek] at heb
      simpa using heb
    subst hkL
    have hl2' : ∀ x ∈ l2, x.basicchan.toNat ≠ e.basicchan.toNat := by
      intro x hx hc
      have hxt : x ∈ table := by
        rw [hsplit]; exact List.mem_append_right _ (List.mem_cons_of_mem _ hx)
      obtain ⟨k', -, -, hxk⟩ := hmemt x hxt
      apply hl2 x hx
      rw [hek] at hc
      rw [hxk] at hc ⊢
      simp only [Int.toNat_ofNat] at hc
      simp only [hc]
    have hm : e.mode.toNat < 4 := by
      rw [hek]; simpa using mode_bits_lt (s.chan k)
    have key := apply_loop_last_entry start l1 l2 e (by rw [← hsplit]; exact hnw)
      (by rw [← hsplit]; exact hb) (by rw [← hsplit]; exact hstatic) hl2' hm
    rw [← hsplit, ← hr2] at key
    obtain ⟨-, -, k3⟩ := key
    rw [hek] at k3
    simp only [Int.toNat_ofNat] at k3
    rw [hge, hlbr k hLb] at k3
    obtain ⟨q1, -, q3, q4⟩ := k3 i hi1 hi2
    refine ⟨q1, q3, ?_⟩
    rw [q4]
    by_cases hik : i = k
    · simp [hik]
    · simp [hik]
  refine ⟨hget, hok, ?_⟩
  intro i
  have hbi : is_basic (r.2.chan i) = is_basic (s.chan i) := hsb.2 i
  refine ⟨hbi, ?_⟩
  rcases Nat.lt_or_ge i s.midi_channels with hin | hin
  · rcases nearest_basic s i with hno | ⟨L, hL1, hL2, hL3⟩
    · -- no basic channel at or below `i`
      have hno' : ∀ j, j ≤ i → is_basic (r.2.chan j) = false := by
        intro j hj; rw [hsb.2 j]; exact hno j hj
      have e1 := hinv.orphan i hin hno
      have e2 := hinv'.orphan i (by rw [hsb.1]; exact hin) hno'
      have v1 := hnb0 i hin (hno i (le_refl _))
      have v2 := hnb0' i (by rw [hsb.1]; exact hin) (hno' i (le_refl _))
      refine ⟨by rw [e1, e2], by rw [v1, v2], ?_⟩
      intro hc
      rw [hno i (le_refl _)] at hc; exact absurd hc (by decide)
    · have hLn := is_basic_lt s L hL2
      have hig : i < group_end s L := lt_group_end_of_not_basic s L i hLn hin hL3
      obtain ⟨g1, g2, g3⟩ := hgroup L hL2 i hL1 hig
      have hen := hinv.enabled_iff L i hL1 hin hL2 hL3
      refine ⟨?_, ?_, ?_⟩
      · rw [Bool.eq_iff_iff, g1, hen]
      · rw [g3]
        by_cases hiL : i = L
        · subst hiL; simp
        · have hnb : is_basic (s.chan i) = false := hL3 i (by omega) (le_refl _)
          rw [hnb0 i hin hnb]
          simp [hiL]
      · intro hib
        have hiL : i = L := by
          by_contra hc
          have := hL3 i (by omega) (le_refl _)
          rw [hib] at this; exact absurd this (by decide)
        subst hiL
        rw [g2]
        obtain ⟨w1, -, -⟩ := hw i hin hL2
        have : i < i + (s.chan i).mode_val := by omega
        rw [if_pos this]
  · rw [chan_of_ge r.2 i (by rw [hsb.1]; exact hin), chan_of_ge s i hin]
    exact ⟨rfl, rfl, fun _ => rfl⟩

/-- C7 (amended): in every state reached from the default state of a synth with at least
one channel (and at most `INT_MAX`: the channel count is an `int`) by calls that each
return `FLUID_OK` and in which no sum `basicchan + val` exceeds `INT_MAX`,
`fluid_synth_get_basic_channels` returns a count and a table with which
`fluid_synth_reset_basic_channels` returns `FLUID_OK` and reproduces the partition: the
same basic channels, each with the same mode and the same `mode_val`, and the same enabled
flag on every channel. -/
theorem get_reset_round_trip (s : fluid_synth_t) (h : ReachableOK s)
    (hN : 0 < s.midi_channels) (hmax : (s.midi_channels : Int) ≤ INT_MAX) :
    ∃ (n : Int) (table : List fluid_basic_channel_infos_t),
      fluid_synth_get_basic_channels s true true = (n, some table) ∧
      (fluid_synth_reset_basic_channels s n (some table)).1 = FLUID_OK ∧
      ∀ i,
        is_basic ((fluid_synth_reset_basic_channels s n (some table)).2.chan i) =
          is_basic (s.chan i) ∧
        is_enabled ((fluid_synth_reset_basic_channels s n (some table)).2.chan i) =
          is_enabled (s.chan i) ∧
        ((fluid_synth_reset_basic_channels s n (some table)).2.chan i).mode_val =
          (s.chan i).mode_val ∧
        (is_basic (s.chan i) = true →
          mode_bits ((fluid_synth_reset_basic_channels s n (some table)).2.chan i) =
            mode_bits (s.chan i)) :=
  ⟨_, _, round_trip_of_inv s hmax (reachable_partition_inv s (reachableOK_reachable s h))
    (reachableOK_nonbasic_val s h) (reachableOK_width_by_mode s h)
    (reachableOK_has_basic s h hN)⟩

/-- Witness of C7 (amended): the state after the insertion of basic channel 3 in
Omni-Off/Poly on the default partition of eight channels. -/
theorem get_reset_round_trip_witness :
    ReachableOK synth_insert_3 ∧ 0 < synth_insert_3.midi_channels ∧
    (synth_insert_3.midi_channels : Int) ≤ INT_MAX ∧
    ∃ (n : Int) (table : List fluid_basic_channel_infos_t),
      fluid_synth_get_basic_channels synth_insert_3 true true = (n, some table) ∧
      (fluid_synth_reset_basic_channels synth_insert_3 n (some table)).1 = FLUID_OK ∧
      ∀ i,
        is_basic ((fluid_synth_reset_basic_channels synth_insert_3 n (some table)).2.chan i) =
          is_basic (synth_insert_3.chan i) ∧
        is_enabled ((fluid_synth_reset_basic_channels synth_insert_3 n (some table)).2.chan i) =
          is_enabled (synth_insert_3.chan i) ∧
        ((fluid_synth_reset_basic_channels synth_insert_3 n (some table)).2.chan i).mode_val =
          (synth_insert_3.chan i).mode_val ∧
        (is_basic (synth_insert_3.chan i) = true →
          mode_bits ((fluid_synth_reset_basic_channels synth_insert_3 n (some table)).2.chan i) =
            mode_bits (synth_insert_3.chan i)) :=
  ⟨reachableOK_synth_insert_3, by decide, by decide,
    get_reset_round_trip synth_insert_3 reachableOK_synth_insert_3 (by decide) (by decide)⟩

/-- Counterexample to C7 as stated: the state left by a bulk replace that returns
`FLUID_FAILED` (its first entry reaches past basic channel 4, its second is applied) is
reachable, its basic channel 0 is disabled with `mode_val` 0, and the bulk replace with the
table `fluid_synth_get_basic_channels` returns for it enables channel 0 with `mode_val` 4. -/
theorem get_reset_round_trip_counterexample :
    Reachable synth_failed_replace ∧
    fluid_synth_get_basic_channels synth_failed_replace true true =
      (2, some [⟨0, 0, 0⟩, ⟨4, 0, 4⟩]) ∧
    (fluid_synth_reset_basic_channels synth_failed_replace 2
      (some [⟨0, 0, 0⟩, ⟨4, 0, 4⟩])).1 = FLUID_OK ∧
    is_enabled (synth_failed_replace.chan 0) = false ∧
    is_enabled ((fluid_synth_reset_basic_channels synth_failed_replace 2
      (some [⟨0, 0, 0⟩, ⟨4, 0, 4⟩])).2.chan 0) = true ∧
    (synth_failed_replace.chan 0).mode_val = 0 ∧
    ((fluid_synth_reset_basic_channels synth_failed_replace 2
      (some [⟨0, 0, 0⟩, ⟨4, 0, 4⟩])).2.chan 0).mode_val = 4 :=
  ⟨Reachable.reset_basic_channels _ _ _ (Reachable.default _), by decide, by decide, by decide,
    by decide, by decide, by decide⟩

/-! ## Empty replace -/

theorem reset_basic_channels_no_entries (s : fluid_synth_t) (n : Int)
    (infos : Option (List fluid_basic_channel_infos_t))
    (h : n = 0 ∨ (infos = none ∧ 0 ≤ n ∧ n ≤ s.midi_channels)) :
    fluid_synth_reset_basic_channels s n infos =
      fluid_synth_set_basic_channel_LOCAL (clear_basic_channels s) 0
        FLUID_CHANNEL_MODE_OMNION_POLY 0 := by
  unfold fluid_synth_reset_basic_channels
  rcases h with h | ⟨h1, h2, h3⟩
  · subst h
    simp
  · subst h1
    have h4 : ¬ (n > (s.midi_channels : Int)) := by omega
    simp [h2, h4]

theorem group_end_clear (s : fluid_synth_t) (b : Nat) (hb : b < s.midi_channels) :
    group_end (clear_basic_channels s) b = s.midi_channels := by
  have hb' : b < (clear_basic_channels s).midi_channels := by
    rw [midi_channels_clear]; exact hb
  apply is_group_end_unique (clear_basic_channels s) b
  · exact group_end_spec _ b hb'
  · refine ⟨hb, by rw [midi_channels_clear], ?_, ?_⟩
    · intro j _ _; exact (clear_flags s j).1
    · intro hc; rw [midi_channels_clear] at hc; omega

/-- C11 (amended): on a synth with at least one channel,
`fluid_synth_reset_basic_channels` with no entries (`n = 0`, or a NULL array with
`0 ≤ n ≤ N`) returns `FLUID_OK` and yields the single default group whatever the prior
state: channel 0 is the only basic channel, every channel is enabled in Omni-On/Poly, and
`mode_val` is `N` on channel 0 and 0 on every other channel. -/
theorem reset_basic_channels_empty (s : fluid_synth_t) (n : Int)
    (infos : Option (List fluid_basic_channel_infos_t)) (hN : 0 < s.midi_channels)
    (h : n = 0 ∨ (infos = none ∧ 0 ≤ n ∧ n ≤ s.midi_channels)) :
    (fluid_synth_reset_basic_channels s n infos).1 = FLUID_OK ∧
    (fluid_synth_reset_basic_channels s n infos).2.midi_channels = s.midi_channels ∧
    ∀ i, i < s.midi_channels →
      (is_basic ((fluid_synth_reset_basic_channels s n infos).2.chan i) = true ↔ i = 0) ∧
      is_enabled ((fluid_synth_reset_basic_channels s n infos).2.chan i) = true ∧
      mode_bits ((fluid_synth_reset_basic_channels s n infos).2.chan i) =
        FLUID_CHANNEL_MODE_OMNION_POLY ∧
      ((fluid_synth_reset_basic_channels s n infos).2.chan i).mode_val =
        (if i = 0 then s.midi_channels else 0) := by
  rw [reset_basic_channels_no_entries s n infos h]
  have hg := group_end_clear s 0 hN
  have hok : (fluid_synth_set_basic_channel_LOCAL (clear_basic_channels s) 0
      FLUID_CHANNEL_MODE_OMNION_POLY 0).1 = FLUID_OK := by
    rw [LOCAL_ok_iff _ _ _ _ (by decide), midi_channels_clear]
    exact ⟨hN, by simp [enabled_end]⟩
  refine ⟨hok, by rw [midi_channels_LOCAL, midi_channels_clear], ?_⟩
  intro i hi
  obtain ⟨v1, v2, v3, v4⟩ :=
    LOCAL_ok_view_exact (clear_basic_channels s) 0 _ 0 (by decide) hok i
  rw [hg] at v1 v2 v3 v4
  have hin : 0 ≤ i ∧ i < s.midi_channels := ⟨Nat.zero_le _, hi⟩
  have hlbr : enabled_end 0 (FLUID_CHANNEL_MODE_OMNION_POLY &&& 3) 0 s.midi_channels =
      s.midi_channels := by simp [enabled_end]
  rw [hlbr] at v2 v3 v4
  simp only [hin, and_self, if_true] at v1 v2 v3 v4
  refine ⟨by rw [v1]; simp, by rw [v2]; simp [hi], by rw [v3]; simp [hi], ?_⟩
  rw [v4]
  simp

/-- Witness of C11 (amended): the empty replace on the state with basic channels 0 and 3. -/
theorem reset_basic_channels_empty_witness :
    (fluid_synth_reset_basic_channels synth_insert_3 0 (some [])).1 = FLUID_OK ∧
    ((fluid_synth_reset_basic_channels synth_insert_3 0 (some [])).2.channel.map
        fun c => (is_basic c, is_enabled c, mode_bits c, c.mode_val)) =
      [(true, true, 0, 8), (false, true, 0, 0), (false, true, 0, 0), (false, true, 0, 0),
       (false, true, 0, 0), (false, true, 0, 0), (false, true, 0, 0), (false, true, 0, 0)] ∧
    (fluid_synth_reset_basic_channels synth_insert_3 0 (some [])).2.midi_channels =
      synth_insert_3.midi_channels :=
  ⟨by decide, by decide,
    (reset_basic_channels_empty synth_insert_3 0 (some []) (by decide) (Or.inl rfl)).2.1⟩

/-- Counterexample to C11 as stated: with a NULL array and an entry count 9 on eight
channels the count check fails the call before it looks at the array, and the partition
keeps its basic channel 3. -/
theorem reset_basic_channels_empty_counterexample :
    synth_insert_3.midi_channels = 8 ∧
    (fluid_synth_reset_basic_channels synth_insert_3 9 none).1 = FLUID_FAILED ∧
    is_basic ((fluid_synth_reset_basic_channels synth_insert_3 9 none).2.chan 3) = true :=
  ⟨by decide, by decide, by decide⟩

/-! ## `fluid_synth_get_channel_mode` -/

/-- C12: `fluid_synth_get_channel_mode` returns `FLUID_FAILED` exactly when the channel is
outside `[0, N)` or the output struct is absent, and `FLUID_OK` otherwise; it then reports
the flag word and the `mode_val` stored at the channel, and as basic channel the greatest
basic index at or below the channel when the channel is enabled (`-1` when there is none)
and `-1` when it is disabled. The function returns no synth: it writes nothing to it. -/
theorem get_channel_mode_owner (s : fluid_synth_t) (chan : Int) (mode_infos : Bool) :
    ((fluid_synth_get_channel_mode s chan mode_infos).1 = FLUID_FAILED ↔
      (chan < 0 ∨ (s.midi_channels : Int) ≤ chan ∨ mode_infos = false)) ∧
    ((fluid_synth_get_channel_mode s chan mode_infos).1 = FLUID_FAILED ∨
      (fluid_synth_get_channel_mode s chan mode_infos).1 = FLUID_OK) ∧
    ((fluid_synth_get_channel_mode s chan mode_infos).1 = FLUID_OK →
      ∃ infos, (fluid_synth_get_channel_mode s chan mode_infos).2 = some infos ∧
        infos.mode = (s.chan chan.toNat).mode ∧
        infos.val = (s.chan chan.toNat).mode_val ∧
        (is_enabled (s.chan chan.toNat) = false → infos.basicchan = -1) ∧
        (is_enabled (s.chan chan.toNat) = true →
          (infos.basicchan = -1 ∧ ∀ j, j ≤ chan.toNat → is_basic (s.chan j) = false) ∨
          (∃ p : Nat, infos.basicchan = (p : Int) ∧ p ≤ chan.toNat ∧
            is_basic (s.chan p) = true ∧
            ∀ j, p < j → j ≤ chan.toNat → is_basic (s.chan j) = false))) := by
  by_cases hbad : chan < 0 ∨ (s.midi_channels : Int) ≤ chan ∨ mode_infos = false
  · have e : fluid_synth_get_channel_mode s chan mode_infos = (FLUID_FAILED, none) := by
      unfold fluid_synth_get_channel_mode
      rcases hbad with h | h | h
      · have : ¬ (chan ≥ 0) := by omega
        simp [this]
      · split_ifs <;> rfl
      · simp [h]
    rw [e]
    exact ⟨⟨fun _ => hbad, fun _ => rfl⟩, Or.inl rfl, fun hc => by simp at hc⟩
  · have h1 : 0 ≤ chan := by omega
    have h2 : ¬ (chan ≥ (s.midi_channels : Int)) := by omega
    have h3 : mode_infos = true := by
      cases mode_infos
      · exact absurd (Or.inr (Or.inr rfl)) hbad
      · rfl
    have e : fluid_synth_get_channel_mode s chan mode_infos =
        (FLUID_OK, some ⟨(if is_enabled (s.chan chan.toNat) then
            search_prev_basic_chan s (chan.toNat + 1) else -1),
          (s.chan chan.toNat).mode, (s.chan chan.toNat).mode_val⟩) := by
      unfold fluid_synth_get_channel_mode
      simp [h1, h2, h3]
    rw [e]
    refine ⟨⟨fun hc => by simp at hc, fun hc => absurd hc hbad⟩, Or.inr rfl, ?_⟩
    intro _
    refine ⟨_, rfl, rfl, rfl, ?_, ?_⟩
    · intro hd; simp [hd]
    · intro he
      simp only [he, if_true]
      rcases search_prev_spec s (chan.toNat + 1) with ⟨q1, q2⟩ | ⟨p, q1, q2, q3, q4⟩
      · left; exact ⟨q1, fun j hj => q2 j (by omega)⟩
      · right; exact ⟨p, q1, by omega, q3, fun j a c => q4 j a (by omega)⟩

/-- Witness of C12: after the insertion of basic channel 3 in Omni-Off/Poly on the default
partition of eight channels, channel 2 belongs to basic channel 0 and channel 5, which is
disabled, to none. -/
theorem get_channel_mode_owner_witness :
    fluid_synth_get_channel_mode synth_insert_3 2 true = (FLUID_OK, some ⟨0, 8, 0⟩) ∧
    fluid_synth_get_channel_mode synth_insert_3 5 true = (FLUID_OK, some ⟨-1, 0, 0⟩) ∧
    ((fluid_synth_get_channel_mode synth_insert_3 2 true).1 = FLUID_FAILED ↔
      ((2 : Int) < 0 ∨ (synth_insert_3.midi_channels : Int) ≤ 2 ∨ true = false)) :=
  ⟨by decide, by decide, (get_channel_mode_owner synth_insert_3 2 true).1⟩

/-! ## `fluid_synth_get_basic_channels` -/

theorem channel_eq_map_range (s : fluid_synth_t) :
    s.channel = (List.range s.midi_channels).map s.chan := by
  apply List.ext_getElem
  · simp [fluid_synth_t.midi_channels]
  · intro i h1 h2
    have hi : i < s.midi_channels := h1
    simp only [List.getElem_map, List.getElem_range]
    exact (chan_of_lt s i hi).symm

theorem count_basic_eq (s : fluid_synth_t) :
    ((List.range s.midi_channels).filter fun i => is_basic (s.chan i)).length =
      s.channel.countP is_basic := by
  conv_rhs => rw [channel_eq_map_range s]
  rw [List.countP_map, List.countP_eq_length_filter]
  rfl

theorem get_basic_channels_count (s : fluid_synth_t) (alloc_ok : Bool) :
    fluid_synth_get_basic_channels s false alloc_ok =
      (((s.channel.countP is_basic : Nat) : Int), none) := by
  have hc := count_loop (fun i => is_basic (s.chan i)) (List.range s.midi_channels) 0
  rw [Nat.zero_add, count_basic_eq] at hc
  unfold fluid_synth_get_basic_channels
  simp only [hc]
  simp

theorem basic_channel_table_sorted (s : fluid_synth_t) :
    ((basic_channel_table s).map fun e => e.basicchan).Pairwise (fun x y => x < y) := by
  rw [basic_channel_table_names, List.pairwise_map]
  apply List.Pairwise.imp _ ((List.pairwise_lt_range s.midi_channels).filter _)
  intro a b hab
  exact Int.ofNat_lt.mpr hab

/-- C13: `fluid_synth_get_basic_channels` returns the number of channels whose basic flag
is set; when the table is asked for (and allocated) and that number is positive, the table
holds exactly one triple (index, masked mode bits, `mode_val`) for each basic channel, in
strictly ascending index order, and its length is the returned count. The function returns
no synth: it writes nothing to it. -/
theorem get_basic_channels_enumerates (s : fluid_synth_t) :
    (∀ alloc_ok, fluid_synth_get_basic_channels s false alloc_ok =
      (((s.channel.countP is_basic : Nat) : Int), none)) ∧
    (fluid_synth_get_basic_channels s true true).1 = ((s.channel.countP is_basic : Nat) : Int) ∧
    (s.channel.countP is_basic = 0 → (fluid_synth_get_basic_channels s true true).2 = none) ∧
    (0 < s.channel.countP is_basic →
      ∃ table, (fluid_synth_get_basic_channels s true true).2 = some table ∧
        table.length = s.channel.countP is_basic ∧
        (table.map fun e => e.basicchan).Pairwise (fun x y => x < y) ∧
        (∀ e, e ∈ table ↔ ∃ i, i < s.midi_channels ∧ is_basic (s.chan i) = true ∧
          e = { basicchan := (i : Int), mode := (mode_bits (s.chan i) : Int),
                val := ((s.chan i).mode_val : Int) })) := by
  have hlen : (basic_channel_table s).length = s.channel.countP is_basic := by
    rw [basic_channel_table_length, count_basic_eq]
  have hget := get_basic_channels_eq s
  rw [hlen] at hget
  refine ⟨get_basic_channels_count s, ?_, ?_, ?_⟩
  · rw [hget]
    split_ifs with h
    · rfl
    · have : s.channel.countP is_basic = 0 := by simpa using h
      simp [this]
  · intro h0
    rw [hget]
    simp [h0]
  · intro hpos
    rw [hget, if_pos (Nat.ne_of_gt hpos)]
    exact ⟨basic_channel_table s, rfl, hlen, basic_channel_table_sorted s,
      mem_basic_channel_table s⟩

/-- Witness of C13: the state with basic channels 0 and 3 on eight channels. -/
theorem get_basic_channels_enumerates_witness :
    fluid_synth_get_basic_channels synth_insert_3 true true =
      (2, some [⟨0, 0, 3⟩, ⟨3, 2, 1⟩]) ∧
    (fluid_synth_get_basic_channels synth_insert_3 true true).1 =
      ((synth_insert_3.channel.countP is_basic : Nat) : Int) :=
  ⟨by decide, (get_basic_channels_enumerates synth_insert_3).2.1⟩

/-! ## Width bookkeeping -/

/-- In every state reached from the default state by calls that each return `FLUID_OK` and
in which no sum `basicchan + val` exceeds `INT_MAX`, `mode_val` is 0 on every channel that
is not basic, so `fluid_synth_get_channel_mode` reports `val = 0` for it, and for every
basic channel `L`, `L + mode_val L` is at most the index of the next basic channel after
`L` (the channel count if there is none). -/
theorem width_bookkeeping_exact (s : fluid_synth_t) (h : ReachableOK s) :
    (∀ i, i < s.midi_channels → is_basic (s.chan i) = false →
      (s.chan i).mode_val = 0 ∧
      ∃ infos, fluid_synth_get_channel_mode s i true = (FLUID_OK, some infos) ∧
        infos.val = 0) ∧
    (∀ L, L < s.midi_channels → is_basic (s.chan L) = true →
      L + (s.chan L).mode_val ≤ group_end s L) := by
  have hinv := reachable_partition_inv s (reachableOK_reachable s h)
  refine ⟨?_, fun L _ hL => group_end_ge_width s hinv L hL⟩
  intro i hi hnb
  have hv := reachableOK_nonbasic_val s h i hi hnb
  refine ⟨hv, ?_⟩
  have h2 : ¬ (((i : Nat) : Int) ≥ (s.midi_channels : Int)) := by omega
  unfold fluid_synth_get_channel_mode
  simp only [Bool.not_true, Bool.false_eq_true, if_false, ge_iff_le, Int.natCast_nonneg,
    not_true, Int.toNat_ofNat]
  rw [if_neg (by simpa using h2)]
  exact ⟨_, rfl, by simp [hv]⟩

/-- C15 fails on the code: on the default partition of eight channels the request
`(1, Omni-Off/Mono, INT_MAX)` passes the test `chan + val > midi_channels`, whose sum
wraps around, and returns `FLUID_OK`; in the state reached, channel 1 is not basic, its
`mode_val` is `INT_MAX`, and `fluid_synth_get_channel_mode` reports `val = INT_MAX` for
it. -/
theorem width_bookkeeping_overflow :
    Reachable synth_wrapped_1 ∧
    (fluid_synth_set_basic_channel (fluid_synth_reset_basic_channels (default_synth 8) 0 none).2
      (some ⟨1, 3, 2147483647⟩)).1 = FLUID_OK ∧
    synth_wrapped_1.midi_channels = 8 ∧
    is_basic (synth_wrapped_1.chan 1) = false ∧
    (synth_wrapped_1.chan 1).mode_val = 2147483647 ∧
    fluid_synth_get_channel_mode synth_wrapped_1 1 true =
      (FLUID_OK, some ⟨-1, 0, 2147483647⟩) :=
  ⟨Reachable.set_basic_channel _ _ (Reachable.default _), by decide, by decide, by decide,
    by decide, by decide⟩

/-! ## The all-notes-off side effect -/

theorem narrowed_synth_facts (s : fluid_synth_t) (b : Nat) (hb : b < s.midi_channels) :
    (narrowed_synth s b).midi_channels = s.midi_channels ∧
    (narrowed_synth s b).notes_off = s.notes_off ∧
    ∀ j, (narrowed_synth s b).chan j = narrowed_chan s b j := by
  unfold narrowed_synth
  refine ⟨?_, ?_, ?_⟩
  · split_ifs
    · exact midi_channels_set_chan _ _ _
    · rfl
  · split_ifs <;> rfl
  · intro j
    unfold narrowed_chan
    rcases prev_basic_chan_of_spec s b with hp | ⟨p, hp, hpb, -⟩
    · have : prev_basic_chan_of s b ≠ (j : Int) := by omega
      simp [hp, this]
    · rw [hp]
      simp only [Int.toNat_ofNat, ge_iff_le, Int.natCast_nonneg, if_true]
      by_cases hpj : p = j
      · subst hpj
        rw [chan_set_chan_eq _ _ _ (by omega)]
        have : ((b : Int) - (p : Int)).toNat = b - p := by omega
        simp [this]
      · rw [chan_set_chan_ne _ _ _ _ hpj]
        have : ¬ ((p : Int) = (j : Int)) := by omega
        simp [this]

theorem LOCAL_ok_state (s : fluid_synth_t) (b mode val : Nat)
    (h : (fluid_synth_set_basic_channel_LOCAL s b mode val).1 = FLUID_OK) :
    (fluid_synth_set_basic_channel_LOCAL s b mode val).2 =
      (state_at_iteration s b mode val (group_end s b)).1 := by
  obtain ⟨hb, hl, -⟩ := LOCAL_ok_spec s b mode val h
  rw [LOCAL_unfold s b mode val hb]
  simp only [show ¬ (begin_range b (mode &&& 3) val (group_end s b) > group_end s b) from
    by omega, if_false]
  rfl

/-- The state in which the write loop reaches index `i`, the state right after the
all-notes-off of that iteration, and the state after the iteration. -/
theorem state_at_iteration_spec (s : fluid_synth_t) (b mode val i : Nat)
    (hb : b < s.midi_channels) (hi1 : b ≤ i) (hi2 : i < group_end s b) :
    (state_at_iteration s b mode val i).1.notes_off =
      s.notes_off ++ (List.range' b (i - b)).map (fun j => (j, s.chan j)) ∧
    (state_at_iteration s b mode val i).1.chan i = s.chan i ∧
    (fluid_synth_all_notes_off_LOCAL (state_at_iteration s b mode val i).1 i).notes_off =
      s.notes_off ++ (List.range' b (i - b)).map (fun j => (j, s.chan j)) ++ [(i, s.chan i)] ∧
    (fluid_synth_all_notes_off_LOCAL (state_at_iteration s b mode val i).1 i).chan i =
      s.chan i ∧
    state_at_iteration s b mode val (i + 1) =
      set_basic_channel_step b (mode &&& 3)
        (begin_range b (mode &&& 3) val (group_end s b))
        (state_at_iteration s b mode val i) i ∧
    (state_at_iteration s b mode val (i + 1)).1 =
      (fluid_synth_all_notes_off_LOCAL (state_at_iteration s b mode val i).1 i).set_chan i
        (written_chan b (mode &&& 3) (begin_range b (mode &&& 3) val (group_end s b))
          (state_at_iteration s b mode val i).2
          ((fluid_synth_all_notes_off_LOCAL (state_at_iteration s b mode val i).1 i).chan i)
          i) := by
  obtain ⟨n1, n2, n3⟩ := narrowed_synth_facts s b hb
  have hg := group_end_spec s b hb
  have hkeep : ∀ j, b ≤ j → (narrowed_synth s b).chan j = s.chan j := by
    intro j hj
    rw [n3]
    unfold narrowed_chan
    rcases prev_basic_chan_of_spec s b with hp | ⟨p, hp, hpb, -⟩
    · have : ¬ (prev_basic_chan_of s b = (j : Int)) := by omega
      rw [if_neg this]
    · have : ¬ (prev_basic_chan_of s b = (j : Int)) := by omega
      rw [if_neg this]
  obtain ⟨w1, w2, w3⟩ := write_loop_spec b (mode &&& 3)
    (begin_range b (mode &&& 3) val (group_end s b)) (i - b) b (narrowed_synth s b)
    (begin_val b (mode &&& 3) val (group_end s b)) (le_refl _)
    (by rw [n1]; have := hg.2.1; omega)
  have hmap : (List.range' b (i - b)).map (fun j => (j, (narrowed_synth s b).chan j)) =
      (List.range' b (i - b)).map (fun j => (j, s.chan j)) := by
    apply List.map_congr_left
    intro j hj
    rw [List.mem_range'_1] at hj
    rw [hkeep j hj.1]
  have hlog : (state_at_iteration s b mode val i).1.notes_off =
      s.notes_off ++ (List.range' b (i - b)).map (fun j => (j, s.chan j)) := by
    unfold state_at_iteration; rw [w2, n2, hmap]
  have hchan : (state_at_iteration s b mode val i).1.chan i = s.chan i := by
    unfold state_at_iteration
    rw [w3 i]
    have hout : ¬ (b ≤ i ∧ i < b + (i - b)) := by omega
    rw [if_neg hout, hkeep i hi1]
  have hstep : state_at_iteration s b mode val (i + 1) =
      set_basic_channel_step b (mode &&& 3)
        (begin_range b (mode &&& 3) val (group_end s b))
        (state_at_iteration s b mode val i) i := by
    unfold state_at_iteration
    have e1 : i + 1 - b = (i - b) + 1 := by omega
    have e2 : b + (i - b) = i := by omega
    rw [e1, List.range'_concat, List.foldl_append]
    simp only [Nat.one_mul, e2, List.foldl_cons, List.foldl_nil]
  refine ⟨hlog, hchan, ?_, hchan, hstep, ?_⟩
  · show (state_at_iteration s b mode val i).1.notes_off ++
      [(i, (state_at_iteration s b mode val i).1.chan i)] = _
    rw [hlog, hchan]
  · rw [hstep, step_eq]
    rfl

/-- C14: a successful `fluid_synth_set_basic_channel (b, mode, val)`, with `groupEnd` the
next basic channel after `b` or `N`, issues all-notes-off for the channels
`b, b+1, ..., groupEnd-1`, once each, in ascending order, and for no other channel, whatever
the old and new modes are. The log keeps, with each notified channel, the record the
channel has at the moment of the call: for channel `i` that record is the one found before
the call, so the notification precedes the write of the channel, and the iteration
rewrites the record afterwards. -/
theorem set_basic_channel_notes_off (s : fluid_synth_t) (b mode val : Int)
    (h : (fluid_synth_set_basic_channel s (some ⟨b, mode, val⟩)).1 = FLUID_OK) :
    let s' := (fluid_synth_set_basic_channel s (some ⟨b, mode, val⟩)).2
    let groupEnd := group_end s b.toNat
    let issued := List.range' b.toNat (groupEnd - b.toNat)
    s'.notes_off = s.notes_off ++ issued.map (fun i => (i, s.chan i)) ∧
    issued.Pairwise (fun x y => x < y) ∧
    (∀ i, issued.count i = if b.toNat ≤ i ∧ i < groupEnd then 1 else 0) ∧
    s' = (state_at_iteration s b.toNat mode.toNat val.toNat groupEnd).1 ∧
    ∀ i, b.toNat ≤ i → i < groupEnd →
      let before := (state_at_iteration s b.toNat mode.toNat val.toNat i).1
      let notified := fluid_synth_all_notes_off_LOCAL before i
      let after := (state_at_iteration s b.toNat mode.toNat val.toNat (i + 1)).1
      before.notes_off =
        s.notes_off ++ (List.range' b.toNat (i - b.toNat)).map (fun j => (j, s.chan j)) ∧
      before.chan i = s.chan i ∧
      notified.notes_off = before.notes_off ++ [(i, s.chan i)] ∧
      notified.chan i = s.chan i ∧
      after = notified.set_chan i
        (written_chan b.toNat (mode.toNat &&& 3)
          (begin_range b.toNat (mode.toNat &&& 3) val.toNat groupEnd)
          (state_at_iteration s b.toNat mode.toNat val.toNat i).2 (notified.chan i) i) ∧
      s'.chan i =
        written_chan b.toNat (mode.toNat &&& 3)
          (begin_range b.toNat (mode.toNat &&& 3) val.toNat groupEnd)
          (begin_val b.toNat (mode.toNat &&& 3) val.toNat groupEnd) (s.chan i) i := by
  intro s' groupEnd issued
  rcases set_basic_channel_cases s b mode val with ⟨e, -⟩ | ⟨e, -⟩
  · rw [e] at h; simp at h
  · have hs' : s' = (fluid_synth_set_basic_channel_LOCAL s b.toNat mode.toNat val.toNat).2 := by
      show (fluid_synth_set_basic_channel s (some ⟨b, mode, val⟩)).2 = _
      rw [e]
    rw [e] at h
    obtain ⟨hb, -, -, hlog, hchan⟩ := LOCAL_ok_spec s b.toNat mode.toNat val.toNat h
    have hg := group_end_spec s b.toNat hb
    refine ⟨by rw [hs']; exact hlog, List.pairwise_lt_range' _ _, ?_, ?_, ?_⟩
    · intro i
      by_cases hin : b.toNat ≤ i ∧ i < groupEnd
      · rw [if_pos hin]
        apply List.count_eq_one_of_mem (List.nodup_range' _ _)
        rw [List.mem_range'_1]
        have := hg.1
        omega
      · rw [if_neg hin]
        apply List.count_eq_zero_of_not_mem
        rw [List.mem_range'_1]
        omega
    · rw [hs']; exact LOCAL_ok_state s _ _ _ h
    · intro i hi1 hi2 before notified after
      obtain ⟨q1, q2, q3, q4, -, q6⟩ :=
        state_at_iteration_spec s b.toNat mode.toNat val.toNat i hb hi1 hi2
      refine ⟨q1, q2, ?_, q4, q6, ?_⟩
      · show notified.notes_off = before.notes_off ++ [(i, s.chan i)]
        rw [q1]; exact q3
      · rw [hs', hchan i, if_pos ⟨hi1, hi2⟩]

/-- Witness of C14: the insertion of basic channel 3 on the default partition of eight
channels issues all-notes-off for the channels 3..7, each still enabled in Omni-On/Poly
(flag word 8) at that moment, and not for the channels 0..2 of the narrowed basic
channel 0. -/
theorem set_basic_channel_notes_off_witness :
    (fluid_synth_set_basic_channel (default_synth 8) (some ⟨3, 2, 0⟩)).1 = FLUID_OK ∧
    (fluid_synth_set_basic_channel (default_synth 8) (some ⟨3, 2, 0⟩)).2.notes_off =
      [(3, ⟨8, 0, 0, 0⟩), (4, ⟨8, 0, 0, 0⟩), (5, ⟨8, 0, 0, 0⟩), (6, ⟨8, 0, 0, 0⟩),
       (7, ⟨8, 0, 0, 0⟩)] ∧
    ((fluid_synth_set_basic_channel (default_synth 8) (some ⟨3, 2, 0⟩)).2.channel.map
        fun c => c.mode) = [12, 8, 8, 14, 0, 0, 0, 0] ∧
    (fluid_synth_set_basic_channel (default_synth 8) (some ⟨3, 2, 0⟩)).2.notes_off =
      (default_synth 8).notes_off ++
        (List.range' (3 : Int).toNat (group_end (default_synth 8) (3 : Int).toNat -
          (3 : Int).toNat)).map (fun i => (i, (default_synth 8).chan i)) :=
  ⟨by decide, by decide, by decide,
    (set_basic_channel_notes_off (default_synth 8) 3 2 0 (by decide)).1⟩

/-! ## Breath, legato and portamento modes -/

/-- C16 (amended): `fluid_synth_set_breath_mode` returns `FLUID_FAILED` exactly when the
channel is outside `[0, N)`, and then changes nothing; the value is not validated: for a
channel in range the call returns `FLUID_OK` whatever the value is, and it changes no other
channel. -/
theorem set_breath_mode_checks_channel (s : fluid_synth_t) (chan breathmode : Int) :
    ((fluid_synth_set_breath_mode s chan breathmode).1 = FLUID_FAILED ↔
      (chan < 0 ∨ (s.midi_channels : Int) ≤ chan)) ∧
    ((fluid_synth_set_breath_mode s chan breathmode).1 = FLUID_FAILED →
      (fluid_synth_set_breath_mode s chan breathmode).2 = s) ∧
    ((0 ≤ chan ∧ chan < s.midi_channels) →
      (fluid_synth_set_breath_mode s chan breathmode).1 = FLUID_OK ∧
      ∀ j, j ≠ chan.toNat →
        (fluid_synth_set_breath_mode s chan breathmode).2.chan j = s.chan j) := by
  by_cases hbad : chan < 0 ∨ (s.midi_channels : Int) ≤ chan
  · have e : fluid_synth_set_breath_mode s chan breathmode = (FLUID_FAILED, s) := by
      unfold fluid_synth_set_breath_mode
      split_ifs <;> first | rfl | omega
    rw [e]
    exact ⟨⟨fun _ => hbad, fun _ => rfl⟩, fun _ => rfl, fun hc => by omega⟩
  · have h1 : chan ≥ 0 := by omega
    have h2 : ¬ (chan ≥ (s.midi_channels : Int)) := by omega
    have e : fluid_synth_set_breath_mode s chan breathmode =
        (FLUID_OK, s.set_chan chan.toNat
          (fluid_channel_set_breath_info (s.chan chan.toNat) breathmode)) := by
      unfold fluid_synth_set_breath_mode
      simp only [h1, not_true, if_false, h2]
    rw [e]
    refine ⟨⟨fun hc => by simp at hc, fun hc => absurd hc hbad⟩, fun hc => by simp at hc, ?_⟩
    intro _
    exact ⟨rfl, fun j hj => chan_set_chan_ne _ _ _ _ (Ne.symm hj)⟩

/-- Witness of C16 (amended): channel 8 of an eight-channel synth. -/
theorem set_breath_mode_checks_channel_witness :
    (fluid_synth_set_breath_mode (default_synth 8) 8 16).1 = FLUID_FAILED ∧
    (fluid_synth_set_breath_mode (default_synth 8) 8 16).2 = default_synth 8 :=
  ⟨by decide,
    (set_breath_mode_checks_channel (default_synth 8) 8 16).2.1 (by decide)⟩

/-- Counterexample to C16 as stated: the value `-1` is no combination of breath flags, and
`fluid_synth_set_breath_mode` on channel 0 of an eight-channel synth returns `FLUID_OK` for
it and changes the breath flags of the channel. -/
theorem set_breath_mode_counterexample :
    ¬ breath_value_valid (-1) ∧
    (fluid_synth_set_breath_mode (default_synth 8) 0 (-1)).1 = FLUID_OK ∧
    fluid_channel_get_breath_info ((default_synth 8).chan 0) = 0 ∧
    fluid_channel_get_breath_info
      ((fluid_synth_set_breath_mode (default_synth 8) 0 (-1)).2.chan 0) = 112 := by
  refine ⟨?_, by decide, by decide, by decide⟩
  unfold breath_value_valid
  decide

theorem set_legato_mode_spec (last : Int) (s : fluid_synth_t) (chan v : Int) :
    ((fluid_synth_set_legato_mode last s chan v).1 = FLUID_FAILED ↔
      (chan < 0 ∨ (s.midi_channels : Int) ≤ chan ∨ v < 0 ∨ last ≤ v)) ∧
    ((fluid_synth_set_legato_mode last s chan v).1 = FLUID_FAILED ∨
      (fluid_synth_set_legato_mode last s chan v).1 = FLUID_OK) ∧
    ((fluid_synth_set_legato_mode last s chan v).1 = FLUID_FAILED →
      (fluid_synth_set_legato_mode last s chan v).2 = s) ∧
    ((fluid_synth_set_legato_mode last s chan v).1 = FLUID_OK →
      fluid_synth_get_legato_mode (fluid_synth_set_legato_mode last s chan v).2 chan true =
        (FLUID_OK, some v) ∧
      ∀ (c : Int) (out : Bool), c ≠ chan →
        fluid_synth_get_legato_mode (fluid_synth_set_legato_mode last s chan v).2 c out =
          fluid_synth_get_legato_mode s c out) := by
  by_cases hbad : chan < 0 ∨ (s.midi_channels : Int) ≤ chan ∨ v < 0 ∨ last ≤ v
  · have e : fluid_synth_set_legato_mode last s chan v = (FLUID_FAILED, s) := by
      unfold fluid_synth_set_legato_mode
      split_ifs <;> first | rfl | omega
    rw [e]
    exact ⟨⟨fun _ => hbad, fun _ => rfl⟩, Or.inl rfl, fun _ => rfl, fun hc => by simp at hc⟩
  · have h1 : chan ≥ 0 := by omega
    have h2 : ¬ (chan ≥ (s.midi_channels : Int)) := by omega
    have h3 : v ≥ 0 := by omega
    have h4 : v < last := by omega
    have e : fluid_synth_set_legato_mode last s chan v =
        (FLUID_OK, s.set_chan chan.toNat { s.chan chan.toNat with legatomode := v }) := by
      unfold fluid_synth_set_legato_mode
      simp only [h1, not_true, if_false, h2, h3, h4]
    rw [e]
    refine ⟨⟨fun hc => by simp at hc, fun hc => absurd hc hbad⟩, Or.inr rfl,
      fun hc => by simp at hc, ?_⟩
    intro _
    have hlt : chan.toNat < s.midi_channels := by omega
    constructor
    · unfold fluid_synth_get_legato_mode
      simp only [Bool.not_true, Bool.false_eq_true, if_false, h1, not_true,
        midi_channels_set_chan, h2]
      rw [chan_set_chan_eq _ _ _ hlt]
    · intro c out hc
      unfold fluid_synth_get_legato_mode
      simp only [midi_channels_set_chan]
      by_cases hc0 : c ≥ 0
      · have hne : chan.toNat ≠ c.toNat := by omega
        rw [chan_set_chan_ne _ _ _ _ hne]
      · simp only [hc0, not_false_eq_true, if_true]

theorem get_legato_mode_fails_iff (s : fluid_synth_t) (chan : Int) (out : Bool) :
    (fluid_synth_get_legato_mode s chan out).1 = FLUID_FAILED ↔
      (chan < 0 ∨ (s.midi_channels : Int) ≤ chan ∨ out = false) := by
  unfold fluid_synth_get_legato_mode
  cases out
  · simp
  · by_cases h1 : chan ≥ 0
    · by_cases h2 : chan ≥ (s.midi_channels : Int)
      · simp [h1, h2]
      · simp only [Bool.not_true, Bool.false_eq_true, if_false, h1, not_true, h2]
        constructor
        · intro hc; simp at hc
        · intro hc
          exfalso
          rcases hc with h | h | h <;>
            first | omega | exact h.elim | exact absurd h (by decide)
    · simp only [Bool.not_true, Bool.false_eq_true, if_false, h1, not_false_eq_true, if_true]
      constructor
      · intro _; left; omega
      · intro _; trivial

theorem set_portamento_mode_spec (last : Int) (s : fluid_synth_t) (chan v : Int) :
    ((fluid_synth_set_portamento_mode last s chan v).1 = FLUID_FAILED ↔
      (chan < 0 ∨ (s.midi_channels : Int) ≤ chan ∨ v < 0 ∨ last ≤ v)) ∧
    ((fluid_synth_set_portamento_mode last s chan v).1 = FLUID_FAILED ∨
      (fluid_synth_set_portamento_mode last s chan v).1 = FLUID_OK) ∧
    ((fluid_synth_set_portamento_mode last s chan v).1 = FLUID_FAILED →
      (fluid_synth_set_portamento_mode last s chan v).2 = s) ∧
    ((fluid_synth_set_portamento_mode last s chan v).1 = FLUID_OK →
      fluid_synth_get_portamento_mode (fluid_synth_set_portamento_mode last s chan v).2 chan
        true = (FLUID_OK, some v) ∧
      ∀ (c : Int) (out : Bool), c ≠ chan →
        fluid_synth_get_portamento_mode (fluid_synth_set_portamento_mode last s chan v).2 c
          out = fluid_synth_get_portamento_mode s c out) := by
  by_cases hbad : chan < 0 ∨ (s.midi_channels : Int) ≤ chan ∨ v < 0 ∨ last ≤ v
  · have e : fluid_synth_set_portamento_mode last s chan v = (FLUID_FAILED, s) := by
      unfold fluid_synth_set_portamento_mode
      split_ifs <;> first | rfl | omega
    rw [e]
    exact ⟨⟨fun _ => hbad, fun _ => rfl⟩, Or.inl rfl, fun _ => rfl, fun hc => by simp at hc⟩
  · have h1 : chan ≥ 0 := by omega
    have h2 : ¬ (chan ≥ (s.midi_channels : Int)) := by omega
    have h3 : v ≥ 0 := by omega
    have h4 : v < last := by omega
    have e : fluid_synth_set_portamento_mode last s chan v =
        (FLUID_OK, s.set_chan chan.toNat { s.chan chan.toNat with portamentomode := v }) := by
      unfold fluid_synth_set_portamento_mode
      simp only [h1, not_true, if_false, h2, h3, h4]
    rw [e]
    refine ⟨⟨fun hc => by simp at hc, fun hc => absurd hc hbad⟩, Or.inr rfl,
      fun hc => by simp at hc, ?_⟩
    intro _
    have hlt : chan.toNat < s.midi_channels := by omega
    constructor
    · unfold fluid_synth_get_portamento_mode
      simp only [Bool.not_true, Bool.false_eq_true, if_false, h1, not_true,
        midi_channels_set_chan, h2]
      rw [chan_set_chan_eq _ _ _ hlt]
    · intro c out hc
      unfold fluid_synth_get_portamento_mode
      simp only [midi_channels_set_chan]
      by_cases hc0 : c ≥ 0
      · have hne : chan.toNat ≠ c.toNat := by omega
        rw [chan_set_chan_ne _ _ _ _ hne]
      · simp only [hc0, not_false_eq_true, if_true]

theorem get_portamento_mode_fails_iff (s : fluid_synth_t) (chan : Int) (out : Bool) :
    (fluid_synth_get_portamento_mode s chan out).1 = FLUID_FAILED ↔
      (chan < 0 ∨ (s.midi_channels : Int) ≤ chan ∨ out = false) := by
  unfold fluid_synth_get_portamento_mode
  cases out
  · simp
  · by_cases h1 : chan ≥ 0
    · by_cases h2 : chan ≥ (s.midi_channels : Int)
      · simp [h1, h2]
      · simp only [Bool.not_true, Bool.false_eq_true, if_false, h1, not_true, h2]
        constructor
        · intro hc; simp at hc
        · intro hc
          exfalso
          rcases hc with h | h | h <;>
            first | omega | exact h.elim | exact absurd h (by decide)
    · simp only [Bool.not_true, Bool.false_eq_true, if_false, h1, not_false_eq_true, if_true]
      constructor
      · intro _; left; omega
      · intro _; trivial

/-- C17: for the legato mode and for the portamento mode, whatever the value of the
header constants `..._MODE_LAST` are: the set function returns `FLUID_FAILED` exactly when the
channel is outside `[0, N)` or the value is outside `[0, MODE_LAST)`, a failed set changes
nothing, after a successful set of `v` on a channel the get function returns `FLUID_OK`
with `v` on that channel and what it returned before on every other channel, and the get
function fails exactly when the channel is outside `[0, N)` or the output pointer is
absent. -/
theorem legato_portamento_set_get (legato_last portamento_last : Int) (s : fluid_synth_t) (chan v : Int) :
    (((fluid_synth_set_legato_mode legato_last s chan v).1 = FLUID_FAILED ↔
        (chan < 0 ∨ (s.midi_channels : Int) ≤ chan ∨ v < 0 ∨ legato_last ≤ v)) ∧
      ((fluid_synth_set_legato_mode legato_last s chan v).1 = FLUID_FAILED ∨
        (fluid_synth_set_legato_mode legato_last s chan v).1 = FLUID_OK) ∧
      ((fluid_synth_set_legato_mode legato_last s chan v).1 = FLUID_FAILED →
        (fluid_synth_set_legato_mode legato_last s chan v).2 = s) ∧
      ((fluid_synth_set_legato_mode legato_last s chan v).1 = FLUID_OK →
        fluid_synth_get_legato_mode (fluid_synth_set_legato_mode legato_last s chan v).2 chan true =
          (FLUID_OK, some v) ∧
        ∀ (c : Int) (out : Bool), c ≠ chan →
          fluid_synth_get_legato_mode (fluid_synth_set_legato_mode legato_last s chan v).2 c out =
            fluid_synth_get_legato_mode s c out) ∧
      (∀ out, (fluid_synth_get_legato_mode s chan out).1 = FLUID_FAILED ↔
        (chan < 0 ∨ (s.midi_channels : Int) ≤ chan ∨ out = false))) ∧
    (((fluid_synth_set_portamento_mode portamento_last s chan v).1 = FLUID_FAILED ↔
        (chan < 0 ∨ (s.midi_channels : Int) ≤ chan ∨ v < 0 ∨ portamento_last ≤ v)) ∧
      ((fluid_synth_set_portamento_mode portamento_last s chan v).1 = FLUID_FAILED ∨
        (fluid_synth_set_portamento_mode portamento_last s chan v).1 = FLUID_OK) ∧
      ((fluid_synth_set_portamento_mode portamento_last s chan v).1 = FLUID_FAILED →
        (fluid_synth_set_portamento_mode portamento_last s chan v).2 = s) ∧
      ((fluid_synth_set_portamento_mode portamento_last s chan v).1 = FLUID_OK →
        fluid_synth_get_portamento_mode (fluid_synth_set_portamento_mode portamento_last s chan v).2
          chan true = (FLUID_OK, some v) ∧
        ∀ (c : Int) (out : Bool), c ≠ chan →
          fluid_synth_get_portamento_mode (fluid_synth_set_portamento_mode portamento_last s chan v).2
            c out = fluid_synth_get_portamento_mode s c out) ∧
      (∀ out, (fluid_synth_get_portamento_mode s chan out).1 = FLUID_FAILED ↔
        (chan < 0 ∨ (s.midi_channels : Int) ≤ chan ∨ out = false))) := by
  obtain ⟨a1, a2, a3, a4⟩ := set_legato_mode_spec legato_last s chan v
  obtain ⟨b1, b2, b3, b4⟩ := set_portamento_mode_spec portamento_last s chan v
  exact ⟨⟨a1, a2, a3, a4, fun out => get_legato_mode_fails_iff s chan out⟩,
    ⟨b1, b2, b3, b4, fun out => get_portamento_mode_fails_iff s chan out⟩⟩

/-- Witness of C17: a mode enumeration with two values on an eight-channel synth: the value
1 is stored on channel 5 and read back, the value 2 is rejected. -/
theorem legato_portamento_set_get_witness :
    fluid_synth_get_legato_mode (fluid_synth_set_legato_mode 2 (default_synth 8) 5 1).2 5 true
      = (FLUID_OK, some 1) ∧
    (fluid_synth_set_portamento_mode 2 (default_synth 8) 5 2).1 = FLUID_FAILED ∧
    ((fluid_synth_set_legato_mode 2 (default_synth 8) 5 1).1 = FLUID_FAILED ↔
      ((5 : Int) < 0 ∨ ((default_synth 8).midi_channels : Int) ≤ 5 ∨ (1 : Int) < 0 ∨
        (2 : Int) ≤ 1)) :=
  ⟨by decide, by decide, (legato_portamento_set_get 2 3 (default_synth 8) 5 1).1.1⟩

/-! ## Frame and idempotence of `fluid_synth_set_basic_channel` -/

/-- A successful `fluid_synth_set_basic_channel (b, mode, val)`, with `groupEnd` the next
basic channel after `b` or `N`, leaves every channel outside `[b, groupEnd)` as it was,
except the `mode_val` of the narrowed previous basic channel: the flag word of every such
channel is unchanged, and its whole record is unchanged unless it is the nearest basic
channel below an enabled, non-basic `b`, whose `mode_val` becomes `b - j`. When the sum
`b + val` does not exceed `INT_MAX`, the basic channels after the call are the previous
ones and `b`. -/
theorem set_basic_channel_frame_exact (s : fluid_synth_t) (b mode val : Int)
    (h : (fluid_synth_set_basic_channel s (some ⟨b, mode, val⟩)).1 = FLUID_OK) :
    let s' := (fluid_synth_set_basic_channel s (some ⟨b, mode, val⟩)).2
    let groupEnd := group_end s b.toNat
    s'.midi_channels = s.midi_channels ∧
    (∀ j, ¬ (b.toNat ≤ j ∧ j < groupEnd) →
      (s'.chan j).mode = (s.chan j).mode ∧
      (s'.chan j).legatomode = (s.chan j).legatomode ∧
      (s'.chan j).portamentomode = (s.chan j).portamentomode ∧
      (s'.chan j = s.chan j ∨
        (j < b.toNat ∧ is_basic (s.chan j) = true ∧
          (∀ k, j < k → k < b.toNat → is_basic (s.chan k) = false) ∧
          is_enabled (s.chan b.toNat) = true ∧ is_basic (s.chan b.toNat) = false ∧
          (s'.chan j).mode_val = b.toNat - j))) ∧
    (b + val ≤ INT_MAX →
      ∀ j, is_basic (s'.chan j) = true ↔ (is_basic (s.chan j) = true ∨ j = b.toNat)) := by
  intro s' groupEnd
  rcases set_basic_channel_cases s b mode val with ⟨e, -⟩ | ⟨e, a1, a2, a3, a4, a5, a6⟩
  · rw [e] at h; simp at h
  · have hs' : s' = (fluid_synth_set_basic_channel_LOCAL s b.toNat mode.toNat val.toNat).2 := by
      show (fluid_synth_set_basic_channel s (some ⟨b, mode, val⟩)).2 = _
      rw [e]
    rw [e] at h
    obtain ⟨hb, -, hlen, -, hc⟩ := LOCAL_ok_spec s b.toNat mode.toNat val.toNat h
    obtain ⟨hg1, hg2, hg3, hg4⟩ := group_end_spec s b.toNat hb
    refine ⟨by rw [hs']; exact hlen, ?_, ?_⟩
    · intro j hout
      have hj : s'.chan j = narrowed_chan s b.toNat j := by
        rw [hs', hc j, if_neg hout]
      rw [hj]
      unfold narrowed_chan
      by_cases hp : prev_basic_chan_of s b.toNat = (j : Int)
      · rw [if_pos hp]
        refine ⟨rfl, rfl, rfl, Or.inr ?_⟩
        rcases prev_basic_chan_of_spec s b.toNat with hq | ⟨p, hq, hpb, hnb, hen, hpB, hnear⟩
        · omega
        · have hpj : p = j := by omega
          subst hpj
          exact ⟨hpb, hpB, hnear, hen, hnb, rfl⟩
      · rw [if_neg hp]
        exact ⟨rfl, rfl, rfl, Or.inl rfl⟩
    · intro hno j
      have hv := LOCAL_ok_view_exact s b.toNat mode.toNat val.toNat (by omega) h
      rw [hs', (hv j).1]
      by_cases hin : b.toNat ≤ j ∧ j < group_end s b.toNat
      · simp only [hin, and_self, if_true, decide_eq_true_eq]
        constructor
        · intro hjb; exact Or.inr hjb
        · rintro (hjB | hjb)
          · by_contra hne
            have := hg3 j (by omega) hin.2
            rw [hjB] at this; exact absurd this (by decide)
          · exact hjb
      · simp only [hin, if_false]
        constructor
        · intro hjB; exact Or.inl hjB
        · rintro (hjB | hjb)
          · exact hjB
          · exact absurd ⟨by omega, by omega⟩ hin

/-- C18 fails on the code: in the state with basic channels 0 and 3 on eight channels, the
request `(3, Omni-Off/Mono, INT_MAX)` passes the test `chan + val > midi_channels`, whose
sum wraps around, and returns `FLUID_OK`; the group of channel 3 is `[3, 8)`, and after the
call channel 3 is no basic channel any more: the call has removed a basic channel. -/
theorem set_basic_channel_frame_overflow :
    synth_insert_3.midi_channels = 8 ∧
    (synth_insert_3.channel.map fun c => is_basic c) =
      [true, false, false, true, false, false, false, false] ∧
    group_end synth_insert_3 3 = 8 ∧
    (fluid_synth_set_basic_channel synth_insert_3 (some ⟨3, 3, 2147483647⟩)).1 = FLUID_OK ∧
    ((fluid_synth_set_basic_channel synth_insert_3 (some ⟨3, 3, 2147483647⟩)).2.channel.map
        fun c => is_basic c) = [true, false, false, false, false, false, false, false] ∧
    ¬ (is_basic ((fluid_synth_set_basic_channel synth_insert_3
        (some ⟨3, 3, 2147483647⟩)).2.chan 3) = true ↔
      (is_basic (synth_insert_3.chan 3) = true ∨ 3 = (3 : Int).toNat)) := by
  refine ⟨by decide, by decide, by decide, by decide, by decide, by decide⟩

/-- The records after a successful call on a channel that is already basic, or that is
disabled. -/
theorem LOCAL_ok_chan_of_basic (s : fluid_synth_t) (b mode val : Nat)
    (hB : is_basic (s.chan b) = true ∨ is_enabled (s.chan b) = false)
    (h : (fluid_synth_set_basic_channel_LOCAL s b mode val).1 = FLUID_OK) (j : Nat) :
    (fluid_synth_set_basic_channel_LOCAL s b mode val).2.chan j =
      if b ≤ j ∧ j < group_end s b then
        written_chan b (mode &&& 3) (begin_range b (mode &&& 3) val (group_end s b))
          (begin_val b (mode &&& 3) val (group_end s b)) (s.chan j) j
      else s.chan j := by
  obtain ⟨-, -, -, -, hc⟩ := LOCAL_ok_spec s b mode val h
  rw [hc j]
  by_cases hin : b ≤ j ∧ j < group_end s b
  · rw [if_pos hin, if_pos hin]
  · rw [if_neg hin, if_neg hin]
    unfold narrowed_chan
    rw [prev_basic_chan_of_none s b hB]
    have : ¬ ((-1 : Int) = (j : Int)) := by omega
    rw [if_neg this]

/-- The repetition of a successful `fluid_synth_set_basic_channel_LOCAL` succeeds and
changes no channel. -/
theorem LOCAL_idempotent (s : fluid_synth_t) (b mode val : Nat)
    (h : (fluid_synth_set_basic_channel_LOCAL s b mode val).1 = FLUID_OK) :
    (fluid_synth_set_basic_channel_LOCAL
      (fluid_synth_set_basic_channel_LOCAL s b mode val).2 b mode val).1 = FLUID_OK ∧
    (fluid_synth_set_basic_channel_LOCAL
      (fluid_synth_set_basic_channel_LOCAL s b mode val).2 b mode val).2.channel =
      (fluid_synth_set_basic_channel_LOCAL s b mode val).2.channel := by
  obtain ⟨hb, hl, hlen, -, hc⟩ := LOCAL_ok_spec s b mode val h
  have hv := LOCAL_ok_view s b mode val h
  obtain ⟨hg1, hg2, hg3, hg4⟩ := group_end_spec s b hb
  set s1 := (fluid_synth_set_basic_channel_LOCAL s b mode val).2 with hs1
  have hB1 : is_basic (s1.chan b) = true ∨ is_enabled (s1.chan b) = false := by
    have hbin : b ≤ b ∧ b < group_end s b := ⟨le_refl _, hg1⟩
    by_cases hnd : b < begin_range b (mode &&& 3) val (group_end s b)
    · left
      rw [(hv b).1, if_pos hbin]
      simp [hnd]
    · right
      rw [(hv b).2.1, if_pos hbin]
      simp [hnd]
  have hge : group_end s1 b = group_end s b := by
    apply group_end_congr s s1 b hb hlen
    intro j hj1 _
    rw [(hv j).1]
    by_cases hin : b ≤ j ∧ j < group_end s b
    · rw [if_pos hin, hg3 j hj1 hin.2]
      have : j ≠ b := by omega
      simp [this]
    · rw [if_neg hin]
  have hok2 : (fluid_synth_set_basic_channel_LOCAL s1 b mode val).1 = FLUID_OK := by
    rcases LOCAL_result s1 b mode val with hok | hf
    · exact hok
    · exfalso
      rw [LOCAL_fails_iff, hge, hlen] at hf
      rcases hf with hf | hf
      · exact hf hb
      · exact absurd hl (by omega)
  refine ⟨hok2, ?_⟩
  apply channel_ext
  · exact midi_channels_LOCAL s1 b mode val
  · intro j
    rw [LOCAL_ok_chan_of_basic s1 b mode val hB1 hok2 j, hge]
    by_cases hin : b ≤ j ∧ j < group_end s b
    · rw [if_pos hin]
      have h1 : s1.chan j = written_chan b (mode &&& 3)
          (begin_range b (mode &&& 3) val (group_end s b))
          (begin_val b (mode &&& 3) val (group_end s b)) (s.chan j) j := by
        rw [hc j, if_pos hin]
      rw [h1, written_chan_overwrite]
    · rw [if_neg hin]

/-- C20: when `fluid_synth_set_basic_channel (b, mode, val)` returns `FLUID_OK`, the same
call made again at once returns `FLUID_OK` again and leaves the channel array, hence every
basic flag, enabled flag, mode bits and `mode_val`, as the first call left it. -/
theorem set_basic_channel_idempotent (s : fluid_synth_t) (b mode val : Int)
    (h : (fluid_synth_set_basic_channel s (some ⟨b, mode, val⟩)).1 = FLUID_OK) :
    (fluid_synth_set_basic_channel (fluid_synth_set_basic_channel s (some ⟨b, mode, val⟩)).2
      (some ⟨b, mode, val⟩)).1 = FLUID_OK ∧
    (fluid_synth_set_basic_channel (fluid_synth_set_basic_channel s (some ⟨b, mode, val⟩)).2
      (some ⟨b, mode, val⟩)).2.channel =
      (fluid_synth_set_basic_channel s (some ⟨b, mode, val⟩)).2.channel := by
  rcases set_basic_channel_cases s b mode val with ⟨e, -⟩ | ⟨e, a1, a2, a3, a4, a5, a6⟩
  · rw [e] at h; simp at h
  · rw [e] at h ⊢
    have hlen := midi_channels_LOCAL s b.toNat mode.toNat val.toNat
    rw [set_basic_channel_valid _ b mode val a1 a2 a3 a4 (by rw [hlen]; exact a5)
      (by rw [hlen]; exact a6)]
    exact LOCAL_idempotent s b.toNat mode.toNat val.toNat h

/-- Witness of C20: the insertion of basic channel 3 on the default partition of eight
channels, made twice. -/
theorem set_basic_channel_idempotent_witness :
    (fluid_synth_set_basic_channel (default_synth 8) (some ⟨3, 2, 0⟩)).1 = FLUID_OK ∧
    (fluid_synth_set_basic_channel (fluid_synth_set_basic_channel (default_synth 8)
      (some ⟨3, 2, 0⟩)).2 (some ⟨3, 2, 0⟩)).1 = FLUID_OK ∧
    (fluid_synth_set_basic_channel (fluid_synth_set_basic_channel (default_synth 8)
      (some ⟨3, 2, 0⟩)).2 (some ⟨3, 2, 0⟩)).2.channel =
      (fluid_synth_set_basic_channel (default_synth 8) (some ⟨3, 2, 0⟩)).2.channel :=
  ⟨by decide, set_basic_channel_idempotent (default_synth 8) 3 2 0 (by decide)⟩

/-! ## The static success criterion of the bulk replace -/

theorem foldl_min_le_init (l : List Int) : ∀ a : Int, l.foldl min a ≤ a := by
  induction l with
  | nil => intro a; exact le_refl _
  | cons x l ih => intro a; exact le_trans (ih (min a x)) (min_le_left a x)

theorem foldl_min_le_mem (l : List Int) : ∀ (a x : Int), x ∈ l → l.foldl min a ≤ x := by
  induction l with
  | nil => intro a x hx; exact absurd hx (List.not_mem_nil _)
  | cons y l ih =>
    intro a x hx
    rw [List.foldl_cons]
    rcases List.mem_cons.mp hx with h | h
    · rw [h]; exact le_trans (foldl_min_le_init l _) (min_le_right a y)
    · exact ih _ x h

theorem foldl_min_mem_or_init (l : List Int) : ∀ a : Int, l.foldl min a = a ∨ l.foldl min a ∈ l := by
  induction l with
  | nil => intro a; exact Or.inl rfl
  | cons y l ih =>
    intro a
    rw [List.foldl_cons]
    rcases ih (min a y) with h | h
    · rcases min_choice a y with h2 | h2
      · left; rw [h, h2]
      · right; rw [h, h2]; exact List.mem_cons_self _ _
    · right; exact List.mem_cons_of_mem _ h

/-- What characterises `next_named`. -/
theorem next_named_spec (n_chan : Nat) (entries : List fluid_basic_channel_infos_t) (b : Int) :
    next_named n_chan entries b ≤ n_chan ∧
    (∀ e ∈ entries, b < e.basicchan → next_named n_chan entries b ≤ e.basicchan) ∧
    (next_named n_chan entries b = n_chan ∨
      ∃ e ∈ entries, b < e.basicchan ∧ next_named n_chan entries b = e.basicchan) := by
  unfold next_named
  refine ⟨foldl_min_le_init _ _, ?_, ?_⟩
  · intro e he hb
    apply foldl_min_le_mem
    rw [List.mem_filter]
    exact ⟨List.mem_map.mpr ⟨e, he, rfl⟩, by simpa using hb⟩
  · rcases foldl_min_mem_or_init
      ((entries.map fun e => e.basicchan).filter fun x => decide (b < x)) (n_chan : Int)
      with h | h
    · exact Or.inl h
    · right
      rw [List.mem_filter] at h
      obtain ⟨h1, h2⟩ := h
      obtain ⟨e, he, heq⟩ := List.mem_map.mp h1
      refine ⟨e, he, ?_, heq.symm⟩
      rw [heq]; simpa using h2

/-- The value of `next_named` only depends on the set of basic channels named. -/
theorem next_named_congr (n_chan : Nat) (l l' : List fluid_basic_channel_infos_t) (b : Int)
    (h : ∀ x : Int, (∃ e ∈ l, e.basicchan = x) ↔ (∃ e ∈ l', e.basicchan = x)) :
    next_named n_chan l b = next_named n_chan l' b := by
  obtain ⟨a1, a2, a3⟩ := next_named_spec n_chan l b
  obtain ⟨b1, b2, b3⟩ := next_named_spec n_chan l' b
  apply le_antisymm
  · rcases b3 with h3 | ⟨e, he, hb, h3⟩
    · rw [h3]; exact a1
    · obtain ⟨e', he', heq⟩ := (h e.basicchan).mpr ⟨e, he, rfl⟩
      rw [h3, ← heq]
      exact a2 e' he' (by rw [heq]; exact hb)
  · rcases a3 with h3 | ⟨e, he, hb, h3⟩
    · rw [h3]; exact b1
    · obtain ⟨e', he', heq⟩ := (h e.basicchan).mp ⟨e, he, rfl⟩
      rw [h3, ← heq]
      exact b2 e' he' (by rw [heq]; exact hb)

/-- In the prepared state the group of a named basic channel ends at the next named basic
channel. -/
theorem group_end_prepared (s : fluid_synth_t) (entries : List fluid_basic_channel_infos_t)
    (hvalid : ∀ e ∈ entries, entry_invalid s.midi_channels e = false)
    (e : fluid_basic_channel_infos_t) (he : e ∈ entries) :
    (group_end (prepared s entries) e.basicchan.toNat : Int) =
      next_named s.midi_channels entries e.basicchan := by
  have hbd := entry_valid_bounds _ e (hvalid e he)
  obtain ⟨a1, a2, a3⟩ := next_named_spec s.midi_channels entries e.basicchan
  have hn := midi_channels_prepared s entries
  have hb : e.basicchan.toNat < (prepared s entries).midi_channels := by rw [hn]; omega
  have hgt : e.basicchan < next_named s.midi_channels entries e.basicchan := by
    rcases a3 with h | ⟨x, _, hx, h⟩
    · rw [h]; omega
    · rw [h]; exact hx
  have key : is_group_end (prepared s entries) e.basicchan.toNat
      (next_named s.midi_channels entries e.basicchan).toNat := by
    refine ⟨by omega, by rw [hn]; omega, ?_, ?_⟩
    · intro j hj1 hj2
      by_contra hc
      have hjB : is_basic ((prepared s entries).chan j) = true := by simpa using hc
      obtain ⟨⟨x, hx, hxj⟩, -⟩ := (is_basic_prepared s entries j).mp hjB
      have hxb := entry_valid_bounds _ x (hvalid x hx)
      have := a2 x hx (by omega)
      omega
    · intro hlt
      rw [hn] at hlt
      rcases a3 with h | ⟨x, hx, hxb, h⟩
      · omega
      · have hxv := entry_valid_bounds _ x (hvalid x hx)
        exact (is_basic_prepared s entries _).mpr ⟨⟨x, hx, by rw [h]⟩, by omega⟩
  have := is_group_end_unique _ _ _ _ (group_end_spec (prepared s entries) _ hb) key
  rw [this]
  omega

/-- The result of the application of an entry to a synth with the basic channels of `ref`
is the result of its application to `ref`. -/
theorem apply_trace_static (ref : fluid_synth_t) (l : List fluid_basic_channel_infos_t)
    (hno : ∀ e ∈ l, no_wrap e) :
    ∀ s : fluid_synth_t, same_basic ref s →
      (∀ e ∈ l, is_basic (ref.chan e.basicchan.toNat) = true) →
      apply_trace s l = l.map fun e =>
        (e, (fluid_synth_set_basic_channel_LOCAL ref e.basicchan.toNat e.mode.toNat
          e.val.toNat).1) := by
  induction l with
  | nil => intro s _ _; rfl
  | cons e l ih =>
    intro s h hb
    rw [apply_trace, List.map_cons,
      ih (fun x hx => hno x (List.mem_cons_of_mem _ hx)) _
        (apply_entry_same_basic ref s e (hno e (List.mem_cons_self _ _)) h
          (hb e (List.mem_cons_self _ _)))
        (fun x hx => hb x (List.mem_cons_of_mem _ hx)),
      LOCAL_fst_same_basic ref s h]

/-- The check of the LOCAL function on the prepared state is the static check. -/
theorem LOCAL_prepared_ok_iff (s : fluid_synth_t)
    (entries : List fluid_basic_channel_infos_t)
    (hvalid : ∀ e ∈ entries, entry_invalid s.midi_channels e = false)
    (e : fluid_basic_channel_infos_t) (he : e ∈ entries) (hnw : no_wrap e) :
    (fluid_synth_set_basic_channel_LOCAL (prepared s entries) e.basicchan.toNat e.mode.toNat
      e.val.toNat).1 = FLUID_OK ↔ entry_fits s.midi_channels entries e := by
  have hbd := entry_valid_bounds _ e (hvalid e he)
  have hge := group_end_prepared s entries hvalid e he
  have hn := midi_channels_prepared s entries
  have hgs := group_end_spec (prepared s entries) e.basicchan.toNat (by rw [hn]; omega)
  rw [LOCAL_ok_iff _ _ _ _ hnw, and_three_of_lt _ (by omega : e.mode.toNat < 4), hn]
  unfold entry_fits enabled_end
  rw [← hge]
  have hg1 := hgs.1
  constructor
  · rintro ⟨-, h⟩ hm hv
    have e2 : ¬ (e.mode.toNat = FLUID_CHANNEL_MODE_OMNIOFF_POLY) := by
      simp only [FLUID_CHANNEL_MODE_OMNIOFF_POLY]; omega
    have e3 : e.mode.toNat = FLUID_CHANNEL_MODE_OMNIOFF_MONO ∧ e.val.toNat > 0 := by
      simp only [FLUID_CHANNEL_MODE_OMNIOFF_MONO]; omega
    rw [if_neg e2, if_pos e3] at h
    omega
  · intro h
    refine ⟨by omega, ?_⟩
    split_ifs with h1 h2
    · omega
    · obtain ⟨h3, h4⟩ := h2
      simp only [FLUID_CHANNEL_MODE_OMNIOFF_MONO] at h3
      have := h (by omega) (by omega)
      omega
    · exact le_refl _

/-- For a non-empty entry list that passes the validation loop and in which no sum
`basicchan + val` exceeds `INT_MAX`, `fluid_synth_reset_basic_channels` returns `FLUID_OK`
exactly when every entry in Omni-Off/Mono with `val > 0` has `basicchan + val` at most the
smallest basic channel named in the list above its own (`N` if there is none); the
application of each entry succeeds or fails by that check alone, and the check only depends
on the channel count and on the set of basic channels the list names, not on the prior
state or on the order. -/
theorem reset_basic_channels_static_criterion_exact (s : fluid_synth_t) (n : Int)
    (a : List fluid_basic_channel_infos_t) (hn0 : 0 < n) (hn : n ≤ s.midi_channels)
    (hvalid : ∀ e ∈ a.take n.toNat, entry_invalid s.midi_channels e = false)
    (hnov : ∀ e ∈ a.take n.toNat, e.basicchan + e.val ≤ INT_MAX) :
    let entries := a.take n.toNat
    ((fluid_synth_reset_basic_channels s n (some a)).1 = FLUID_OK ↔
      ∀ e ∈ entries, e.mode = 3 → 0 < e.val →
        e.basicchan + e.val ≤ next_named s.midi_channels entries e.basicchan) ∧
    (∀ p ∈ apply_trace (prepared s entries) entries,
      (p.2 = FLUID_OK ↔ (p.1.mode = 3 → 0 < p.1.val →
        p.1.basicchan + p.1.val ≤ next_named s.midi_channels entries p.1.basicchan)) ∧
      (p.2 = FLUID_OK ∨ p.2 = FLUID_FAILED)) ∧
    (∀ (l' : List fluid_basic_channel_infos_t) (b : Int),
      (∀ x : Int, (∃ e ∈ entries, e.basicchan = x) ↔ (∃ e ∈ l', e.basicchan = x)) →
      next_named s.midi_channels entries b = next_named s.midi_channels l' b) := by
  intro entries
  have hr := reset_basic_channels_checked s n a hn0 hn hvalid
  have hnw : ∀ e ∈ entries, no_wrap e :=
    fun e he => entry_no_wrap _ e (hvalid e he) (hnov e he)
  have hb : ∀ e ∈ entries, is_basic ((prepared s entries).chan e.basicchan.toNat) = true := by
    intro e he
    have := entry_valid_bounds _ e (hvalid e he)
    exact (is_basic_prepared s entries _).mpr ⟨⟨e, he, rfl⟩, by omega⟩
  refine ⟨?_, ?_, fun l' b h => next_named_congr _ entries l' b h⟩
  · rw [hr, apply_loop_ok_iff (prepared s entries) entries hnw _ (same_basic_refl _) hb]
    constructor
    · intro h e he
      exact (LOCAL_prepared_ok_iff s entries hvalid e he (hnw e he)).mp (h e he)
    · intro h e he
      exact (LOCAL_prepared_ok_iff s entries hvalid e he (hnw e he)).mpr (h e he)
  · intro p hp
    rw [apply_trace_static (prepared s entries) entries hnw _ (same_basic_refl _) hb] at hp
    obtain ⟨e, he, rfl⟩ := List.mem_map.mp hp
    exact ⟨LOCAL_prepared_ok_iff s entries hvalid e he (hnw e he), LOCAL_result _ _ _ _⟩

/-- C19 fails on the code: on eight channels the one-entry list
`(1, Omni-Off/Mono, INT_MAX)` passes the validation loop, whose sum `basicchan + val`
wraps around, and `fluid_synth_reset_basic_channels` returns `FLUID_OK` with it, although
`1 + INT_MAX` is greater than 8, the bound of the criterion (no basic channel is named
above 1). -/
theorem reset_basic_channels_static_overflow :
    (default_synth 8).midi_channels = 8 ∧
    entry_invalid 8 ⟨1, 3, 2147483647⟩ = false ∧
    (fluid_synth_reset_basic_channels (default_synth 8) 1 (some [⟨1, 3, 2147483647⟩])).1 =
      FLUID_OK ∧
    next_named 8 [⟨1, 3, 2147483647⟩] 1 = 8 ∧
    ¬ (∀ e ∈ [(⟨1, 3, 2147483647⟩ : fluid_basic_channel_infos_t)], e.mode = 3 → 0 < e.val →
        e.basicchan + e.val ≤ next_named 8 [⟨1, 3, 2147483647⟩] e.basicchan) := by
  refine ⟨by decide, by decide, by decide, by decide, by decide⟩

/-! ## Index safety -/

theorem chan_checked_of_lt (s : fluid_synth_t) (i : Nat) (h : i < s.midi_channels) :
    s.chan_checked (i : Int) = some (s.chan i) := by
  unfold fluid_synth_t.chan_checked fluid_synth_t.chan
  unfold fluid_synth_t.midi_channels at h
  simp [List.getD, h]

theorem chan_checked_int (s : fluid_synth_t) (i : Int) (h0 : 0 ≤ i)
    (h : i < s.midi_channels) : s.chan_checked i = some (s.chan i.toNat) := by
  obtain ⟨k, rfl⟩ := Int.eq_ofNat_of_zero_le h0
  exact chan_checked_of_lt s k (by omega)

theorem chan_checked_neg (s : fluid_synth_t) (i : Int) (h : i < 0) :
    s.chan_checked i = none := by
  unfold fluid_synth_t.chan_checked
  rw [if_neg (by omega)]

theorem chan_checked_ge (s : fluid_synth_t) (i : Int) (h : (s.midi_channels : Int) ≤ i) :
    s.chan_checked i = none := by
  unfold fluid_synth_t.chan_checked
  unfold fluid_synth_t.midi_channels at h
  split_ifs with h0
  · rw [List.getElem?_eq_none]; omega
  · rfl

theorem set_chan_checked_of_lt (s : fluid_synth_t) (i : Nat) (c : fluid_channel_t)
    (h : i < s.midi_channels) : s.set_chan_checked (i : Int) c = some (s.set_chan i c) := by
  unfold fluid_synth_t.set_chan_checked
  rw [if_pos ⟨by omega, by omega⟩]
  rfl

theorem search_prev_checked (s : fluid_synth_t) : ∀ k : Nat, k ≤ s.midi_channels →
    search_prev_basic_chan_checked s k = some (search_prev_basic_chan s k) := by
  intro k
  induction k with
  | zero => intro _; rfl
  | succ i ih =>
    intro h
    rw [search_prev_basic_chan_checked, chan_checked_of_lt s i (by omega),
      search_prev_basic_chan]
    simp only
    split_ifs
    · rfl
    · exact ih (by omega)

theorem scan_checked (s : fluid_synth_t) : ∀ (left l : Nat), l + left ≤ s.midi_channels →
    scan_last_end_range_checked s left l = some (scan_last_end_range s left l) := by
  intro left
  induction left with
  | zero => intro l _; rfl
  | succ n ih =>
    intro l h
    rw [scan_last_end_range_checked, chan_checked_of_lt s l (by omega),
      scan_last_end_range]
    simp only
    split_ifs
    · rfl
    · exact ih (l + 1) (by omega)

/-- A loop whose iterations succeed and keep an invariant succeeds, and yields what the
unchecked loop yields. -/
theorem foldlM_checked {α β : Type} (f : β → α → Option β) (g : β → α → β) (P : β → Prop)
    (l : List α)
    (h : ∀ b a, a ∈ l → P b → f b a = some (g b a) ∧ P (g b a)) :
    ∀ b, P b → l.foldlM f b = some (l.foldl g b) ∧ P (l.foldl g b) := by
  induction l with
  | nil => intro b hb; exact ⟨rfl, hb⟩
  | cons a l ih =>
    intro b hb
    obtain ⟨h1, h2⟩ := h b a (List.mem_cons_self _ _) hb
    rw [List.foldlM_cons, h1, List.foldl_cons]
    exact ih (fun b x hx hP => h b x (List.mem_cons_of_mem _ hx) hP) (g b a) h2

theorem step_checked (b m lbr : Nat) (st : fluid_synth_t × Nat) (i : Nat)
    (h : i < st.1.midi_channels) :
    set_basic_channel_step_checked b m lbr st i = some (set_basic_channel_step b m lbr st i) := by
  have hi : i < (fluid_synth_all_notes_off_LOCAL st.1 i).midi_channels := h
  unfold set_basic_channel_step_checked set_basic_channel_step
  simp only [chan_checked_of_lt _ i hi, set_chan_checked_of_lt _ i _ hi]

theorem midi_channels_step (b m lbr : Nat) (st : fluid_synth_t × Nat) (i : Nat) :
    (set_basic_channel_step b m lbr st i).1.midi_channels = st.1.midi_channels := by
  rw [step_eq]
  exact midi_channels_set_chan _ _ _

theorem write_loop_checked (b m lbr : Nat) (l : List Nat) (s : fluid_synth_t) (w : Nat)
    (h : ∀ i ∈ l, i < s.midi_channels) :
    l.foldlM (set_basic_channel_step_checked b m lbr) (s, w) =
      some (l.foldl (set_basic_channel_step b m lbr) (s, w)) := by
  refine (foldlM_checked _ _ (fun st => st.1.midi_channels = s.midi_channels) l ?_ (s, w)
    rfl).1
  intro st i hi hP
  refine ⟨step_checked b m lbr st i (by rw [hP]; exact h i hi), ?_⟩
  show (set_basic_channel_step b m lbr st i).1.midi_channels = s.midi_channels
  rw [midi_channels_step, hP]

/-- The checked `fluid_synth_set_basic_channel_LOCAL` accesses no index outside the array
when `basicchan` is not negative, and it yields what the unchecked function yields. -/
theorem LOCAL_checked (s : fluid_synth_t) (b mode val : Nat) :
    fluid_synth_set_basic_channel_LOCAL_checked s (b : Int) mode val =
      some (fluid_synth_set_basic_channel_LOCAL s b mode val) := by
  unfold fluid_synth_set_basic_channel_LOCAL_checked fluid_synth_set_basic_channel_LOCAL
  by_cases hb : b < s.midi_channels
  · have hbi : (b : Int) < (s.midi_channels : Int) := by omega
    have hscan := scan_spec s (s.midi_channels - (b + 1)) (b + 1)
    simp only at hscan
    obtain ⟨hs1, hs2, -, -⟩ := hscan
    simp only [hbi, hb, if_true, chan_checked_of_lt s b hb, Int.toNat_ofNat,
      scan_checked s (s.midi_channels - (b + 1)) (b + 1) (by omega)]
    have hprev : (if (!is_basic (s.chan b)) = true then
          if is_enabled (s.chan b) = true then search_prev_basic_chan_checked s b
          else some (-1)
        else some (-1)) = some (prev_basic_chan_of s b) := by
      unfold prev_basic_chan_of
      split_ifs
      · exact search_prev_checked s b (by omega)
      · rfl
      · rfl
    rw [hprev]
    simp only
    have hp : (if (!is_basic (s.chan b)) = true then
          if is_enabled (s.chan b) = true then search_prev_basic_chan s b else -1
        else -1) = prev_basic_chan_of s b := rfl
    rw [hp]
    split_ifs with h1 h2
    · rfl
    · rcases prev_basic_chan_of_spec s b with hneg | ⟨p, hpe, hpb, -⟩
      · rw [hneg] at h2; simp at h2
      · rw [hpe]
        simp only [chan_checked_of_lt s p (by omega), Int.toNat_ofNat,
          set_chan_checked_of_lt s p _ (by omega)]
        rw [write_loop_checked]
        intro i hi
        rw [midi_channels_set_chan]
        rw [List.mem_range'_1] at hi
        omega
    · simp only
      rw [write_loop_checked]
      intro i hi
      rw [List.mem_range'_1] at hi
      omega
  · have hbi : ¬ ((b : Int) < (s.midi_channels : Int)) := by omega
    simp only [hbi, hb, if_false]

/-- The C function tests `basicchan < n_chan` only: with a negative `basicchan` it reads
outside the array. -/
theorem LOCAL_checked_neg (s : fluid_synth_t) (b : Int) (mode val : Nat) (h : b < 0) :
    fluid_synth_set_basic_channel_LOCAL_checked s b mode val = none := by
  unfold fluid_synth_set_basic_channel_LOCAL_checked
  have hb : b < (s.midi_channels : Int) := by omega
  simp only [hb, if_true, chan_checked_neg s b h]

theorem LOCAL_checked_int (s : fluid_synth_t) (b : Int) (mode val : Nat) (h : 0 ≤ b) :
    fluid_synth_set_basic_channel_LOCAL_checked s b mode val =
      some (fluid_synth_set_basic_channel_LOCAL s b.toNat mode val) := by
  obtain ⟨k, rfl⟩ := Int.eq_ofNat_of_zero_le h
  exact LOCAL_checked s k mode val

theorem set_basic_channel_checked (s : fluid_synth_t)
    (infos : Option fluid_basic_channel_infos_t) :
    fluid_synth_set_basic_channel_checked s infos =
      some (fluid_synth_set_basic_channel s infos) := by
  unfold fluid_synth_set_basic_channel_checked fluid_synth_set_basic_channel
  cases infos with
  | none => rfl
  | some e =>
    simp only
    split_ifs with h1 h2 h3 h4 h5 h6
    all_goals first
      | rfl
      | exact LOCAL_checked_int s e.basicchan _ _ (by omega)

theorem clear_loop_checked (s : fluid_synth_t) : ∀ k : Nat, k ≤ s.midi_channels →
    ∃ t, (List.range k).foldlM clear_basic_channel_checked s = some t ∧
      t.midi_channels = s.midi_channels ∧ t.notes_off = s.notes_off ∧
      ∀ j, t.chan j =
        if j < k then { fluid_channel_reset_basic_channel_info (s.chan j) with mode_val := 0 }
        else s.chan j := by
  intro k
  induction k with
  | zero => intro _; exact ⟨s, rfl, rfl, rfl, fun j => by simp⟩
  | succ k ih =>
    intro hk
    obtain ⟨t, h1, h2, h3, h4⟩ := ih (by omega)
    have hkt : k < t.midi_channels := by omega
    refine ⟨t.set_chan k
      { fluid_channel_reset_basic_channel_info (t.chan k) with mode_val := 0 }, ?_, ?_, ?_, ?_⟩
    · rw [List.range_succ, List.foldlM_append, h1]
      simp only [Option.bind_eq_bind, Option.some_bind, List.foldlM_cons, List.foldlM_nil,
        clear_basic_channel_checked, chan_checked_of_lt t k hkt,
        set_chan_checked_of_lt t k _ hkt]
      rfl
    · rw [midi_channels_set_chan, h2]
    · rw [notes_off_set_chan, h3]
    · intro j
      by_cases hj : j = k
      · subst hj
        rw [chan_set_chan_eq _ _ _ hkt, h4 j]
        simp
      · rw [chan_set_chan_ne _ _ _ _ (Ne.symm hj), h4 j]
        by_cases hjk : j < k
        · rw [if_pos hjk, if_pos (by omega)]
        · rw [if_neg hjk, if_neg (by omega)]

theorem clear_checked (s : fluid_synth_t) :
    clear_basic_channels_checked s = some (clear_basic_channels s) := by
  obtain ⟨t, h1, h2, h3, h4⟩ := clear_loop_checked s s.midi_channels (le_refl _)
  unfold clear_basic_channels_checked
  rw [h1]
  congr 1
  apply synth_ext
  · rw [h2, midi_channels_clear]
  · intro i hi
    rw [h2] at hi
    rw [h4 i, if_pos hi, chan_clear s i hi]
  · rw [h3]; rfl

theorem mark_checked (s : fluid_synth_t) (e : fluid_basic_channel_infos_t)
    (h0 : 0 ≤ e.basicchan) (h : e.basicchan < s.midi_channels) :
    mark_basic_channel_checked s e = some (mark_basic_channel s e) := by
  obtain ⟨k, hk⟩ := Int.eq_ofNat_of_zero_le h0
  have hkl : k < s.midi_channels := by omega
  unfold mark_basic_channel_checked mark_basic_channel
  simp only [hk, chan_checked_of_lt s k hkl, Int.toNat_ofNat]
  split_ifs
  · rfl
  · exact set_chan_checked_of_lt s k _ hkl

theorem mark_loop_checked (n_chan : Nat) (l : List fluid_basic_channel_infos_t)
    (hvalid : ∀ e ∈ l, entry_invalid n_chan e = false) (s : fluid_synth_t)
    (hs : s.midi_channels = n_chan) :
    l.foldlM mark_basic_channel_checked s = some (l.foldl mark_basic_channel s) := by
  refine (foldlM_checked _ _ (fun t => t.midi_channels = n_chan) l ?_ s hs).1
  intro t e he hP
  have hb := entry_valid_bounds n_chan e (hvalid e he)
  refine ⟨mark_checked t e hb.1 (by rw [hP]; exact hb.2.1), ?_⟩
  show (mark_basic_channel t e).midi_channels = n_chan
  rw [midi_channels_mark, hP]

theorem apply_checked (st : Int × fluid_synth_t) (e : fluid_basic_channel_infos_t)
    (h0 : 0 ≤ e.basicchan) :
    apply_basic_channel_checked st e = some (apply_basic_channel st e) := by
  unfold apply_basic_channel_checked apply_basic_channel
  rw [LOCAL_checked_int st.2 e.basicchan _ _ h0]

theorem apply_loop_checked (n_chan : Nat) (l : List fluid_basic_channel_infos_t)
    (hvalid : ∀ e ∈ l, entry_invalid n_chan e = false) (st : Int × fluid_synth_t) :
    l.foldlM apply_basic_channel_checked st = some (l.foldl apply_basic_channel st) := by
  refine (foldlM_checked _ _ (fun _ => True) l ?_ st trivial).1
  intro t e he _
  exact ⟨apply_checked t e (entry_valid_bounds n_chan e (hvalid e he)).1, trivial⟩

theorem reset_basic_channels_checked_eq (s : fluid_synth_t) (n : Int)
    (infos : Option (List fluid_basic_channel_infos_t)) :
    fluid_synth_reset_basic_channels_checked s n infos =
      some (fluid_synth_reset_basic_channels s n infos) := by
  unfold fluid_synth_reset_basic_channels_checked fluid_synth_reset_basic_channels
  by_cases h1 : n ≥ 0
  · by_cases h2 : n > (s.midi_channels : Int)
    · simp only [h1, not_true, if_false, h2, if_true]
    · simp only [h1, not_true, if_false, h2]
      cases hm : (if n ≠ 0 then infos else none) with
      | none =>
        simp only [clear_checked]
        exact LOCAL_checked (clear_basic_channels s) 0 _ _
      | some a =>
        simp only
        by_cases h3 : (List.take n.toNat a).any (entry_invalid s.midi_channels) = true
        · simp only [h3, if_true]
        · simp only [h3, clear_checked]
          have hvalid : ∀ e ∈ List.take n.toNat a, entry_invalid s.midi_channels e = false := by
            intro e he
            by_contra hc
            exact h3 (List.any_eq_true.mpr ⟨e, he, by simpa using hc⟩)
          rw [mark_loop_checked s.midi_channels _ hvalid _ (midi_channels_clear s)]
          exact apply_loop_checked s.midi_channels _ hvalid _
  · simp only [h1, not_false_eq_true, if_true]

theorem count_loop_checked (s : fluid_synth_t) (l : List Nat)
    (h : ∀ i ∈ l, i < s.midi_channels) (n : Nat) :
    l.foldlM (count_basic_channel_checked s) n =
      some (l.foldl (fun n i => if is_basic (s.chan i) then n + 1 else n) n) := by
  refine (foldlM_checked _ _ (fun _ => True) l ?_ n trivial).1
  intro m i hi _
  refine ⟨?_, trivial⟩
  unfold count_basic_channel_checked
  rw [chan_checked_of_lt s i (h i hi)]

theorem fill_loop_checked (s : fluid_synth_t) (l : List Nat)
    (h : ∀ i ∈ l, i < s.midi_channels) (bci : List fluid_basic_channel_infos_t) :
    l.foldlM (fill_basic_channel_checked s) bci =
      some (l.foldl (fun bci i =>
        if is_basic (s.chan i) then
          bci ++ [{ basicchan := (i : Int), mode := (mode_bits (s.chan i) : Int),
                    val := ((s.chan i).mode_val : Int) }]
        else bci) bci) := by
  refine (foldlM_checked _ _ (fun _ => True) l ?_ bci trivial).1
  intro m i hi _
  refine ⟨?_, trivial⟩
  unfold fill_basic_channel_checked
  rw [chan_checked_of_lt s i (h i hi)]

theorem fill_loop_eq (s : fluid_synth_t) (l : List Nat) :
    ∀ bci : List fluid_basic_channel_infos_t,
      l.foldl (fun bci i =>
        if is_basic (s.chan i) then
          bci ++ [{ basicchan := (i : Int), mode := (mode_bits (s.chan i) : Int),
                    val := ((s.chan i).mode_val : Int) }]
        else bci) bci =
      bci ++ l.filterMap fun i =>
        if is_basic (s.chan i) then
          some { basicchan := (i : Int), mode := (mode_bits (s.chan i) : Int),
                 val := ((s.chan i).mode_val : Int) }
        else none := by
  induction l with
  | nil => intro bci; simp
  | cons i l ih =>
    intro bci
    rw [List.foldl_cons, ih]
    by_cases hb : is_basic (s.chan i) = true
    · simp [hb, List.filterMap_cons]
    · simp [hb, List.filterMap_cons]

theorem get_basic_channels_checked_eq (s : fluid_synth_t) (want_infos alloc_ok : Bool) :
    fluid_synth_get_basic_channels_checked s want_infos alloc_ok =
      some (fluid_synth_get_basic_channels s want_infos alloc_ok) := by
  have hr : ∀ i ∈ List.range s.midi_channels, i < s.midi_channels :=
    fun i hi => List.mem_range.mp hi
  unfold fluid_synth_get_basic_channels_checked fluid_synth_get_basic_channels
  simp only [count_loop_checked s _ hr 0, fill_loop_checked s _ hr [], fill_loop_eq,
    List.nil_append]
  split_ifs <;> rfl

theorem get_channel_mode_checked_eq (s : fluid_synth_t) (chan : Int) (mode_infos : Bool) :
    fluid_synth_get_channel_mode_checked s chan mode_infos =
      some (fluid_synth_get_channel_mode s chan mode_infos) := by
  unfold fluid_synth_get_channel_mode_checked fluid_synth_get_channel_mode
  by_cases h1 : (!mode_infos) = true
  · simp only [h1, if_true]
  · by_cases h2 : chan ≥ 0
    · by_cases h3 : chan ≥ (s.midi_channels : Int)
      · simp only [h1, h2, h3, not_true, if_false, if_true, Bool.false_eq_true]
      · have hs : (if is_enabled (s.chan chan.toNat) = true then
              search_prev_basic_chan_checked s (chan.toNat + 1)
            else some (-1)) =
            some (if is_enabled (s.chan chan.toNat) = true then
              search_prev_basic_chan s (chan.toNat + 1) else -1) := by
          split_ifs
          · exact search_prev_checked s _ (by omega)
          · rfl
        simp only [h1, h2, h3, not_true, if_false, chan_checked_int s chan h2 (by omega), hs,
          Bool.false_eq_true]
    · simp only [h1, h2, not_false_eq_true, if_false, if_true, Bool.false_eq_true]

theorem chan_checked_isSome (s : fluid_synth_t) (i : Int) :
    (s.chan_checked i).isSome = true ↔ 0 ≤ i ∧ i < s.midi_channels := by
  by_cases h0 : 0 ≤ i
  · by_cases h1 : i < (s.midi_channels : Int)
    · rw [chan_checked_int s i h0 h1]
      exact ⟨fun _ => ⟨h0, h1⟩, fun _ => rfl⟩
    · rw [chan_checked_ge s i (by omega)]
      exact ⟨fun h => by simp at h, fun h => absurd h.2 h1⟩
  · rw [chan_checked_neg s i (by omega)]
    exact ⟨fun h => by simp at h, fun h => absurd h.1 h0⟩

theorem set_chan_checked_isSome (s : fluid_synth_t) (i : Int) (c : fluid_channel_t) :
    (s.set_chan_checked i c).isSome = true ↔ 0 ≤ i ∧ i < s.midi_channels := by
  unfold fluid_synth_t.set_chan_checked
  split_ifs with h
  · exact ⟨fun _ => h, fun _ => rfl⟩
  · exact ⟨fun hc => by simp at hc, fun hc => absurd hc h⟩

/-- C21: index safety. With bounds-checked indexing of the channel array (a read or a write
of `synth->channel[i]` yields `none` exactly when `i` lies outside `[0, N)`), every call of
`fluid_synth_set_basic_channel`, `fluid_synth_reset_basic_channels`,
`fluid_synth_get_basic_channels` and `fluid_synth_get_channel_mode` completes without a
failed access and yields what the unchecked function yields, in every state and for all
arguments; so does `fluid_synth_set_basic_channel_LOCAL` when `basicchan` is not negative
(it tests `basicchan < n_chan` itself), and its loops: the backward search from any index
at most `N`, the forward scan that has at most `N - last_end_range` iterations left, and the
write loop over any indices below `N`. For `b < N` the indices written are those of
`[b, groupEnd)` with `groupEnd ≤ N`, and the narrowed previous basic channel, when there is
one, lies in `[0, b)`. -/
theorem index_safety (s : fluid_synth_t) :
    (∀ i : Int, (s.chan_checked i).isSome = true ↔ 0 ≤ i ∧ i < s.midi_channels) ∧
    (∀ (i : Int) (c : fluid_channel_t),
      (s.set_chan_checked i c).isSome = true ↔ 0 ≤ i ∧ i < s.midi_channels) ∧
    (∀ infos, fluid_synth_set_basic_channel_checked s infos =
      some (fluid_synth_set_basic_channel s infos)) ∧
    (∀ n infos, fluid_synth_reset_basic_channels_checked s n infos =
      some (fluid_synth_reset_basic_channels s n infos)) ∧
    (∀ want_infos alloc_ok, fluid_synth_get_basic_channels_checked s want_infos alloc_ok =
      some (fluid_synth_get_basic_channels s want_infos alloc_ok)) ∧
    (∀ chan mode_infos, fluid_synth_get_channel_mode_checked s chan mode_infos =
      some (fluid_synth_get_channel_mode s chan mode_infos)) ∧
    (∀ (b : Int) (mode val : Nat), 0 ≤ b →
      fluid_synth_set_basic_channel_LOCAL_checked s b mode val =
        some (fluid_synth_set_basic_channel_LOCAL s b.toNat mode val)) ∧
    (∀ k : Nat, k ≤ s.midi_channels →
      search_prev_basic_chan_checked s k = some (search_prev_basic_chan s k)) ∧
    (∀ left l : Nat, l + left ≤ s.midi_channels →
      scan_last_end_range_checked s left l = some (scan_last_end_range s left l)) ∧
    (∀ (b m lbr w : Nat) (l : List Nat), (∀ i ∈ l, i < s.midi_channels) →
      l.foldlM (set_basic_channel_step_checked b m lbr) (s, w) =
        some (l.foldl (set_basic_channel_step b m lbr) (s, w))) ∧
    (∀ b : Nat, b < s.midi_channels →
      b < group_end s b ∧ group_end s b ≤ s.midi_channels ∧
      (prev_basic_chan_of s b = -1 ∨
        (0 ≤ prev_basic_chan_of s b ∧ prev_basic_chan_of s b < b))) := by
  refine ⟨chan_checked_isSome s, set_chan_checked_isSome s, set_basic_channel_checked s,
    reset_basic_channels_checked_eq s, get_basic_channels_checked_eq s,
    get_channel_mode_checked_eq s, fun b mode val h => LOCAL_checked_int s b mode val h,
    search_prev_checked s, scan_checked s,
    fun b m lbr w l h => write_loop_checked b m lbr l s w h, ?_⟩
  intro b hb
  obtain ⟨h1, h2, -, -⟩ := group_end_spec s b hb
  refine ⟨h1, h2, ?_⟩
  rcases prev_basic_chan_of_spec s b with h | ⟨p, hp, hpb, -⟩
  · exact Or.inl h
  · right
    rw [hp]
    omega

/-- Witness of C21: inserting basic channel 5 in the state with basic channels 0 and 3 on
eight channels accesses no index outside the array; with `basicchan = -1` the LOCAL
function, which its callers never call so, reads outside the array. -/
theorem index_safety_witness :
    (0 : Int) ≤ 5 ∧
    fluid_synth_set_basic_channel_LOCAL_checked synth_insert_3 5 3 2 =
      some (fluid_synth_set_basic_channel_LOCAL synth_insert_3 (5 : Int).toNat 3 2) ∧
    (fluid_synth_set_basic_channel_LOCAL synth_insert_3 (5 : Int).toNat 3 2).1 = FLUID_OK ∧
    fluid_synth_set_basic_channel_LOCAL_checked synth_insert_3 (-1) 0 0 = none ∧
    (fluid_synth_set_basic_channel_checked synth_insert_3 (some ⟨-1, 0, 0⟩)) =
      some (FLUID_FAILED, synth_insert_3) :=
  ⟨by decide, (index_safety synth_insert_3).2.2.2.2.2.2.1 5 3 2 (by decide), by decide,
    by decide, by decide⟩

end FluidSynth
